import Mathlib

/-!
# kms-glsl `shadertoy.c`: version resolver, template synthesiser, glyph rasteriser

A shallow embedding of the pure parts of `shadertoy.c` and theorems about them.
C strings are modelled as `List Char` (the bytes before the terminating NUL),
C `int` values as `Int`, sizes and indices as `Nat`.
-/

namespace Shadertoy

/-! ## Version resolver (`glsl_version`, lines 158-210) -/

/-- Character class `[[:space:]]` of POSIX regular expressions in the C locale. -/
def isSpaceClass (c : Char) : Bool :=
  c == ' ' || c == '\t' || c == '\n' || c == '\x0b' || c == '\x0c' || c == '\r'

/-- Character class `[[:digit:]]` of POSIX regular expressions. -/
def isDigitClass (c : Char) : Bool :=
  decide ('0' ≤ c) && decide (c ≤ '9')

/-- Match offsets of one parenthesised group: `regmatch_t` of `<regex.h>`.
An unmatched group has both offsets equal to `-1`. -/
structure regmatch_t where
  rm_so : Int
  rm_eo : Int
deriving DecidableEq, Repr

/-- The array `regmatch_t groups[4]` filled by `regexec`: the whole match and
the three parenthesised groups of `GLSL_VERSION_REGEX`. -/
structure Groups where
  g0 : regmatch_t
  g1 : regmatch_t
  g2 : regmatch_t
  g3 : regmatch_t
deriving DecidableEq, Repr

/-- Return code of `regexec` for "no match". -/
def REG_NOMATCH : Int := 1

/-- Groups reported when nothing matched (their content is not read). -/
def noGroups : Groups :=
  ⟨⟨-1, -1⟩, ⟨-1, -1⟩, ⟨-1, -1⟩, ⟨-1, -1⟩⟩

/-- The offsets reported for a match that begins at offset `i` and consists of
`GLSL`, `n1` spaces, `esLen` bytes of the optional group (2 or 0), `n2` spaces,
`nmaj` digits, a dot and `nmin` digits. -/
def groupsAt (i n1 esLen n2 nmaj nmin : Nat) : Groups :=
  let esStart := i + 4 + n1
  let majStart := esStart + esLen + n2
  let minStart := majStart + nmaj + 1
  { g0 := ⟨i, minStart + nmin⟩
    g1 := if esLen = 2 then ⟨esStart, esStart + 2⟩ else ⟨-1, -1⟩
    g2 := ⟨majStart, majStart + nmaj⟩
    g3 := ⟨minStart, minStart + nmin⟩ }

/-- Attempt to match `GLSL_VERSION_REGEX`, that is
`GLSL[[:space:]]*(ES)?[[:space:]]*([[:digit:]]+)\.([[:digit:]]+)`,
against a prefix of `t`, where `t` starts at offset `i` of the subject string.
The pattern is followed item by item: the literal `GLSL`, a run of spaces, the
optional group `ES`, a run of spaces, the digits of the major number, a dot and
the digits of the minor number.  Every repetition takes the longest run; no
shorter choice can succeed, because the item after a run never accepts a
character of the run (and skipping `ES` leaves an `E` where a space or digit is
required), so this is the longest match beginning at offset `i`. -/
def match_at (t : List Char) (i : Nat) : Option Groups :=
  if t.take 4 = ['G', 'L', 'S', 'L'] then
    let r := t.drop 4
    let n1 := (r.takeWhile isSpaceClass).length
    let r1 := r.dropWhile isSpaceClass
    let esLen := if r1.take 2 = ['E', 'S'] then 2 else 0
    let r2 := r1.drop esLen
    let n2 := (r2.takeWhile isSpaceClass).length
    let r3 := r2.dropWhile isSpaceClass
    let nmaj := (r3.takeWhile isDigitClass).length
    let r4 := r3.dropWhile isDigitClass
    if r4.take 1 = ['.'] then
      let r5 := r4.drop 1
      let nmin := (r5.takeWhile isDigitClass).length
      if 0 < nmaj ∧ 0 < nmin then
        some (groupsAt i n1 esLen n2 nmaj nmin)
      else none
    else none
  else none

/-- The search of `regexec`: the match beginning at the smallest offset wins.
`t` is the rest of the subject from offset `i` on. -/
def regexec_from : List Char → Nat → Option Groups
  | [], _ => none
  | c :: cs, i =>
    match match_at (c :: cs) i with
    | some g => some g
    | none => regexec_from cs (i + 1)

/-- Model of `regexec(&regex, str, 4, groups, 0)` for the compiled
`GLSL_VERSION_REGEX`: the return code (0 or `REG_NOMATCH`) and the groups. -/
def regexec (str : List Char) : Int × Groups :=
  match regexec_from str 0 with
  | some g => (0, g)
  | none => (REG_NOMATCH, noGroups)

/-- What the program finds in memory right after each of the three blocks
that `extract_group` returns (for the groups `ES`, major and minor): the bytes
up to the first NUL.  `extract_group` allocates exactly `rm_eo - rm_so` bytes
and writes no terminator, so these bytes are not the program's own: they depend
on the allocator and on the state of the heap, and are an input of the
model. -/
structure Trailing where
  es : List Char
  major : List Char
  minor : List Char
deriving DecidableEq

/-- Embedding of `extract_group`, as the string that `strcmp`, `strcasecmp` and
`asprintf` read through the returned pointer: the bytes of `str` between the
two offsets (none for an unmatched group, whose offsets are both `-1`), which
`memcpy` puts into a `calloc` block of exactly that many bytes, and then,
since the block has no terminator, the bytes `after` that follow the block in
memory up to the first NUL. -/
def extract_group (str : List Char) (group : regmatch_t) (after : List Char) : List Char :=
  (str.drop group.rm_so.toNat).take (group.rm_eo - group.rm_so).toNat ++ after

/-- Test `strcasecmp(a, b) == 0`: equality up to ASCII case. -/
def strcasecmp_eq (a b : List Char) : Bool :=
  a.map Char.toLower == b.map Char.toLower

/-- Embedding of `glsl_version`.  `regcomp_ret` is the return code of `regcomp`
on the constant pattern, `driver` the string of
`glGetString(GL_SHADING_LANGUAGE_VERSION)`, `after` the bytes found after the
three unterminated blocks of `extract_group`.  `Except.error` is a call of
`err` (the process exits); `Except.ok` carries the returned directive value.
The minor string `00` that replaces `0` is written by `strcpy` and is
terminated. -/
def glsl_version (regcomp_ret : Int) (driver : List Char) (after : Trailing) :
    Except Int (List Char) :=
  if regcomp_ret ≠ 0 then .error regcomp_ret
  else if driver.length = 0 then .ok []
  else
    let res := regexec driver
    if res.1 = REG_NOMATCH then .ok []
    else if res.1 ≠ 0 then .error res.1
    else
      let es := extract_group driver res.2.g1 after.es
      let major := extract_group driver res.2.g2 after.major
      let minor0 := extract_group driver res.2.g3 after.minor
      let minor := if minor0 = ['0'] then ['0', '0'] else minor0
      let is100 : Bool := decide (major = ['1']) && decide (minor = ['0', '0'])
      let hasES : Bool := strcasecmp_eq es ['E', 'S'] && !is100
      .ok (major ++ minor ++ (if hasES then [' ', 'e', 's'] else []))

/-! ## Template synthesiser (`init_shadertoy`, lines 517-535) -/

/-- Legacy vertex template `shadertoy_vs_tmpl_100` (lines 58-67), byte for byte. -/
def shadertoy_vs_tmpl_100 : List Char :=
  String.toList <| String.join
    [ "// version (default: 1.10)              \n",
      "%s                                      \n",
      "                                        \n",
      "attribute vec3 position;                \n",
      "                                        \n",
      "void main()                             \n",
      "\x7b                                       \n",
      "    gl_Position = vec4(position, 1.0);  \n",
      "\x7d                                       \n" ]

/-- Modern vertex template `shadertoy_vs_tmpl_300` (lines 69-78), byte for byte. -/
def shadertoy_vs_tmpl_300 : List Char :=
  String.toList <| String.join
    [ "// version                              \n",
      "%s                                      \n",
      "                                        \n",
      "in vec3 position;                       \n",
      "                                        \n",
      "void main()                             \n",
      "\x7b                                       \n",
      "    gl_Position = vec4(position, 1.0);  \n",
      "\x7d                                       \n" ]

/-- Legacy fragment template `shadertoy_fs_tmpl_100` (lines 80-102), byte for byte. -/
def shadertoy_fs_tmpl_100 : List Char :=
  String.toList <| String.join
    [ "// version (default: 1.10)                                                           \n",
      "%s                                                                                   \n",
      "                                                                                     \n",
      "#ifdef GL_FRAGMENT_PRECISION_HIGH                                                    \n",
      "precision highp float;                                                               \n",
      "#else                                                                                \n",
      "precision mediump float;                                                             \n",
      "#endif                                                                               \n",
      "                                                                                     \n",
      "uniform vec3      iResolution;           // viewport resolution (in pixels)          \n",
      "uniform float     iTime;                 // shader playback time (in seconds)        \n",
      "uniform int       iFrame;                // current frame number                     \n",
      "uniform vec4      iMouse;                // mouse pixel coords                       \n",
      "uniform vec4      iDate;                 // (year, month, day, time in seconds)      \n",
      "                                                                                     \n",
      "// Shader body                                                                       \n",
      "%s                                                                                   \n",
      "                                                                                     \n",
      "void main()                                                                          \n",
      "\x7b                                                                                    \n",
      "    mainImage(gl_FragColor, gl_FragCoord.xy);                                        \n",
      "\x7d                                                                                    \n" ]

/-- Modern fragment template `shadertoy_fs_tmpl_300` (lines 104-128), byte for byte. -/
def shadertoy_fs_tmpl_300 : List Char :=
  String.toList <| String.join
    [ "// version                                                                           \n",
      "%s                                                                                   \n",
      "                                                                                     \n",
      "#ifdef GL_FRAGMENT_PRECISION_HIGH                                                    \n",
      "precision highp float;                                                               \n",
      "#else                                                                                \n",
      "precision mediump float;                                                             \n",
      "#endif                                                                               \n",
      "                                                                                     \n",
      "out vec4 fragColor;                                                                  \n",
      "                                                                                     \n",
      "uniform vec3      iResolution;           // viewport resolution (in pixels)          \n",
      "uniform float     iTime;                 // shader playback time (in seconds)        \n",
      "uniform int       iFrame;                // current frame number                     \n",
      "uniform vec4      iMouse;                // mouse pixel coords                       \n",
      "uniform vec4      iDate;                 // (year, month, day, time in seconds)      \n",
      "                                                                                     \n",
      "// Shader body                                                                       \n",
      "%s                                                                                   \n",
      "                                                                                     \n",
      "void main()                                                                          \n",
      "\x7b                                                                                    \n",
      "    mainImage(fragColor, gl_FragCoord.xy);                                           \n",
      "\x7d                                                                                    \n" ]

/-- Model of `asprintf(&out, fmt, args...)` for formats whose only conversion is
`%s`: every `%s` of the format is replaced by the next argument, copied
verbatim (an argument is never scanned for conversions); all other bytes of the
format are copied. -/
def asprintf : List Char → List (List Char) → List Char
  | [], _ => []
  | [c], _ => [c]
  | c :: d :: rest, args =>
    if c = '%' ∧ d = 's' then
      match args with
      | a :: as => a ++ asprintf rest as
      | [] => asprintf rest []
    else c :: asprintf (d :: rest) args

/-- Largest value of C `long` (LP64). -/
def LONG_MAX : Int := 2 ^ 63 - 1

/-- Smallest value of C `long` (LP64). -/
def LONG_MIN : Int := -(2 ^ 63)

/-- Value of a run of decimal digits read left to right, starting from `acc`. -/
def digitsValue (acc : Nat) : List Char → Nat
  | [] => acc
  | c :: cs => digitsValue (acc * 10 + (c.toNat - '0'.toNat)) cs

/-- Model of `strtol(nptr, &endptr, 10)`: white space is skipped, an optional
sign is read, then the longest run of decimal digits.  The result is the value
(clamped to the range of `long`) and the number of bytes consumed, which is
`endptr - nptr`; when no digit is found nothing is consumed
(`endptr == nptr`) and the value is 0. -/
def strtol (nptr : List Char) : Int × Nat :=
  let ws := (nptr.takeWhile isSpaceClass).length
  let r := nptr.dropWhile isSpaceClass
  let sign : Option Bool :=
    if r.head? = some '-' then some true
    else if r.head? = some '+' then some false
    else none
  let r1 := if sign.isSome then r.drop 1 else r
  let ds := r1.takeWhile isDigitClass
  if ds.length = 0 then (0, 0)
  else
    let mag : Int := digitsValue 0 ds
    let v : Int := if sign = some true then -mag else mag
    let v := if v > LONG_MAX then LONG_MAX else if v < LONG_MIN then LONG_MIN else v
    (v, ws + (if sign.isSome then 1 else 0) + ds.length)

/-- Lines 517-535 of `init_shadertoy`: from the directive value `version`
returned by `glsl_version` and the text `shader` of the shader file, the vertex
and fragment sources handed to `create_program`.  `Except.error (-1)` is the
`return -1` of the "failed to parse detected GLSL version" branch. -/
def init_shadertoy_sources (version shader : List Char) :
    Except Int (List Char × List Char) :=
  if version.length > 0 then
    let r := strtol version
    if r.2 = 0 then .error (-1)
    else
      let version_directive := asprintf "#version %s".toList [version]
      let is_glsl_3 : Bool := decide (r.1 ≥ 300)
      .ok (asprintf (if is_glsl_3 then shadertoy_vs_tmpl_300 else shadertoy_vs_tmpl_100)
              [version_directive],
           asprintf (if is_glsl_3 then shadertoy_fs_tmpl_300 else shadertoy_fs_tmpl_100)
              [version_directive, shader])
  else
    .ok (asprintf shadertoy_vs_tmpl_100 [version],
         asprintf shadertoy_fs_tmpl_100 [version, shader])

/-! ## Glyph rasteriser (`font_5x7`, `char_to_font_index`, `draw_char`, lines 242-380) -/

/-- Table `font_5x7`, one row of seven 5-bit patterns for each glyph.
Indices: 0-9 digits, 10 `.`, 11 `F`, 12 `P`, 13 `S`, 14 `W`, 15 `_`, 16 `-`,
17-42 `a`-`z`. -/
def font_5x7 : List (List Nat) :=
  [ [0x0E, 0x11, 0x13, 0x15, 0x19, 0x11, 0x0E],  -- '0'
    [0x04, 0x0C, 0x04, 0x04, 0x04, 0x04, 0x0E],  -- '1'
    [0x0E, 0x11, 0x01, 0x02, 0x04, 0x08, 0x1F],  -- '2'
    [0x1F, 0x02, 0x04, 0x02, 0x01, 0x11, 0x0E],  -- '3'
    [0x02, 0x06, 0x0A, 0x12, 0x1F, 0x02, 0x02],  -- '4'
    [0x1F, 0x10, 0x1E, 0x01, 0x01, 0x11, 0x0E],  -- '5'
    [0x06, 0x08, 0x10, 0x1E, 0x11, 0x11, 0x0E],  -- '6'
    [0x1F, 0x01, 0x02, 0x04, 0x08, 0x08, 0x08],  -- '7'
    [0x0E, 0x11, 0x11, 0x0E, 0x11, 0x11, 0x0E],  -- '8'
    [0x0E, 0x11, 0x11, 0x0F, 0x01, 0x02, 0x0C],  -- '9'
    [0x00, 0x00, 0x00, 0x00, 0x00, 0x0C, 0x0C],  -- '.' (index 10)
    [0x1F, 0x10, 0x10, 0x1E, 0x10, 0x10, 0x10],  -- 'F' (index 11)
    [0x1E, 0x11, 0x11, 0x1E, 0x10, 0x10, 0x10],  -- 'P' (index 12)
    [0x0E, 0x11, 0x10, 0x0E, 0x01, 0x11, 0x0E],  -- 'S' (index 13)
    [0x11, 0x11, 0x11, 0x15, 0x15, 0x15, 0x0A],  -- 'W' (index 14)
    [0x00, 0x00, 0x00, 0x00, 0x00, 0x00, 0x1F],  -- '_' (index 15)
    [0x00, 0x00, 0x00, 0x0E, 0x00, 0x00, 0x00],  -- '-' (index 16)
    [0x00, 0x00, 0x0E, 0x01, 0x0F, 0x11, 0x0F],  -- 'a' (index 17)
    [0x10, 0x10, 0x1E, 0x11, 0x11, 0x11, 0x1E],  -- 'b' (index 18)
    [0x00, 0x00, 0x0E, 0x10, 0x10, 0x10, 0x0E],  -- 'c' (index 19)
    [0x01, 0x01, 0x0F, 0x11, 0x11, 0x11, 0x0F],  -- 'd' (index 20)
    [0x00, 0x00, 0x0E, 0x11, 0x1F, 0x10, 0x0E],  -- 'e' (index 21)
    [0x06, 0x09, 0x08, 0x1C, 0x08, 0x08, 0x08],  -- 'f' (index 22)
    [0x00, 0x0F, 0x11, 0x11, 0x0F, 0x01, 0x0E],  -- 'g' (index 23)
    [0x10, 0x10, 0x1E, 0x11, 0x11, 0x11, 0x11],  -- 'h' (index 24)
    [0x04, 0x00, 0x0C, 0x04, 0x04, 0x04, 0x0E],  -- 'i' (index 25)
    [0x02, 0x00, 0x06, 0x02, 0x02, 0x12, 0x0C],  -- 'j' (index 26)
    [0x10, 0x10, 0x12, 0x14, 0x18, 0x14, 0x12],  -- 'k' (index 27)
    [0x0C, 0x04, 0x04, 0x04, 0x04, 0x04, 0x0E],  -- 'l' (index 28)
    [0x00, 0x00, 0x1A, 0x15, 0x15, 0x15, 0x15],  -- 'm' (index 29)
    [0x00, 0x00, 0x1E, 0x11, 0x11, 0x11, 0x11],  -- 'n' (index 30)
    [0x00, 0x00, 0x0E, 0x11, 0x11, 0x11, 0x0E],  -- 'o' (index 31)
    [0x00, 0x00, 0x1E, 0x11, 0x1E, 0x10, 0x10],  -- 'p' (index 32)
    [0x00, 0x00, 0x0F, 0x11, 0x0F, 0x01, 0x01],  -- 'q' (index 33)
    [0x00, 0x00, 0x16, 0x19, 0x10, 0x10, 0x10],  -- 'r' (index 34)
    [0x00, 0x00, 0x0E, 0x10, 0x0E, 0x01, 0x1E],  -- 's' (index 35)
    [0x08, 0x08, 0x1C, 0x08, 0x08, 0x09, 0x06],  -- 't' (index 36)
    [0x00, 0x00, 0x11, 0x11, 0x11, 0x11, 0x0F],  -- 'u' (index 37)
    [0x00, 0x00, 0x11, 0x11, 0x11, 0x0A, 0x04],  -- 'v' (index 38)
    [0x00, 0x00, 0x11, 0x11, 0x15, 0x15, 0x0A],  -- 'w' (index 39)
    [0x00, 0x00, 0x11, 0x0A, 0x04, 0x0A, 0x11],  -- 'x' (index 40)
    [0x00, 0x00, 0x11, 0x11, 0x0F, 0x01, 0x0E],  -- 'y' (index 41)
    [0x00, 0x00, 0x1F, 0x02, 0x04, 0x08, 0x1F] ]  -- 'z' (index 42)

/-- Embedding of `char_to_font_index`. -/
def char_to_font_index (c : Char) : Int :=
  if '0' ≤ c ∧ c ≤ '9' then (c.toNat : Int) - ('0'.toNat : Int)
  else if c = '.' then 10
  else if c = 'F' then 11
  else if c = 'P' then 12
  else if c = 'S' then 13
  else if c = 'W' then 14
  else if c = '_' then 15
  else if c = '-' then 16
  else if 'a' ≤ c ∧ c ≤ 'z' then 17 + ((c.toNat : Int) - ('a'.toNat : Int))
  else if 'A' ≤ c ∧ c ≤ 'Z' then 17 + ((c.toNat : Int) - ('A'.toNat : Int))
  else -1

/-- The local array `GLfloat vertices[16384]` of `draw_fps_counter` together with
the counter `vertex_count`, as `draw_char` sees them.  `writes` is the sequence
of stores `vertices[idx] = value` performed so far, in program order, as pairs
`(idx, value)`; `vertex_count` is the current value of `*vertex_count` (a count
of floats).  Values are exact rationals in place of `float`. -/
structure VertexBuffer where
  writes : List (Nat × ℚ)
  vertex_count : Nat

/-- Number of `GLfloat` elements of the array `vertices` of `draw_fps_counter`. -/
def VERTICES_CAPACITY : Nat := 16384

/-- Lines 369-376 of `draw_char`: the twelve stores of one quad and the update
of `*vertex_count`. -/
def emit_quad (x1 y1 x2 y2 : ℚ) (b : VertexBuffer) : VertexBuffer :=
  let idx := b.vertex_count
  { writes := b.writes ++
      [ (idx, x1), (idx + 1, y1),
        (idx + 2, x2), (idx + 3, y1),
        (idx + 4, x2), (idx + 5, y2),
        (idx + 6, x2), (idx + 7, y2),
        (idx + 8, x1), (idx + 9, y2),
        (idx + 10, x1), (idx + 11, y1) ]
    vertex_count := idx + 12 }

/-- Conversion `(int)scale` of a `float`: truncation toward zero. -/
def truncToInt (q : ℚ) : Int :=
  if 0 ≤ q then Int.floor q else Int.ceil q

/-- Body of the inner loop of `draw_char` (lines 357-377) for one `row`, `col`. -/
def draw_char_pixel (x y : Int) (glyph : List Nat) (pixel_size : Int)
    (screen_width screen_height : Nat) (row col : Nat) (b : VertexBuffer) : VertexBuffer :=
  if glyph.getD row 0 &&& (1 <<< (4 - col)) ≠ 0 then
    let px : ℚ := ((x + (col : Int) * pixel_size : Int) : ℚ)
    let py : ℚ := ((y + (row : Int) * pixel_size : Int) : ℚ)
    let x1 : ℚ := (px / (screen_width : ℚ)) * 2 - 1
    let y1 : ℚ := 1 - (py / (screen_height : ℚ)) * 2
    let x2 : ℚ := ((px + (pixel_size : ℚ)) / (screen_width : ℚ)) * 2 - 1
    let y2 : ℚ := 1 - ((py + (pixel_size : ℚ)) / (screen_height : ℚ)) * 2
    emit_quad x1 y1 x2 y2 b
  else b

/-- Embedding of `draw_char`; the globals `screen_width` and `screen_height` are
parameters.  The two `for` loops run over `row = 0..6` and `col = 0..4`. -/
def draw_char (x y : Int) (char_index : Int) (scale : ℚ)
    (screen_width screen_height : Nat) (b : VertexBuffer) : VertexBuffer :=
  if char_index < 0 ∨ char_index ≥ 43 then b
  else
    let glyph := font_5x7.getD char_index.toNat []
    let pixel_size : Int := if truncToInt scale < 1 then 1 else truncToInt scale
    (List.range 7).foldl
      (fun b row =>
        (List.range 5).foldl
          (fun b col => draw_char_pixel x y glyph pixel_size screen_width screen_height row col b)
          b)
      b

/-! ## Overlay geometry (`draw_fps_counter`, lines 385-441) -/

/-- The loop of lines 399-405 over the file name: `x_offset` is the running
cursor; a character without glyph only advances it. -/
def draw_filename_loop (padding char_width : Int) (scale : ℚ)
    (screen_width screen_height : Nat) :
    List Char → Int → VertexBuffer → VertexBuffer
  | [], _, b => b
  | c :: cs, x_offset, b =>
    let char_index := char_to_font_index c
    let b1 :=
      if char_index ≥ 0 then
        draw_char (padding + x_offset) padding char_index scale screen_width screen_height b
      else b
    draw_filename_loop padding char_width scale screen_width screen_height cs
      (x_offset + char_width) b1

/-- The loop of lines 430-439 over the status text `fps_text`. -/
def draw_fps_text_loop (start_x start_y char_width : Int) (scale : ℚ)
    (screen_width screen_height : Nat) :
    List Char → Int → VertexBuffer → VertexBuffer
  | [], _, b => b
  | c :: cs, x_offset, b =>
    let char_index := char_to_font_index c
    if char_index < 0 then
      draw_fps_text_loop start_x start_y char_width scale screen_width screen_height cs
        (x_offset + char_width) b
    else
      draw_fps_text_loop start_x start_y char_width scale screen_width screen_height cs
        (x_offset + char_width)
        (draw_char (start_x + x_offset) start_y char_index scale screen_width screen_height b)

/-- Conversion of a 32-bit unsigned value to `int` (two's complement). -/
def toInt32 (n : Nat) : Int :=
  if n % 2 ^ 32 < 2 ^ 31 then ((n % 2 ^ 32 : Nat) : Int) else ((n % 2 ^ 32 : Nat) : Int) - 2 ^ 32

/-- Conversion of an `int` to `uint32_t`: reduction modulo `2^32`. -/
def toUInt32 (z : Int) : Nat :=
  (z % 2 ^ 32).toNat

/-- Line 425: `int start_x = screen_width - text_width - padding;` computed in
`uint32_t` arithmetic and converted to `int`. -/
def status_start_x (screen_width : Nat) (text_width padding : Int) : Int :=
  toInt32 (toUInt32 ((screen_width : Int) - text_width - padding))

/-- Line 426: `int start_y = screen_height - char_height - padding;`. -/
def status_start_y (screen_height : Nat) (char_height padding : Int) : Int :=
  toInt32 (toUInt32 ((screen_height : Int) - char_height - padding))

/-- Lines 385-439 of `draw_fps_counter`: the geometry of the overlay.
`shader_filename` is the global of that name (`none` for `NULL`), `fps_text`
the status text written by `snprintf`, and the result the array `vertices`
and the counter `vertex_count` when line 441 is reached. -/
def draw_fps_counter_geometry (shader_filename : Option (List Char)) (fps_text : List Char)
    (screen_width screen_height : Nat) : VertexBuffer :=
  let b0 : VertexBuffer := { writes := [], vertex_count := 0 }
  let scale : ℚ := 2
  let char_width : Int := truncToInt (6 * scale)
  let char_height : Int := truncToInt (8 * scale)
  let padding : Int := 10
  let b1 :=
    match shader_filename with
    | some name =>
      draw_filename_loop padding char_width scale screen_width screen_height name 0 b0
    | none => b0
  let text_width : Int := (fps_text.length : Int) * char_width
  let start_x := status_start_x screen_width text_width padding
  let start_y := status_start_y screen_height char_height padding
  draw_fps_text_loop start_x start_y char_width scale screen_width screen_height fps_text 0 b1

/-! ## GL calls of the overlay (`draw_fps_counter`, lines 382-474) -/

/-- Constant `GL_ARRAY_BUFFER` of `GLES3/gl3.h`. -/
def GL_ARRAY_BUFFER : Nat := 0x8892
/-- Constant `GL_DYNAMIC_DRAW` of `GLES3/gl3.h`. -/
def GL_DYNAMIC_DRAW : Nat := 0x88E8
/-- Constant `GL_FLOAT` of `GLES3/gl3.h`. -/
def GL_FLOAT : Nat := 0x1406
/-- Constant `GL_BLEND` of `GLES3/gl3.h`. -/
def GL_BLEND : Nat := 0x0BE2
/-- Constant `GL_SRC_ALPHA` of `GLES3/gl3.h`. -/
def GL_SRC_ALPHA : Nat := 0x0302
/-- Constant `GL_ONE_MINUS_SRC_ALPHA` of `GLES3/gl3.h`. -/
def GL_ONE_MINUS_SRC_ALPHA : Nat := 0x0303
/-- Constant `GL_TRIANGLES` of `GLES3/gl3.h`. -/
def GL_TRIANGLES : Nat := 0x0004

/-- A call of the GL API, with its arguments. -/
inductive GLCall where
  | UseProgram (program : Nat)
  | BindBuffer (target buffer : Nat)
  | BufferData (target size : Nat) (data : List ℚ) (usage : Nat)
  | VertexAttribPointer (index size type : Nat) (normalized : Bool) (stride offset : Nat)
  | EnableVertexAttribArray (index : Nat)
  | Enable (cap : Nat)
  | Disable (cap : Nat)
  | BlendFunc (sfactor dfactor : Nat)
  | DrawArrays (mode first count : Nat)
deriving DecidableEq

/-- Layout of a vertex attribute as set by `glVertexAttribPointer`. -/
structure AttribPointer where
  size : Nat
  type : Nat
  normalized : Bool
  stride : Nat
  offset : Nat
deriving DecidableEq

/-- The part of the GL context that `draw_fps_counter` reads or changes, and
the sequence `calls` of GL calls issued so far, in program order. -/
structure GLState where
  current_program : Nat
  array_buffer_binding : Nat
  blend : Bool
  blend_func : Nat × Nat
  attrib0 : AttribPointer
  attrib0_enabled : Bool
  calls : List GLCall

/-- Effect of one GL call on the context; the call is appended to `calls`. -/
def GLState.exec (gl : GLState) (c : GLCall) : GLState :=
  let gl := { gl with calls := gl.calls ++ [c] }
  match c with
  | .UseProgram p => { gl with current_program := p }
  | .BindBuffer target buffer =>
    if target = GL_ARRAY_BUFFER then { gl with array_buffer_binding := buffer } else gl
  | .BufferData _ _ _ _ => gl
  | .VertexAttribPointer index size type normalized stride offset =>
    if index = 0 then { gl with attrib0 := ⟨size, type, normalized, stride, offset⟩ } else gl
  | .EnableVertexAttribArray index =>
    if index = 0 then { gl with attrib0_enabled := true } else gl
  | .Enable cap => if cap = GL_BLEND then { gl with blend := true } else gl
  | .Disable cap => if cap = GL_BLEND then { gl with blend := false } else gl
  | .BlendFunc s d => { gl with blend_func := (s, d) }
  | .DrawArrays _ _ _ => gl

/-- The globals of `shadertoy.c` read by `draw_fps_counter`. -/
structure Globals where
  show_hud : Bool
  screen_width : Nat
  screen_height : Nat
  shader_filename : Option (List Char)
  fps_program : Nat
  fps_vbo : Nat

/-- Size in bytes of a `GLfloat`. -/
def sizeof_GLfloat : Nat := 4

/-- Embedding of `draw_fps_counter`.  `fps_text` is the status text that
`snprintf` writes for `fps` (and the power reading); `gl` is the GL context on
entry.  `glGetIntegerv` reads `current_program` and `array_buffer_binding`. -/
def draw_fps_counter (g : Globals) (fps : ℚ) (fps_text : List Char) (gl : GLState) : GLState :=
  if !g.show_hud ∨ fps ≤ 0 ∨ g.fps_program = 0 then gl
  else
    let b := draw_fps_counter_geometry g.shader_filename fps_text g.screen_width g.screen_height
    if b.vertex_count = 0 then gl
    else
      let current_program := gl.current_program
      let current_vbo := gl.array_buffer_binding
      let gl := gl.exec (.UseProgram g.fps_program)
      let gl := gl.exec (.BindBuffer GL_ARRAY_BUFFER g.fps_vbo)
      let gl := gl.exec (.BufferData GL_ARRAY_BUFFER (b.vertex_count * sizeof_GLfloat)
        (b.writes.map Prod.snd) GL_DYNAMIC_DRAW)
      let gl := gl.exec (.VertexAttribPointer 0 2 GL_FLOAT false 0 0)
      let gl := gl.exec (.EnableVertexAttribArray 0)
      let gl := gl.exec (.Enable GL_BLEND)
      let gl := gl.exec (.BlendFunc GL_SRC_ALPHA GL_ONE_MINUS_SRC_ALPHA)
      let gl := gl.exec (.DrawArrays GL_TRIANGLES 0 (b.vertex_count / 2))
      let gl := gl.exec (.Disable GL_BLEND)
      let gl := gl.exec (.UseProgram current_program)
      let gl := gl.exec (.BindBuffer GL_ARRAY_BUFFER current_vbo)
      let gl := gl.exec (.VertexAttribPointer 0 2 GL_FLOAT false 0 0)
      gl.exec (.EnableVertexAttribArray 0)

/-- The `glDrawArrays` calls of a call sequence, as `(mode, first, count)`. -/
def drawCalls : List GLCall → List (Nat × Nat × Nat)
  | [] => []
  | .DrawArrays mode first count :: cs => (mode, first, count) :: drawCalls cs
  | _ :: cs => drawCalls cs

/-! ## Callback registry (`addCallback`, `onInit`, `onRender`, lines 212-240) -/

/-- Struct `Callbacks`.  The pointer field `callbacks` is `none` for `NULL` and
otherwise the slots of the allocated array; a slot is `some f` once the
function pointer `f` (named by a number) has been stored in it and `none` while
it is uninitialised. -/
structure Callbacks where
  callbacks : Option (List (Option Nat))
  length : Nat
deriving DecidableEq

/-- Model of `realloc(p, n * sizeof(slot))`: an array of `n` slots that keeps
the old slots as far as they fit; further slots are uninitialised. -/
def realloc_slots (arr : List (Option Nat)) (n : Nat) : List (Option Nat) :=
  arr.take n ++ List.replicate (n - arr.length) none

/-- Embedding of `addCallback`. -/
def addCallback (callbacks : Callbacks) (callback : Nat) : Callbacks :=
  match callbacks.callbacks with
  | none =>
    { length := 1
      callbacks := some ((realloc_slots [] 1).set 0 (some callback)) }
  | some arr =>
    let length := callbacks.length + 1
    { length := length
      callbacks := some ((realloc_slots arr length).set (length - 1) (some callback)) }

/-- The function pointers that the loop
`for (i = 0; i < list.length; i++) list.callbacks[i](...)` of `init_shadertoy`
and `draw_shadertoy` calls, in the order of the calls (`none`: the slot read
is not an initialised slot of the array). -/
def called_slots (list : Callbacks) : List (Option Nat) :=
  (List.range list.length).map (fun i => (list.callbacks.getD []).getD i none)

/-! ## Frame driver and initialisation (`draw_shadertoy`, `init_shadertoy`, lines 476-629) -/

/-- Constant `GL_STATIC_DRAW` of `GLES3/gl3.h`. -/
def GL_STATIC_DRAW : Nat := 0x88E4

/-- The array `vertices` of lines 130-139: the two triangles of the full-screen
quad. -/
def vertices : List ℚ :=
  [1, 1, -1, 1, -1, -1, -1, -1, 1, -1, 1, 1]

/-- The globals of `shadertoy.c`; `draw_installed` tells whether `egl->draw`
is `draw_shadertoy`. -/
structure ShadertoyState where
  globals : Globals
  shadertoy_program : Nat
  shadertoy_vbo : Nat
  iTime : Int
  iFrame : Int
  onInitCallbacks : Callbacks
  onRenderCallbacks : Callbacks
  draw_installed : Bool

/-- The globals as their initialisers leave them at program start. -/
def initial_state : ShadertoyState :=
  { globals :=
      { show_hud := false, screen_width := 0, screen_height := 0, shader_filename := none,
        fps_program := 0, fps_vbo := 0 }
    shadertoy_program := 0
    shadertoy_vbo := 0
    iTime := 0
    iFrame := 0
    onInitCallbacks := { callbacks := none, length := 0 }
    onRenderCallbacks := { callbacks := none, length := 0 }
    draw_installed := false }

/-- Embedding of `onInit`. -/
def onInit (st : ShadertoyState) (callback : Nat) : ShadertoyState :=
  { st with onInitCallbacks := addCallback st.onInitCallbacks callback }

/-- Embedding of `onRender`. -/
def onRender (st : ShadertoyState) (callback : Nat) : ShadertoyState :=
  { st with onRenderCallbacks := addCallback st.onRenderCallbacks callback }

/-- What happens during `init_shadertoy` and `draw_shadertoy`, in program
order: GL calls, calls of the external compiler and linker, calls of the
registered callbacks, and the call of `draw_fps_counter`. -/
inductive Event where
  | gl (c : GLCall)
  | glUniform1f (location : Int) (v0 : ℚ)
  | glUniform1ui (location : Int) (v0 : Nat)
  | glUniform3f (location : Int) (v0 v1 v2 : ℚ)
  | glViewport (x y : Int) (width height : Nat)
  | glGetUniformLocation (program : Nat) (name : List Char)
  | glGenBuffers (n : Nat)
  | glBufferSubData (target offset size : Nat) (data : List ℚ)
  | create_program (vs fs : List Char)
  | link_program (program : Nat)
  | onInitCallback (f : Option Nat) (program width height : Nat)
  | onRenderCallback (f : Option Nat) (frame : Nat) (time : ℚ)
  | start_perfcntrs
  | end_perfcntrs
  | draw_fps_counter (fps : ℚ)
deriving DecidableEq

/-- The services outside `shadertoy.c`, by the results they give: the return
code of `regcomp`, the driver's version string, `load_shader` (the text of the
file, or the exit status of `err`), the compiler and linker of `common.c`, the
uniform locations, the buffer names that the two `glGenBuffers` calls store,
what a callback does to the GL context, and (`trailing`) the bytes that the
heap holds after the blocks of `extract_group`. -/
structure External where
  regcomp_ret : Int
  shading_language_version : List Char
  trailing : Trailing
  load_shader : Option (List Char) → Except Int (List Char)
  create_program : List Char → List Char → Int
  link_program : Nat → Int
  uniform_location : Nat → List Char → Int
  shadertoy_vbo_name : Nat
  fps_vbo_name : Nat
  onInit_effect : Option Nat → Nat → Nat → Nat → GLState → GLState
  onRender_effect : Option Nat → Nat → ℚ → GLState → GLState

/-- Embedding of `draw_shadertoy`: the events of one call and the GL context
after it.  `time` is the elapsed time computed from the clock, `fps_text` the
status text that `draw_fps_counter` formats. -/
def draw_shadertoy (ext : External) (st : ShadertoyState) (frame : Nat) (time fps : ℚ)
    (fps_text : List Char) (gl : GLState) : List Event × GLState :=
  let slots := called_slots st.onRenderCallbacks
  let gl1 := slots.foldl (fun gl f => ext.onRender_effect f frame time gl) gl
  let gl2 := gl1.exec (.DrawArrays GL_TRIANGLES 0 6)
  let gl3 := draw_fps_counter st.globals fps fps_text gl2
  ([Event.glUniform1f st.iTime time, Event.glUniform1ui st.iFrame frame] ++
    slots.map (fun f => Event.onRenderCallback f frame time) ++
    [Event.start_perfcntrs, Event.gl (.DrawArrays GL_TRIANGLES 0 6), Event.end_perfcntrs,
      Event.draw_fps_counter fps] ++
    (gl3.calls.drop gl2.calls.length).map Event.gl,
   gl3)

/-- `struct options`: the field that `init_shadertoy` reads. -/
structure Options where
  show_hud : Bool

/-- `struct gbm`: the fields that `init_shadertoy` reads (both `uint32_t`). -/
structure Gbm where
  width : Nat
  height : Nat

/-- Model of `strrchr(s, c)` for a character `c` other than NUL: the rest of
`s` from the last occurrence of `c` on, `none` when `c` does not occur. -/
def strrchr : List Char → Char → Option (List Char)
  | [], _ => none
  | x :: xs, c =>
    match strrchr xs c with
    | some p => some p
    | none => if x = c then some (x :: xs) else none

/-- Lines 575-592 of `init_shadertoy`: the vertex and fragment sources of the
overlay program. -/
def hud_sources (version : List Char) : List Char × List Char :=
  if version.length > 0 then
    let r := strtol version
    let is_glsl_3 : Bool := decide (r.2 ≠ 0) && decide (r.1 ≥ 300)
    if is_glsl_3 then
      (asprintf "#version %s\nin vec2 position;\nvoid main() \x7b gl_Position = vec4(position, 0.0, 1.0); \x7d\n".toList [version],
       asprintf "#version %s\nprecision mediump float;\nout vec4 fragColor;\nvoid main() \x7b fragColor = vec4(1.0, 1.0, 1.0, 1.0); \x7d\n".toList [version])
    else
      (asprintf "#version %s\nattribute vec2 position;\nvoid main() \x7b gl_Position = vec4(position, 0.0, 1.0); \x7d\n".toList [version],
       asprintf "#version %s\nprecision mediump float;\nvoid main() \x7b gl_FragColor = vec4(1.0, 1.0, 1.0, 1.0); \x7d\n".toList [version])
  else
    (asprintf "attribute vec2 position;\nvoid main() \x7b gl_Position = vec4(position, 0.0, 1.0); \x7d\n".toList [],
     asprintf "precision mediump float;\nvoid main() \x7b gl_FragColor = vec4(1.0, 1.0, 1.0, 1.0); \x7d\n".toList [])

/-- How a call of `init_shadertoy` ends: the process exits through `err`, or
the function returns `ret`, leaving the globals `st`, the GL context `gl` and
having produced `events`. -/
inductive Outcome where
  | exit (status : Int)
  | returned (ret : Int) (st : ShadertoyState) (events : List Event) (gl : GLState)

/-- Lines 573-627 of `init_shadertoy`, after `shadertoy_program = program`:
the overlay program is created when `show_hud` is set, then `egl->draw` is
installed and 0 returned. -/
def init_shadertoy_hud (ext : External) (version : List Char) (st : ShadertoyState)
    (events : List Event) (gl : GLState) : Outcome :=
  if st.globals.show_hud = true then
    let src := hud_sources version
    let ret := ext.create_program src.1 src.2
    let events := events ++ [Event.create_program src.1 src.2]
    if ret < 0 then
      .returned 0
        { st with globals := { st.globals with show_hud := false }, draw_installed := true }
        events gl
    else
      let fps_program := ret.toNat
      let ret := ext.link_program fps_program
      let events := events ++ [Event.link_program fps_program]
      if ret ≠ 0 then
        .returned 0
          { st with
            globals := { st.globals with show_hud := false, fps_program := 0 }
            draw_installed := true }
          events gl
      else
        .returned 0
          { st with
            globals := { st.globals with fps_program := fps_program,
                                         fps_vbo := ext.fps_vbo_name }
            draw_installed := true }
          (events ++ [Event.glGenBuffers 1]) gl
  else
    .returned 0 { st with draw_installed := true } events gl

/-- Embedding of `init_shadertoy`.  `st` and `gl` are the globals and the GL
context on entry. -/
def init_shadertoy (ext : External) (gbm : Gbm) (file : Option (List Char))
    (options : Options) (st : ShadertoyState) (gl : GLState) : Outcome :=
  let g1 : Globals :=
    { st.globals with
      show_hud := options.show_hud, screen_width := gbm.width, screen_height := gbm.height }
  let g2 : Globals :=
    match file with
    | some path =>
      if g1.show_hud = true then
        { g1 with
          shader_filename :=
            some (match strrchr path '/' with
              | some basename => basename.drop 1
              | none => path) }
      else g1
    | none => g1
  let st := { st with globals := g2 }
  match ext.load_shader file with
  | .error status => .exit status
  | .ok shader =>
    match glsl_version ext.regcomp_ret ext.shading_language_version ext.trailing with
    | .error status => .exit status
    | .ok version =>
      match init_shadertoy_sources version shader with
      | .error ret => .returned ret st [] gl
      | .ok src =>
        let ret := ext.create_program src.1 src.2
        let events := [Event.create_program src.1 src.2]
        if ret < 0 then .returned (-1) st events gl
        else
          let program := ret.toNat
          let ret := ext.link_program program
          let events := events ++ [Event.link_program program]
          if ret ≠ 0 then .returned (-1) st events gl
          else
            let gl := gl.exec (.UseProgram program)
            let iTime := ext.uniform_location program "iTime".toList
            let iFrame := ext.uniform_location program "iFrame".toList
            let iResolution := ext.uniform_location program "iResolution".toList
            let events := events ++
              [ Event.glViewport 0 0 gbm.width gbm.height,
                Event.gl (.UseProgram program),
                Event.glGetUniformLocation program "iTime".toList,
                Event.glGetUniformLocation program "iFrame".toList,
                Event.glGetUniformLocation program "iResolution".toList,
                Event.glUniform3f iResolution gbm.width gbm.height 0 ]
            let slots := called_slots st.onInitCallbacks
            let events := events ++
              slots.map (fun f => Event.onInitCallback f program gbm.width gbm.height)
            let gl := slots.foldl
              (fun gl f => ext.onInit_effect f program gbm.width gbm.height gl) gl
            let shadertoy_vbo := ext.shadertoy_vbo_name
            let gl := gl.exec (.BindBuffer GL_ARRAY_BUFFER shadertoy_vbo)
            let gl := gl.exec (.BufferData GL_ARRAY_BUFFER (12 * sizeof_GLfloat) []
              GL_STATIC_DRAW)
            let gl := gl.exec (.VertexAttribPointer 0 2 GL_FLOAT false 0 0)
            let gl := gl.exec (.EnableVertexAttribArray 0)
            let events := events ++
              [ Event.glGenBuffers 1,
                Event.gl (.BindBuffer GL_ARRAY_BUFFER shadertoy_vbo),
                Event.gl (.BufferData GL_ARRAY_BUFFER (12 * sizeof_GLfloat) [] GL_STATIC_DRAW),
                Event.glBufferSubData GL_ARRAY_BUFFER 0 (12 * sizeof_GLfloat) vertices,
                Event.gl (.VertexAttribPointer 0 2 GL_FLOAT false 0 0),
                Event.gl (.EnableVertexAttribArray 0) ]
            let st :=
              { st with
                iTime := iTime, iFrame := iFrame, shadertoy_vbo := shadertoy_vbo,
                shadertoy_program := program }
            init_shadertoy_hud ext version st events gl

/-! ## Definitions used to state the properties -/

/-- The case in which each block of `extract_group` is followed by a NUL byte,
so that every group is read back exactly as it was matched. -/
def terminated : Trailing :=
  { es := [], major := [], minor := [] }

instance : DecidableEq (Except Int (List Char)) := fun a b =>
  match a, b with
  | .ok x, .ok y => if h : x = y then isTrue (by rw [h]) else isFalse (fun e => h (by cases e; rfl))
  | .error x, .error y =>
    if h : x = y then isTrue (by rw [h]) else isFalse (fun e => h (by cases e; rfl))
  | .ok _, .error _ => isFalse (fun e => by cases e)
  | .error _, .ok _ => isFalse (fun e => by cases e)

/-- The text matched by the optional group `(ES)?`. -/
def esText (es : Bool) : List Char :=
  if es then ['E', 'S'] else []

/-- Declarative reading of `GLSL_VERSION_REGEX`: `t` is a string matched by the
pattern, with `es` telling whether the group `(ES)?` took part and `major`,
`minor` the texts of the two digit groups, followed by `rest`. -/
def PatternAt (t : List Char) (es : Bool) (major minor rest : List Char) : Prop :=
  ∃ ws1 ws2 : List Char,
    t = ['G', 'L', 'S', 'L'] ++ (ws1 ++ (esText es ++ (ws2 ++ (major ++ ('.' :: (minor ++ rest)))))) ∧
    (∀ c ∈ ws1, isSpaceClass c = true) ∧ (∀ c ∈ ws2, isSpaceClass c = true) ∧
    major ≠ [] ∧ (∀ c ∈ major, isDigitClass c = true) ∧
    minor ≠ [] ∧ (∀ c ∈ minor, isDigitClass c = true)

/-- The match that POSIX `regexec` reports for the pattern in `s`: it begins at
the smallest offset at which any match begins, and is the longest match
beginning there. -/
def VersionMatch (s : List Char) (es : Bool) (major minor : List Char) : Prop :=
  ∃ pre t rest : List Char,
    s = pre ++ t ∧ PatternAt t es major minor rest ∧
    (∀ pre1 t1 : List Char, s = pre1 ++ t1 → pre1.length < pre.length →
      ∀ e M m r, ¬ PatternAt t1 e M m r) ∧
    (∀ e M m r, PatternAt t e M m r → rest.length ≤ r.length)

/-- The pattern matches nowhere in `s`. -/
def NoVersionMatch (s : List Char) : Prop :=
  ∀ pre t : List Char, s = pre ++ t → ∀ e M m r, ¬ PatternAt t e M m r

/-- The normalisation of the minor digits in `glsl_version` (lines 192-196). -/
def normalizeMinor (minor : List Char) : List Char :=
  if minor = ['0'] then ['0', '0'] else minor

/-- Number of set bits among the five low bits of a row pattern. -/
def rowBits (n : Nat) : Nat :=
  ((List.range 5).filter (fun k => n.testBit k)).length

/-- Number of set bits of a glyph: the sum over its rows. -/
def glyphBits (glyph : List Nat) : Nat :=
  (glyph.map rowBits).sum

/-- The literal text of a format before its first `%`. -/
def formatHead (fmt : List Char) : List Char :=
  fmt.takeWhile (fun c => c != '%')

/-- The rest of a format after its first conversion (the `%` and the
conversion letter after it). -/
def formatTail (fmt : List Char) : List Char :=
  (fmt.dropWhile (fun c => c != '%')).drop 2

/-- The leading numeric portion of a directive value read as a decimal number
(0 when the value does not begin with a digit). -/
def leadingNumber (d : List Char) : Nat :=
  Nat.ofDigits 10 (((d.takeWhile isDigitClass).map (fun c => c.toNat - '0'.toNat)).reverse)

/-- The text that `init_shadertoy` puts in place of the first `%s` of a
template: `#version ` followed by the directive value, or nothing when the
directive value is empty. -/
def versionLine (version : List Char) : List Char :=
  if version = [] then [] else "#version ".toList ++ version

/-- Number of set bits of the glyph that `draw_char` draws for `char_index`
(none outside `0..42`). -/
def indexBits (char_index : Int) : Nat :=
  if 0 ≤ char_index ∧ char_index < 43 then glyphBits (font_5x7.getD char_index.toNat []) else 0

/-- Number of set bits of the glyphs of all characters of a text; a character
without glyph counts for none. -/
def textBits (s : List Char) : Nat :=
  (s.map (fun c => indexBits (char_to_font_index c))).sum

/-- `r` is `b` after `n` further stores, at the consecutive indices that start
at `b.vertex_count`, with the counter advanced by `n`. -/
def Appended (b r : VertexBuffer) (n : Nat) : Prop :=
  r.vertex_count = b.vertex_count + n ∧
  ∃ new : List (Nat × ℚ), r.writes = b.writes ++ new ∧
    new.map Prod.fst = List.range' b.vertex_count n

/-- Conversion of a pixel abscissa to normalised device coordinates, as the
specification gives it: `ndc_x = (px / width) * 2 - 1`. -/
def ndc_x (px : ℚ) (width : Nat) : ℚ :=
  (px / (width : ℚ)) * 2 - 1

/-- Conversion of a pixel ordinate to normalised device coordinates, as the
specification gives it: `ndc_y = 1 - (py / height) * 2`. -/
def ndc_y (py : ℚ) (height : Nat) : ℚ :=
  1 - (py / (height : ℚ)) * 2

/-- The six vertices `(x1,y1), (x2,y1), (x2,y2), (x2,y2), (x1,y2), (x1,y1)` of a
quad with corners `(x1,y1)` and `(x2,y2)`, as twelve floats. -/
def quadValues (x1 y1 x2 y2 : ℚ) : List ℚ :=
  [x1, y1, x2, y1, x2, y2, x2, y2, x1, y2, x1, y1]

/-- The geometry of a glyph as the specification describes it: going through
the rows 0..6 and, in each row, the columns 0..4 (column 0 is the highest of
the five bits), one quad for every set bit, with pixel corners
`(x + col*s, y + row*s)` and `(x + (col+1)*s, y + (row+1)*s)` converted to
normalised device coordinates. -/
def specGlyphValues (x y : Int) (glyph : List Nat) (s : Int) (width height : Nat) : List ℚ :=
  (List.range 7).flatMap (fun row =>
    (List.range 5).flatMap (fun col =>
      if (glyph.getD row 0).testBit (4 - col) then
        quadValues
          (ndc_x ((x : ℚ) + (col : ℚ) * (s : ℚ)) width)
          (ndc_y ((y : ℚ) + (row : ℚ) * (s : ℚ)) height)
          (ndc_x ((x : ℚ) + ((col : ℚ) + 1) * (s : ℚ)) width)
          (ndc_y ((y : ℚ) + ((row : ℚ) + 1) * (s : ℚ)) height)
      else []))

/-- `r` is `b` after the stores of the values `vals`, in this order, at the
consecutive indices that start at `b.vertex_count`, with the counter advanced
by their number. -/
def AppendedVals (b r : VertexBuffer) (vals : List ℚ) : Prop :=
  r.vertex_count = b.vertex_count + vals.length ∧
  r.writes = b.writes ++ (List.range' b.vertex_count vals.length).zip vals

/-- The GL calls that a call of `draw_fps_counter` entered with context `gl`
issues. -/
def overlayCalls (g : Globals) (fps : ℚ) (fps_text : List Char) (gl : GLState) : List GLCall :=
  (draw_fps_counter g fps fps_text gl).calls.drop gl.calls.length

/-- The registrations of a list of `(is_render, callback)` pairs, carried out
in order by `onRender` (for `true`) and `onInit` (for `false`). -/
def register (st : ShadertoyState) (regs : List (Bool × Nat)) : ShadertoyState :=
  regs.foldl (fun st r => if r.1 = true then onRender st r.2 else onInit st r.2) st

/-- The calls of OnInit callbacks in a sequence of events, in order, each with
its arguments `(f, program, width, height)`. -/
def initCalls : List Event → List (Option Nat × Nat × Nat × Nat)
  | [] => []
  | .onInitCallback f program width height :: es => (f, program, width, height) :: initCalls es
  | _ :: es => initCalls es

/-- The calls of OnRender callbacks in a sequence of events, in order, each
with its arguments `(f, frame, time)`. -/
def renderCalls : List Event → List (Option Nat × Nat × ℚ)
  | [] => []
  | .onRenderCallback f frame time :: es => (f, frame, time) :: renderCalls es
  | _ :: es => renderCalls es

/-- The calls of `draw_fps_counter` in a sequence of events, each with its
argument. -/
def compositorCalls : List Event → List ℚ
  | [] => []
  | .draw_fps_counter fps :: es => fps :: compositorCalls es
  | _ :: es => compositorCalls es

/-- The `glBufferData` calls of a call sequence, as `(size, data)`. -/
def bufferUploads : List GLCall → List (Nat × List ℚ)
  | [] => []
  | .BufferData _ size data _ :: cs => (size, data) :: bufferUploads cs
  | _ :: cs => bufferUploads cs

/-- A concrete environment: the driver reports GLSL ES 3.10 and its groups are
read back terminated, the shader file
holds a one-line `mainImage`, `create_program` gives `hud_ret` for the vertex
source of the overlay and `main_ret` for any other, linking succeeds, and the
callbacks leave the GL context alone. -/
def exampleExternal (main_ret hud_ret : Int) : External :=
  { regcomp_ret := 0
    shading_language_version := "OpenGL ES GLSL ES 3.10".toList
    trailing := terminated
    load_shader := fun _ =>
      .ok "void mainImage(out vec4 c, in vec2 p) \x7b c = vec4(1.0); \x7d\n".toList
    create_program := fun vs _ =>
      if vs = (hud_sources "310 es".toList).1 then hud_ret else main_ret
    link_program := fun _ => 0
    uniform_location := fun _ _ => 0
    shadertoy_vbo_name := 1
    fps_vbo_name := 2
    onInit_effect := fun _ _ _ _ gl => gl
    onRender_effect := fun _ _ _ gl => gl }

/-- The main sources that `init_shadertoy` builds in the environment
`exampleExternal`. -/
def exampleSources : List Char × List Char :=
  (asprintf shadertoy_vs_tmpl_300 [versionLine "310 es".toList],
   asprintf shadertoy_fs_tmpl_300 [versionLine "310 es".toList,
     "void mainImage(out vec4 c, in vec2 p) \x7b c = vec4(1.0); \x7d\n".toList])

/-- A GL context with program 3 and buffer 1 bound, blending off and no call
issued yet. -/
def exampleContext : GLState :=
  { current_program := 3, array_buffer_binding := 1, blend := false, blend_func := (1, 0),
    attrib0 := ⟨2, GL_FLOAT, false, 0, 0⟩, attrib0_enabled := true, calls := [] }

/-- Globals of a run with the overlay enabled on a 1920x1080 viewport, the
label `wave.frag`, overlay program 4 and overlay buffer 2. -/
def exampleGlobals : Globals :=
  { show_hud := true, screen_width := 1920, screen_height := 1080,
    shader_filename := some "wave.frag".toList, fps_program := 4, fps_vbo := 2 }

/-- The file basename as the specification describes it: the text after the
last `/` of the path, or the whole path when it contains no `/`. -/
def specBasename (path : List Char) : List Char :=
  (path.reverse.takeWhile (fun c => c != '/')).reverse

/-! ## Theorems: version resolver -/

theorem takeWhile_append_all {p : Char → Bool} (a b : List Char)
    (h : ∀ c ∈ a, p c = true) : (a ++ b).takeWhile p = a ++ b.takeWhile p := by
  induction a with
  | nil => rfl
  | cons x xs ih =>
    have hx : p x = true := h x (List.mem_cons_self _ _)
    simp [List.takeWhile_cons, hx, ih (fun c hc => h c (List.mem_cons_of_mem _ hc))]

theorem dropWhile_append_all {p : Char → Bool} (a b : List Char)
    (h : ∀ c ∈ a, p c = true) : (a ++ b).dropWhile p = b.dropWhile p := by
  induction a with
  | nil => rfl
  | cons x xs ih =>
    have hx : p x = true := h x (List.mem_cons_self _ _)
    simp [List.dropWhile_cons, hx, ih (fun c hc => h c (List.mem_cons_of_mem _ hc))]

theorem takeWhile_all_mem {p : Char → Bool} (l : List Char) :
    ∀ c ∈ l.takeWhile p, p c = true := by
  intro c hc
  exact List.mem_takeWhile_imp hc

theorem dropWhile_head_not {p : Char → Bool} (l : List Char) (c : Char) (r : List Char)
    (h : l.dropWhile p = c :: r) : p c = false := by
  induction l with
  | nil => simp at h
  | cons x xs ih =>
    by_cases hx : p x = true
    · rw [List.dropWhile_cons, if_pos hx] at h
      exact ih h
    · rw [List.dropWhile_cons, if_neg hx] at h
      cases h
      simpa using hx

theorem extract_group_mid (P X B : List Char) (so eo : Int)
    (hso : so = (P.length : Int)) (heo : eo = (P.length : Int) + (X.length : Int)) :
    extract_group (P ++ X ++ B) ⟨so, eo⟩ [] = X := by
  subst hso heo
  simp [extract_group, List.append_assoc]

theorem extract_group_unmatched (s : List Char) : extract_group s ⟨-1, -1⟩ [] = [] := by
  simp [extract_group]

theorem isSpaceClass_of_digit (c : Char) (h : isDigitClass c = true) :
    isSpaceClass c = false := by
  unfold isDigitClass at h
  simp only [Bool.and_eq_true, decide_eq_true_eq] at h
  have h0 : '0'.val ≤ c.val := h.1
  unfold isSpaceClass
  simp only [Bool.or_eq_false_iff, beq_eq_false_iff_ne, ne_eq]
  refine ⟨⟨⟨⟨⟨?_, ?_⟩, ?_⟩, ?_⟩, ?_⟩, ?_⟩ <;> (intro hc; subst hc; revert h0; decide)

theorem digit_ne_E (c : Char) (h : isDigitClass c = true) : c ≠ 'E' := by
  unfold isDigitClass at h
  simp only [Bool.and_eq_true, decide_eq_true_eq] at h
  have h9 : c.val ≤ '9'.val := h.2
  intro hc; subst hc; revert h9; decide

/-- Soundness of `match_at`: a reported match is a match of the pattern. -/
theorem match_at_sound (t : List Char) (i : Nat) (g : Groups) (h : match_at t i = some g) :
    ∃ es major minor rest, PatternAt t es major minor rest := by
  unfold match_at at h
  by_cases h4 : t.take 4 = ['G', 'L', 'S', 'L']
  swap
  · rw [if_neg h4] at h; cases h
  rw [if_pos h4] at h
  simp only at h
  have ht : t = ['G', 'L', 'S', 'L'] ++ t.drop 4 := by
    conv_lhs => rw [← List.take_append_drop 4 t, h4]
  generalize t.drop 4 = r at h ht
  have e1 : r = r.takeWhile isSpaceClass ++ r.dropWhile isSpaceClass :=
    (List.takeWhile_append_dropWhile _ _).symm
  generalize hws1 : r.takeWhile isSpaceClass = ws1 at h e1
  have hws1c : ∀ c ∈ ws1, isSpaceClass c = true := by
    rw [← hws1]; exact takeWhile_all_mem _
  generalize r.dropWhile isSpaceClass = r1 at h e1
  obtain ⟨es, hes⟩ : ∃ es : Bool, (if r1.take 2 = ['E', 'S'] then 2 else 0) = (esText es).length ∧
      r1 = esText es ++ r1.drop (esText es).length := by
    by_cases hes : r1.take 2 = ['E', 'S']
    · refine ⟨true, by simp [hes, esText], ?_⟩
      conv_lhs => rw [← List.take_append_drop 2 r1, hes]
      rfl
    · exact ⟨false, by simp [hes, esText], by simp [esText]⟩
  rw [hes.1] at h
  have e2 := hes.2
  generalize r1.drop (esText es).length = r2 at h e2
  have e3 : r2 = r2.takeWhile isSpaceClass ++ r2.dropWhile isSpaceClass :=
    (List.takeWhile_append_dropWhile _ _).symm
  generalize hws2 : r2.takeWhile isSpaceClass = ws2 at h e3
  have hws2c : ∀ c ∈ ws2, isSpaceClass c = true := by
    rw [← hws2]; exact takeWhile_all_mem _
  generalize r2.dropWhile isSpaceClass = r3 at h e3
  have e4 : r3 = r3.takeWhile isDigitClass ++ r3.dropWhile isDigitClass :=
    (List.takeWhile_append_dropWhile _ _).symm
  generalize hmaj : r3.takeWhile isDigitClass = major at h e4
  have hmajc : ∀ c ∈ major, isDigitClass c = true := by
    rw [← hmaj]; exact takeWhile_all_mem _
  generalize r3.dropWhile isDigitClass = r4 at h e4
  by_cases hdot : r4.take 1 = ['.']
  swap
  · rw [if_neg hdot] at h; cases h
  rw [if_pos hdot] at h
  have e5 : r4 = ['.'] ++ r4.drop 1 := by
    conv_lhs => rw [← List.take_append_drop 1 r4, hdot]
  generalize r4.drop 1 = r5 at h e5
  have e6 : r5 = r5.takeWhile isDigitClass ++ r5.dropWhile isDigitClass :=
    (List.takeWhile_append_dropWhile _ _).symm
  generalize hmin : r5.takeWhile isDigitClass = minor at h e6
  have hminc : ∀ c ∈ minor, isDigitClass c = true := by
    rw [← hmin]; exact takeWhile_all_mem _
  generalize r5.dropWhile isDigitClass = rest at h e6
  by_cases hpos : 0 < major.length ∧ 0 < minor.length
  swap
  · rw [if_neg hpos] at h; cases h
  refine ⟨es, major, minor, rest, ws1, ws2, ?_, hws1c, hws2c, ?_, hmajc, ?_, hminc⟩
  · rw [ht, e1, e2, e3, e4, e5, e6]
    simp [List.append_assoc]
  · intro h0; rw [h0] at hpos; simp at hpos
  · intro h0; rw [h0] at hpos; simp at hpos

theorem takeWhile_not_head {p : Char → Bool} (c : Char) (l : List Char) (h : p c = false) :
    (c :: l).takeWhile p = [] ∧ (c :: l).dropWhile p = c :: l := by
  simp [List.takeWhile_cons, List.dropWhile_cons, h]

theorem space_run_before_digits (major X : List Char) (hne : major ≠ [])
    (hd : ∀ c ∈ major, isDigitClass c = true) :
    (major ++ X).takeWhile isSpaceClass = [] ∧
    (major ++ X).dropWhile isSpaceClass = major ++ X := by
  cases major with
  | nil => exact absurd rfl hne
  | cons m ms =>
    exact takeWhile_not_head m (ms ++ X)
      (isSpaceClass_of_digit m (hd m (List.mem_cons_self _ _)))

theorem digit_run_before_rest (minor rest : List Char)
    (hd : ∀ c ∈ minor, isDigitClass c = true)
    (hrest : ∀ c r, rest = c :: r → isDigitClass c = false) :
    (minor ++ rest).takeWhile isDigitClass = minor := by
  rw [takeWhile_append_all minor rest hd]
  cases rest with
  | nil => simp
  | cons c r => simp [(takeWhile_not_head c r (hrest c r rfl)).1]

/-- Exactness of `match_at`: on a string that begins with a longest match of
the pattern, the reported offsets delimit the texts of the three groups. -/
theorem match_at_exact (pre ws1 ws2 major minor rest : List Char) (es : Bool)
    (hws1 : ∀ c ∈ ws1, isSpaceClass c = true) (hws2 : ∀ c ∈ ws2, isSpaceClass c = true)
    (hmajne : major ≠ []) (hmaj : ∀ c ∈ major, isDigitClass c = true)
    (hminne : minor ≠ []) (hmin : ∀ c ∈ minor, isDigitClass c = true)
    (hrest : ∀ c r, rest = c :: r → isDigitClass c = false) :
    ∃ g, match_at (['G', 'L', 'S', 'L'] ++ (ws1 ++ (esText es ++ (ws2 ++ (major ++ ('.' :: (minor ++ rest))))))) pre.length = some g ∧
      extract_group (pre ++ (['G', 'L', 'S', 'L'] ++ (ws1 ++ (esText es ++ (ws2 ++ (major ++ ('.' :: (minor ++ rest)))))))) g.g1 [] = esText es ∧
      extract_group (pre ++ (['G', 'L', 'S', 'L'] ++ (ws1 ++ (esText es ++ (ws2 ++ (major ++ ('.' :: (minor ++ rest)))))))) g.g2 [] = major ∧
      extract_group (pre ++ (['G', 'L', 'S', 'L'] ++ (ws1 ++ (esText es ++ (ws2 ++ (major ++ ('.' :: (minor ++ rest)))))))) g.g3 [] = minor ∧
      g.g0.rm_eo + (rest.length : Int) = ((pre ++ (['G', 'L', 'S', 'L'] ++ (ws1 ++ (esText es ++ (ws2 ++ (major ++ ('.' :: (minor ++ rest)))))))).length : Int) := by
  have hdot : isDigitClass '.' = false := by decide
  have hE : isSpaceClass 'E' = false := by decide
  have hT3 := space_run_before_digits major ('.' :: (minor ++ rest)) hmajne hmaj
  have hmajrun : (major ++ ('.' :: (minor ++ rest))).takeWhile isDigitClass = major :=
    digit_run_before_rest major ('.' :: (minor ++ rest)) hmaj
      (fun c r h => by cases h; exact hdot)
  have hmajdrop : (major ++ ('.' :: (minor ++ rest))).dropWhile isDigitClass =
      '.' :: (minor ++ rest) := by
    rw [dropWhile_append_all major ('.' :: (minor ++ rest)) hmaj,
      (takeWhile_not_head '.' (minor ++ rest) hdot).2]
  have hminrun := digit_run_before_rest minor rest hmin hrest
  have hmajpos : 0 < major.length := List.length_pos.mpr hmajne
  have hminpos : 0 < minor.length := List.length_pos.mpr hminne
  cases es with
  | true =>
    have hr : (ws1 ++ ('E' :: 'S' :: (ws2 ++ (major ++ ('.' :: (minor ++ rest)))))).takeWhile
        isSpaceClass = ws1 := by
      rw [takeWhile_append_all _ _ hws1, (takeWhile_not_head 'E' _ hE).1]; simp
    have hr1 : (ws1 ++ ('E' :: 'S' :: (ws2 ++ (major ++ ('.' :: (minor ++ rest)))))).dropWhile
        isSpaceClass = 'E' :: 'S' :: (ws2 ++ (major ++ ('.' :: (minor ++ rest)))) := by
      rw [dropWhile_append_all _ _ hws1, (takeWhile_not_head 'E' _ hE).2]
    have hr2 : (ws2 ++ (major ++ ('.' :: (minor ++ rest)))).takeWhile isSpaceClass = ws2 := by
      rw [takeWhile_append_all _ _ hws2, hT3.1]; simp
    have hr3 : (ws2 ++ (major ++ ('.' :: (minor ++ rest)))).dropWhile isSpaceClass =
        major ++ ('.' :: (minor ++ rest)) := by
      rw [dropWhile_append_all _ _ hws2, hT3.2]
    refine ⟨groupsAt pre.length ws1.length 2 ws2.length major.length minor.length,
      ?_, ?_, ?_, ?_, ?_⟩
    · simp only [match_at, esText, List.append_assoc, List.cons_append, List.nil_append,
        List.take_succ_cons, List.take_zero, List.drop_succ_cons, List.drop_zero, if_true,
        hr, hr1, hr2, hr3, hmajrun, hmajdrop, hminrun, hmajpos, hminpos, and_self]
    · have := extract_group_mid (pre ++ ['G', 'L', 'S', 'L'] ++ ws1) ['E', 'S']
        (ws2 ++ (major ++ ('.' :: (minor ++ rest))))
        ((pre.length + 4 + ws1.length : Nat) : Int)
        (((pre.length + 4 + ws1.length : Nat) : Int) + 2) (by simp only [List.length_append, List.length_cons, List.length_nil])
        (by simp only [List.length_append, List.length_cons, List.length_nil]; omega)
      simpa [groupsAt, esText, List.append_assoc] using this
    · have := extract_group_mid (pre ++ ['G', 'L', 'S', 'L'] ++ ws1 ++ ['E', 'S'] ++ ws2) major
        ('.' :: (minor ++ rest))
        ((pre.length + 4 + ws1.length + 2 + ws2.length : Nat) : Int)
        (((pre.length + 4 + ws1.length + 2 + ws2.length : Nat) : Int) + (major.length : Int))
        (by simp only [List.length_append, List.length_cons, List.length_nil])
        (by simp only [List.length_append, List.length_cons, List.length_nil])
      simpa [groupsAt, esText, List.append_assoc] using this
    · have := extract_group_mid
        (pre ++ ['G', 'L', 'S', 'L'] ++ ws1 ++ ['E', 'S'] ++ ws2 ++ major ++ ['.']) minor rest
        ((pre.length + 4 + ws1.length + 2 + ws2.length + major.length + 1 : Nat) : Int)
        (((pre.length + 4 + ws1.length + 2 + ws2.length + major.length + 1 : Nat) : Int) +
          (minor.length : Int))
        (by simp only [List.length_append, List.length_cons, List.length_nil])
        (by simp only [List.length_append, List.length_cons, List.length_nil])
      simpa [groupsAt, esText, List.append_assoc] using this
    · simp [groupsAt, esText]
      omega
  | false =>
    have hne : ¬ (major ++ ('.' :: (minor ++ rest))).take 2 = ['E', 'S'] := by
      cases major with
      | nil => exact absurd rfl hmajne
      | cons m ms =>
        intro h
        have hm := digit_ne_E m (hmaj m (List.mem_cons_self _ _))
        have h0 := congrArg List.head? h
        cases ms with
        | nil => simp at h0; exact hm h0
        | cons m2 ms2 => simp at h0; exact hm h0
    have hr : (ws1 ++ (ws2 ++ (major ++ ('.' :: (minor ++ rest))))).takeWhile
        isSpaceClass = ws1 ++ ws2 := by
      rw [takeWhile_append_all _ _ hws1, takeWhile_append_all _ _ hws2, hT3.1]; simp
    have hr1 : (ws1 ++ (ws2 ++ (major ++ ('.' :: (minor ++ rest))))).dropWhile
        isSpaceClass = major ++ ('.' :: (minor ++ rest)) := by
      rw [dropWhile_append_all _ _ hws1, dropWhile_append_all _ _ hws2, hT3.2]
    refine ⟨groupsAt pre.length (ws1.length + ws2.length) 0 0 major.length minor.length,
      ?_, ?_, ?_, ?_, ?_⟩
    · simp only [match_at, esText, List.append_assoc, List.cons_append, List.nil_append,
        List.take_succ_cons, List.take_zero, List.drop_succ_cons, List.drop_zero, if_true,
        hr, hr1, hne, if_false, Bool.false_eq_true, hT3.1, hT3.2, hmajrun, hmajdrop, hminrun, hmajpos, hminpos,
        and_self, List.length_append, List.length_nil]
    · simp [groupsAt, esText, extract_group_unmatched]
    · have := extract_group_mid (pre ++ ['G', 'L', 'S', 'L'] ++ ws1 ++ ws2) major
        ('.' :: (minor ++ rest))
        ((pre.length + 4 + (ws1.length + ws2.length) + 0 + 0 : Nat) : Int)
        (((pre.length + 4 + (ws1.length + ws2.length) + 0 + 0 : Nat) : Int) +
          (major.length : Int))
        (by simp only [List.length_append, List.length_cons, List.length_nil]; omega)
        (by simp only [List.length_append, List.length_cons, List.length_nil]; omega)
      simpa [groupsAt, esText, List.append_assoc] using this
    · have := extract_group_mid
        (pre ++ ['G', 'L', 'S', 'L'] ++ ws1 ++ ws2 ++ major ++ ['.']) minor rest
        ((pre.length + 4 + (ws1.length + ws2.length) + 0 + 0 + major.length + 1 : Nat) : Int)
        (((pre.length + 4 + (ws1.length + ws2.length) + 0 + 0 + major.length + 1 : Nat) : Int) +
          (minor.length : Int))
        (by simp only [List.length_append, List.length_cons, List.length_nil]; omega)
        (by simp only [List.length_append, List.length_cons, List.length_nil]; omega)
      simpa [groupsAt, esText, List.append_assoc] using this
    · simp [groupsAt, esText]
      omega

theorem match_at_none_of_no_pattern (t : List Char)
    (h : ∀ e M m r, ¬ PatternAt t e M m r) (j : Nat) : match_at t j = none := by
  cases hm : match_at t j with
  | none => rfl
  | some g =>
    obtain ⟨e, M, m, r, hp⟩ := match_at_sound t j g hm
    exact absurd hp (h e M m r)

/-- The search reports the match found at the first offset where one exists. -/
theorem regexec_from_prefix (pre t : List Char) (g : Groups) :
    ∀ i : Nat,
    (∀ pre1 t1 : List Char, pre ++ t = pre1 ++ t1 → pre1.length < pre.length →
      ∀ j, match_at t1 j = none) →
    match_at t (i + pre.length) = some g →
    regexec_from (pre ++ t) i = some g := by
  induction pre with
  | nil =>
    intro i _ hm
    cases t with
    | nil => simp [match_at] at hm
    | cons c cs =>
      simp only [List.length_nil, Nat.add_zero] at hm
      rw [List.nil_append, regexec_from, hm]
  | cons x xs ih =>
    intro i hno hm
    have h0 : match_at (x :: (xs ++ t)) i = none :=
      hno [] (x :: (xs ++ t)) (by simp) (by simp) i
    rw [List.cons_append, regexec_from, h0]
    apply ih (i + 1)
    · intro pre1 t1 he hl j
      exact hno (x :: pre1) t1 (by simp [he]) (by simpa using hl) j
    · have : i + 1 + xs.length = i + (x :: xs).length := by simp; omega
      rw [this]; exact hm

theorem regexec_from_none (s : List Char) (h : NoVersionMatch s) :
    ∀ i, regexec_from s i = none := by
  induction s with
  | nil => intro i; rfl
  | cons c cs ih =>
    intro i
    have h0 : match_at (c :: cs) i = none :=
      match_at_none_of_no_pattern _ (h [] (c :: cs) rfl) i
    rw [regexec_from, h0]
    apply ih
    intro pre t he
    exact h (c :: pre) t (by simp [he])

theorem strcasecmp_esText (es : Bool) : strcasecmp_eq (esText es) ['E', 'S'] = es := by
  cases es <;> decide

theorem extract_group_after (s : List Char) (g : regmatch_t) (after : List Char) :
    extract_group s g after = extract_group s g [] ++ after := by
  simp [extract_group]

/-- The directive computed by `glsl_version` from the POSIX match of the
version pattern and the bytes found after the three blocks: each group is read
as its matched text followed by those bytes. -/
theorem glsl_version_of_match_trailing (s : List Char) (es : Bool) (major minor : List Char)
    (after : Trailing) (h : VersionMatch s es major minor) :
    glsl_version 0 s after = .ok ((major ++ after.major) ++ normalizeMinor (minor ++ after.minor) ++
      (if (strcasecmp_eq (esText es ++ after.es) ['E', 'S'] &&
          !(decide (major ++ after.major = ['1']) &&
            decide (normalizeMinor (minor ++ after.minor) = ['0', '0'])))
        then [' ', 'e', 's'] else [])) := by
  obtain ⟨pre, t, rest, hs, ⟨ws1, ws2, ht, hws1, hws2, hmajne, hmaj, hminne, hmin⟩, hleft, hlong⟩ := h
  have hrest : ∀ c r, rest = c :: r → isDigitClass c = false := by
    intro c r hr
    by_contra hc
    have hc1 : isDigitClass c = true := by simpa using hc
    have hp : PatternAt t es major (minor ++ [c]) r := by
      refine ⟨ws1, ws2, ?_, hws1, hws2, hmajne, hmaj, by simp, ?_⟩
      · rw [ht, hr]; simp
      · intro d hd
        rcases List.mem_append.mp hd with hd | hd
        · exact hmin d hd
        · simp at hd; rw [hd]; exact hc1
    have := hlong es major (minor ++ [c]) r hp
    rw [hr] at this
    simp at this
  obtain ⟨g, hg, hg1, hg2, hg3, _⟩ :=
    match_at_exact pre ws1 ws2 major minor rest es hws1 hws2 hmajne hmaj hminne hmin hrest
  rw [← ht] at hg hg1 hg2 hg3
  rw [← hs] at hg1 hg2 hg3
  have hsearch : regexec_from s 0 = some g := by
    rw [hs]
    apply regexec_from_prefix pre t g 0
    · intro pre1 t1 he hl j
      exact match_at_none_of_no_pattern t1 (hleft pre1 t1 (hs.trans he) hl) j
    · simpa using hg
  have hlen : s.length ≠ 0 := by
    rw [hs, ht]; simp
  have hre : regexec s = (0, g) := by
    simp [regexec, hsearch]
  have e1 := extract_group_after s g.g1 after.es
  have e2 := extract_group_after s g.g2 after.major
  have e3 := extract_group_after s g.g3 after.minor
  rw [hg1] at e1
  rw [hg2] at e2
  rw [hg3] at e3
  simp only [glsl_version, hre, e1, e2, e3, normalizeMinor, REG_NOMATCH]
  simp [hlen]

/-- The directive computed by `glsl_version` from the POSIX match of the
version pattern when the three blocks are read back terminated. -/
theorem glsl_version_of_match (s : List Char) (es : Bool) (major minor : List Char)
    (h : VersionMatch s es major minor) :
    glsl_version 0 s terminated = .ok (major ++ normalizeMinor minor ++
      (if (es && !(decide (major = ['1']) && decide (normalizeMinor minor = ['0', '0'])))
        then [' ', 'e', 's'] else [])) := by
  have hv := glsl_version_of_match_trailing s es major minor terminated h
  simp only [terminated, List.append_nil, strcasecmp_esText] at hv
  exact hv

theorem pattern_extend (t : List Char) (e : Bool) (M m r : List Char)
    (h : PatternAt t e M m r) :
    PatternAt t e M (m ++ r.takeWhile isDigitClass) (r.dropWhile isDigitClass) := by
  obtain ⟨ws1, ws2, ht, hws1, hws2, hMne, hM, hmne, hm⟩ := h
  refine ⟨ws1, ws2, ?_, hws1, hws2, hMne, hM, by simp [hmne], ?_⟩
  · rw [ht, List.append_assoc m, List.takeWhile_append_dropWhile]
  · intro c hc
    rcases List.mem_append.mp hc with hc | hc
    · exact hm c hc
    · exact takeWhile_all_mem _ c hc

/-- Completeness of `match_at`: wherever the pattern matches, `match_at`
reports the longest match, with the offsets of its groups. -/
theorem match_at_of_pattern (pre t : List Char) (e : Bool) (M m r : List Char)
    (h : PatternAt t e M m r) :
    ∃ g, match_at t pre.length = some g ∧
      extract_group (pre ++ t) g.g1 [] = esText e ∧
      extract_group (pre ++ t) g.g2 [] = M ∧
      extract_group (pre ++ t) g.g3 [] = m ++ r.takeWhile isDigitClass ∧
      g.g0.rm_eo + ((r.dropWhile isDigitClass).length : Int) = ((pre ++ t).length : Int) := by
  obtain ⟨ws1, ws2, ht, hws1, hws2, hMne, hM, hmne, hm⟩ := pattern_extend t e M m r h
  have hrest : ∀ c r1, r.dropWhile isDigitClass = c :: r1 → isDigitClass c = false :=
    fun c r1 hc => dropWhile_head_not r c r1 hc
  have := match_at_exact pre ws1 ws2 M (m ++ r.takeWhile isDigitClass)
    (r.dropWhile isDigitClass) e hws1 hws2 hMne hM hmne hm hrest
  rw [← ht] at this
  exact this

/-- Soundness of `match_at` with captures: a reported match is the longest
match of the pattern at that offset and the offsets delimit its groups. -/
theorem match_at_sound_full (pre t : List Char) (g : Groups)
    (h : match_at t pre.length = some g) :
    ∃ es major minor rest, PatternAt t es major minor rest ∧
      (∀ e M m r, PatternAt t e M m r → rest.length ≤ r.length) ∧
      extract_group (pre ++ t) g.g1 [] = esText es ∧
      extract_group (pre ++ t) g.g2 [] = major ∧
      extract_group (pre ++ t) g.g3 [] = minor := by
  obtain ⟨e, M, m, r, hp⟩ := match_at_sound t pre.length g h
  obtain ⟨g1, hg1, h1, h2, h3, h0⟩ := match_at_of_pattern pre t e M m r hp
  have hgg : g1 = g := by rw [h] at hg1; exact (Option.some.inj hg1).symm
  subst hgg
  refine ⟨e, M, m ++ r.takeWhile isDigitClass, r.dropWhile isDigitClass,
    pattern_extend t e M m r hp, ?_, h1, h2, h3⟩
  intro e2 M2 m2 r2 hp2
  obtain ⟨g2, hg2, _, _, _, h02⟩ := match_at_of_pattern pre t e2 M2 m2 r2 hp2
  have hgg2 : g2 = g1 := by rw [hg1] at hg2; exact (Option.some.inj hg2).symm
  subst hgg2
  have hle : (r2.dropWhile isDigitClass).length ≤ r2.length := by
    have := congrArg List.length (List.takeWhile_append_dropWhile isDigitClass r2)
    rw [List.length_append] at this
    omega
  omega

theorem no_pattern_of_match_at_none (t : List Char) (i : Nat) (h : match_at t i = none) :
    ∀ e M m r, ¬ PatternAt t e M m r := by
  intro e M m r hp
  obtain ⟨g, hg, _⟩ := match_at_of_pattern (List.replicate i ' ') t e M m r hp
  rw [List.length_replicate, h] at hg
  cases hg

/-- A successful search stops at the first offset where the pattern matches. -/
theorem regexec_from_some (s : List Char) (g : Groups) :
    ∀ i : Nat, regexec_from s i = some g →
    ∃ pre t : List Char, s = pre ++ t ∧ match_at t (i + pre.length) = some g ∧
      ∀ pre1 t1 : List Char, s = pre1 ++ t1 → pre1.length < pre.length →
        ∀ e M m r, ¬ PatternAt t1 e M m r := by
  induction s with
  | nil => intro i h; simp [regexec_from] at h
  | cons c cs ih =>
    intro i h
    rw [regexec_from] at h
    cases hm : match_at (c :: cs) i with
    | some g1 =>
      rw [hm] at h
      have hg : g1 = g := Option.some.inj h
      subst hg
      exact ⟨[], c :: cs, rfl, by simpa using hm, fun pre1 t1 _ hl => by simp at hl⟩
    | none =>
      rw [hm] at h
      obtain ⟨pre, t, hs, hmt, hleft⟩ := ih (i + 1) h
      refine ⟨c :: pre, t, by rw [hs]; rfl, ?_, ?_⟩
      · have : i + (c :: pre).length = i + 1 + pre.length := by simp; omega
        rw [this]; exact hmt
      · intro pre1 t1 he hl
        cases pre1 with
        | nil =>
          simp only [List.nil_append] at he
          rw [← he]
          exact no_pattern_of_match_at_none _ i hm
        | cons x p1 =>
          simp only [List.cons_append, List.cons.injEq] at he
          exact hleft p1 t1 he.2 (by simpa using hl)

/-- Soundness of the search: what `regexec` reports is the POSIX match of the
version pattern, and the offsets delimit the texts of its groups. -/
theorem versionMatch_of_regexec (s : List Char) (g : Groups)
    (h : regexec_from s 0 = some g) :
    VersionMatch s (strcasecmp_eq (extract_group s g.g1 []) ['E', 'S'])
      (extract_group s g.g2 []) (extract_group s g.g3 []) := by
  obtain ⟨pre, t, hs, hmt, hleft⟩ := regexec_from_some s g 0 h
  rw [Nat.zero_add] at hmt
  obtain ⟨es, major, minor, rest, hp, hlong, h1, h2, h3⟩ := match_at_sound_full pre t g hmt
  rw [← hs] at h1 h2 h3
  rw [h1, h2, h3, strcasecmp_esText]
  exact ⟨pre, t, rest, hs, hp, hleft, hlong⟩

/-- The search fails exactly when the pattern matches nowhere. -/
theorem regexec_from_eq_none_iff (s : List Char) :
    regexec_from s 0 = none ↔ NoVersionMatch s := by
  constructor
  · intro h pre t hs e M m r hp
    have key : ∀ (pre : List Char) (i : Nat), regexec_from (pre ++ t) i ≠ none := by
      intro pre
      induction pre with
      | nil =>
        intro i hn
        obtain ⟨g, hg, _⟩ := match_at_of_pattern (List.replicate i ' ') t e M m r hp
        rw [List.length_replicate] at hg
        cases t with
        | nil => simp [match_at] at hg
        | cons c cs =>
          rw [List.nil_append, regexec_from, hg] at hn
          cases hn
      | cons x xs ih =>
        intro i hn
        rw [List.cons_append, regexec_from] at hn
        cases hm : match_at (x :: (xs ++ t)) i with
        | some g1 => rw [hm] at hn; cases hn
        | none => rw [hm] at hn; exact ih (i + 1) hn
    exact key pre 0 (hs ▸ h)
  · intro h
    exact regexec_from_none s h 0

/-- C1 (counterexample): the four strings of the claim contain no `GLSL`, which
the pattern requires, so `glsl_version` returns the empty directive for each of
them and none of the four claimed values (no group is extracted, so what
follows the blocks of `extract_group` plays no part). -/
theorem glsl_version_bare_version_strings :
    glsl_version 0 "1.00".toList terminated = .ok [] ∧
    glsl_version 0 "1.00".toList terminated ≠ .ok "100".toList ∧
    glsl_version 0 "ES 1.00".toList terminated = .ok [] ∧
    glsl_version 0 "ES 1.00".toList terminated ≠ .ok "100".toList ∧
    glsl_version 0 "ES 3.10".toList terminated = .ok [] ∧
    glsl_version 0 "ES 3.10".toList terminated ≠ .ok "310 es".toList ∧
    glsl_version 0 "4.30".toList terminated = .ok [] ∧
    glsl_version 0 "4.30".toList terminated ≠ .ok "430".toList := by
  decide

/-- C1 (amended): when the version is preceded by the literal `GLSL` that the
pattern requires, `glsl_version` maps `GLSL 1.00` to `100` (no suffix),
`GLSL ES 1.00` to `100` (no suffix), `GLSL ES 3.10` to `310 es` and `GLSL 4.30`
(no ES marker) to `430`; the groups, of at most two bytes each, are read back
terminated. -/
theorem glsl_version_examples :
    glsl_version 0 "GLSL 1.00".toList terminated = .ok "100".toList ∧
    glsl_version 0 "GLSL ES 1.00".toList terminated = .ok "100".toList ∧
    glsl_version 0 "GLSL ES 3.10".toList terminated = .ok "310 es".toList ∧
    glsl_version 0 "GLSL 4.30".toList terminated = .ok "430".toList := by
  decide

theorem normalizeMinor_digits (minor : List Char) (hne : minor ≠ [])
    (hd : ∀ c ∈ minor, isDigitClass c = true) :
    normalizeMinor minor ≠ [] ∧ ∀ c ∈ normalizeMinor minor, isDigitClass c = true := by
  unfold normalizeMinor
  split
  · refine ⟨by simp, ?_⟩
    intro c hc
    simp at hc
    rw [hc]; decide
  · exact ⟨hne, hd⟩

theorem not_suffix_es_of_digits (a b : List Char) (hne : b ≠ [])
    (hd : ∀ c ∈ b, isDigitClass c = true) : ¬ ([' ', 'e', 's'] <:+ a ++ b) := by
  rintro ⟨p, hp⟩
  have hrev := congrArg List.reverse hp
  simp only [List.reverse_append, List.reverse_cons, List.reverse_nil, List.nil_append,
    List.cons_append] at hrev
  cases hb : b.reverse with
  | nil => exact hne (by simpa using hb)
  | cons x xs =>
    rw [hb] at hrev
    simp only [List.cons_append, List.cons.injEq] at hrev
    have hx : x ∈ b := by
      have : x ∈ b.reverse := by rw [hb]; exact List.mem_cons_self _ _
      simpa using this
    have := hd x hx
    rw [← hrev.1] at this
    revert this
    decide

/-- When the three blocks are read back terminated, `glsl_version` returns for
a driver string in which the version pattern matches (with `es`, `major`,
`minor` the groups of the POSIX match) the major digits followed by the
normalised minor digits, and the result ends with ` es` exactly when the ES
marker was matched and it is not the case that major is `1` and the normalised
minor is `00`. -/
theorem glsl_version_directive_terminated (s : List Char) (es : Bool)
    (major minor : List Char) (h : VersionMatch s es major minor) :
    glsl_version 0 s terminated = .ok (major ++ normalizeMinor minor ++
      (if es = true ∧ ¬ (major = ['1'] ∧ normalizeMinor minor = ['0', '0'])
        then [' ', 'e', 's'] else [])) ∧
    (∀ d, glsl_version 0 s terminated = .ok d →
      ([' ', 'e', 's'] <:+ d ↔
        (es = true ∧ ¬ (major = ['1'] ∧ normalizeMinor minor = ['0', '0'])))) := by
  have hv := glsl_version_of_match s es major minor h
  obtain ⟨_, _, _, _, ⟨_, _, _, _, _, _, _, hminne, hmin⟩, _, _⟩ := h
  have hnm := normalizeMinor_digits minor hminne hmin
  have hfirst : glsl_version 0 s terminated = .ok (major ++ normalizeMinor minor ++
      (if es = true ∧ ¬ (major = ['1'] ∧ normalizeMinor minor = ['0', '0'])
        then [' ', 'e', 's'] else [])) := by
    rw [hv]
    by_cases hc : es = true ∧ ¬ (major = ['1'] ∧ normalizeMinor minor = ['0', '0'])
    · rw [if_pos hc]
      obtain ⟨h1, h2⟩ := hc
      simp only [h1, Bool.true_and]
      by_cases h3 : major = ['1']
      · have h4 : ¬ normalizeMinor minor = ['0', '0'] := fun h4 => h2 ⟨h3, h4⟩
        simp [h3, h4]
      · simp [h3]
    · rw [if_neg hc]
      cases es with
      | false => simp
      | true =>
        have h2 : major = ['1'] ∧ normalizeMinor minor = ['0', '0'] := by
          by_contra h2; exact hc ⟨rfl, h2⟩
        simp [h2.1, h2.2]
  refine ⟨hfirst, ?_⟩
  intro d hd
  rw [hfirst] at hd
  have hd' := Except.ok.inj hd
  by_cases hc : es = true ∧ ¬ (major = ['1'] ∧ normalizeMinor minor = ['0', '0'])
  · rw [if_pos hc] at hd'
    rw [← hd']
    exact ⟨fun _ => hc, fun _ => List.suffix_append _ _⟩
  · rw [if_neg hc, List.append_nil] at hd'
    rw [← hd']
    exact ⟨fun hs => absurd hs (not_suffix_es_of_digits major _ hnm.1 hnm.2),
      fun h1 => absurd h1 hc⟩

theorem versionMatch_long_major :
    VersionMatch "GLSL 123456789012345678901234.5".toList false
      "123456789012345678901234".toList ['5'] :=
  versionMatch_of_regexec "GLSL 123456789012345678901234.5".toList (groupsAt 0 1 0 0 24 1)
    (by decide)

/-- C2 (the code at the failing input): in the driver string
`GLSL 123456789012345678901234.5` the version pattern matches with no ES
marker, the 24 digits as major and `5` as minor, so the claim gives the
directive `1234567890123456789012345`.  `extract_group` puts the 24 digits in
a block of exactly 24 bytes without terminator, and `asprintf` reads on past
the block: with the bytes `t` found there, `glsl_version` returns the 24
digits, then `t`, then `5`; with the byte `!` there it returns
`123456789012345678901234!5`, which is not the value of the claim.  When all
three blocks are read back terminated the claim holds for every driver string
in which the pattern matches; `OpenGL ES GLSL ES 3.10` then gives `310 es` and
`OpenGL ES GLSL ES 1.00` gives `100`. -/
theorem glsl_version_unterminated_major :
    VersionMatch "GLSL 123456789012345678901234.5".toList false
      "123456789012345678901234".toList ['5'] ∧
    (∀ t : List Char,
      glsl_version 0 "GLSL 123456789012345678901234.5".toList
          { es := [], major := t, minor := [] } =
        .ok ("123456789012345678901234".toList ++ t ++ ['5'])) ∧
    glsl_version 0 "GLSL 123456789012345678901234.5".toList
        { es := [], major := ['!'], minor := [] } =
      .ok "123456789012345678901234!5".toList ∧
    glsl_version 0 "GLSL 123456789012345678901234.5".toList
        { es := [], major := ['!'], minor := [] } ≠
      .ok ("123456789012345678901234".toList ++ normalizeMinor ['5']) ∧
    (∀ (s : List Char) (es : Bool) (major minor : List Char),
      VersionMatch s es major minor →
        glsl_version 0 s terminated = .ok (major ++ normalizeMinor minor ++
          (if es = true ∧ ¬ (major = ['1'] ∧ normalizeMinor minor = ['0', '0'])
            then [' ', 'e', 's'] else [])) ∧
        (∀ d, glsl_version 0 s terminated = .ok d →
          ([' ', 'e', 's'] <:+ d ↔
            (es = true ∧ ¬ (major = ['1'] ∧ normalizeMinor minor = ['0', '0']))))) ∧
    glsl_version 0 "OpenGL ES GLSL ES 3.10".toList terminated = .ok "310 es".toList ∧
    glsl_version 0 "OpenGL ES GLSL ES 1.00".toList terminated = .ok "100".toList := by
  have hgen : ∀ t : List Char,
      glsl_version 0 "GLSL 123456789012345678901234.5".toList
          { es := [], major := t, minor := [] } =
        .ok ("123456789012345678901234".toList ++ t ++ ['5']) := by
    intro t
    have h := glsl_version_of_match_trailing _ _ _ _ { es := [], major := t, minor := [] }
      versionMatch_long_major
    have e1 : normalizeMinor ['5'] = ['5'] := by decide
    have e2 : strcasecmp_eq (esText false) ['E', 'S'] = false := by decide
    rw [h]
    simp only [List.append_nil, e1, e2, Bool.false_and, Bool.false_eq_true, if_false]
  refine ⟨versionMatch_long_major, hgen, hgen ['!'], ?_, glsl_version_directive_terminated,
    by decide, by decide⟩
  rw [hgen ['!']]
  decide

/-- C3 (counterexample): a reported version `3.1` is not padded: the driver
string `OpenGL ES GLSL ES 3.1`, with its groups read back terminated, yields
`31 es`, whose minor part is the single digit `1`, and not `310 es`. -/
theorem glsl_version_single_digit_minor :
    glsl_version 0 "OpenGL ES GLSL ES 3.1".toList terminated = .ok "31 es".toList ∧
    glsl_version 0 "OpenGL ES GLSL ES 3.1".toList terminated ≠ .ok "310 es".toList := by
  decide

/-- C3 (amended): for every driver string in which the version pattern matches,
whenever the blocks of the major and the minor digits are read back terminated
(`extract_group` writes no terminator, so this is up to the heap), the
directive is the major digits, then the minor part, then nothing or ` es`,
where the minor part is `00` when the reported minor is `0` and is the
reported minor unchanged otherwise; so it has two digits exactly when the
reported minor is `0` or has two digits.  With all blocks terminated,
`OpenGL ES GLSL ES 3.0` yields `300 es`, `OpenGL ES GLSL ES 3.10` yields
`310 es` and `OpenGL ES GLSL ES 3.1` yields `31 es`. -/
theorem glsl_version_minor_part (s : List Char) (es : Bool) (major minor : List Char)
    (after : Trailing)
    (h : VersionMatch s es major minor)
    (hterm : after.major = [] ∧ after.minor = []) :
    (∃ sfx : List Char, (sfx = [] ∨ sfx = [' ', 'e', 's']) ∧
      glsl_version 0 s after =
        .ok (major ++ (if minor = ['0'] then ['0', '0'] else minor) ++ sfx)) ∧
    ((if minor = ['0'] then ['0', '0'] else minor).length = 2 ↔
      (minor = ['0'] ∨ minor.length = 2)) ∧
    glsl_version 0 "OpenGL ES GLSL ES 3.0".toList terminated = .ok "300 es".toList ∧
    glsl_version 0 "OpenGL ES GLSL ES 3.10".toList terminated = .ok "310 es".toList ∧
    glsl_version 0 "OpenGL ES GLSL ES 3.1".toList terminated = .ok "31 es".toList := by
  refine ⟨?_, ?_, by decide, by decide, by decide⟩
  · have hv := glsl_version_of_match_trailing s es major minor after h
    rw [hterm.1, hterm.2] at hv
    simp only [List.append_nil] at hv
    unfold normalizeMinor at hv
    by_cases hc : (strcasecmp_eq (esText es ++ after.es) ['E', 'S'] &&
        !(decide (major = ['1']) &&
          decide ((if minor = ['0'] then ['0', '0'] else minor) = ['0', '0']))) = true
    · exact ⟨[' ', 'e', 's'], Or.inr rfl, by rw [hv, if_pos hc]⟩
    · exact ⟨[], Or.inl rfl, by rw [hv, if_neg hc]⟩
  · by_cases h0 : minor = ['0']
    · simp [h0]
    · simp [h0]

/-- Witness for `glsl_version_minor_part`: the POSIX match in
`OpenGL ES GLSL ES 3.1` has the ES marker, major `3` and minor `1`, and with
the blocks terminated the minor part of the directive is the single digit
`1`. -/
theorem glsl_version_minor_part_witness :
    VersionMatch "OpenGL ES GLSL ES 3.1".toList true ['3'] ['1'] ∧
    (terminated.major = [] ∧ terminated.minor = []) ∧
    ∃ sfx : List Char, (sfx = [] ∨ sfx = [' ', 'e', 's']) ∧
      glsl_version 0 "OpenGL ES GLSL ES 3.1".toList terminated =
        .ok (['3'] ++ ['1'] ++ sfx) :=
  have hm : VersionMatch "OpenGL ES GLSL ES 3.1".toList true ['3'] ['1'] :=
    versionMatch_of_regexec "OpenGL ES GLSL ES 3.1".toList (groupsAt 10 1 2 1 1 1) (by decide)
  ⟨hm, ⟨rfl, rfl⟩, (glsl_version_minor_part _ true ['3'] ['1'] terminated hm ⟨rfl, rfl⟩).1⟩

/-! ## Theorems: template synthesiser -/

theorem asprintf_plain (fmt : List Char) (args : List (List Char)) (h : '%' ∉ fmt) :
    asprintf fmt args = fmt := by
  induction fmt with
  | nil => rfl
  | cons c rest ih =>
    have hc : c ≠ '%' := fun e => h (e ▸ List.mem_cons_self _ _)
    have hr : '%' ∉ rest := fun e => h (List.mem_cons_of_mem _ e)
    cases rest with
    | nil => rfl
    | cons d r =>
      have hi := ih hr
      rw [asprintf.eq_def]
      simp only [hc, false_and, if_false]
      rw [hi]

theorem asprintf_conv (fmt : List Char) (a : List Char) (as : List (List Char))
    (h : (fmt.dropWhile (fun c => c != '%')).take 2 = ['%', 's']) :
    asprintf fmt (a :: as) = formatHead fmt ++ (a ++ asprintf (formatTail fmt) as) := by
  induction fmt with
  | nil => simp at h
  | cons c rest ih =>
    by_cases hc : c = '%'
    · subst hc
      cases rest with
      | nil => simp at h
      | cons d r =>
        simp [List.dropWhile_cons] at h
        subst h
        simp [asprintf, formatHead, formatTail, List.takeWhile_cons, List.dropWhile_cons]
    · have hb : (c != '%') = true := by simpa using hc
      have e1 : (c :: rest).dropWhile (fun c => c != '%') =
          rest.dropWhile (fun c => c != '%') := by
        rw [List.dropWhile_cons, if_pos hb]
      rw [e1] at h
      cases rest with
      | nil => simp at h
      | cons d r =>
        rw [asprintf, if_neg (fun e => hc e.1), ih h]
        simp only [formatHead, formatTail, e1, List.takeWhile_cons, hb, if_true, List.cons_append]

theorem asprintf_two (fmt a b : List Char)
    (h1 : (fmt.dropWhile (fun c => c != '%')).take 2 = ['%', 's'])
    (h2 : ((formatTail fmt).dropWhile (fun c => c != '%')).take 2 = ['%', 's'])
    (h3 : '%' ∉ formatTail (formatTail fmt)) :
    asprintf fmt [a, b] =
      formatHead fmt ++ (a ++ (formatHead (formatTail fmt) ++
        (b ++ formatTail (formatTail fmt)))) := by
  rw [asprintf_conv fmt a [b] h1, asprintf_conv (formatTail fmt) b [] h2,
    asprintf_plain _ [] h3]

theorem asprintf_one (fmt a : List Char)
    (h1 : (fmt.dropWhile (fun c => c != '%')).take 2 = ['%', 's'])
    (h2 : '%' ∉ formatTail fmt) :
    asprintf fmt [a] = formatHead fmt ++ (a ++ formatTail fmt) := by
  rw [asprintf_conv fmt a [] h1, asprintf_plain _ [] h2]

theorem fs_tmpl_100_shape :
    (shadertoy_fs_tmpl_100.dropWhile (fun c => c != '%')).take 2 = ['%', 's'] ∧
    ((formatTail shadertoy_fs_tmpl_100).dropWhile (fun c => c != '%')).take 2 = ['%', 's'] ∧
    '%' ∉ formatTail (formatTail shadertoy_fs_tmpl_100) := by
  decide!

theorem fs_tmpl_300_shape :
    (shadertoy_fs_tmpl_300.dropWhile (fun c => c != '%')).take 2 = ['%', 's'] ∧
    ((formatTail shadertoy_fs_tmpl_300).dropWhile (fun c => c != '%')).take 2 = ['%', 's'] ∧
    '%' ∉ formatTail (formatTail shadertoy_fs_tmpl_300) := by
  decide!

theorem vs_tmpl_100_shape :
    (shadertoy_vs_tmpl_100.dropWhile (fun c => c != '%')).take 2 = ['%', 's'] ∧
    '%' ∉ formatTail shadertoy_vs_tmpl_100 := by
  decide!

theorem vs_tmpl_300_shape :
    (shadertoy_vs_tmpl_300.dropWhile (fun c => c != '%')).take 2 = ['%', 's'] ∧
    '%' ∉ formatTail shadertoy_vs_tmpl_300 := by
  decide!

theorem fs_tmpl_100_synth (d body : List Char) :
    asprintf shadertoy_fs_tmpl_100 [d, body] =
      formatHead shadertoy_fs_tmpl_100 ++ (d ++ (formatHead (formatTail shadertoy_fs_tmpl_100) ++
        (body ++ formatTail (formatTail shadertoy_fs_tmpl_100)))) :=
  asprintf_two _ d body fs_tmpl_100_shape.1 fs_tmpl_100_shape.2.1 fs_tmpl_100_shape.2.2

theorem fs_tmpl_300_synth (d body : List Char) :
    asprintf shadertoy_fs_tmpl_300 [d, body] =
      formatHead shadertoy_fs_tmpl_300 ++ (d ++ (formatHead (formatTail shadertoy_fs_tmpl_300) ++
        (body ++ formatTail (formatTail shadertoy_fs_tmpl_300)))) :=
  asprintf_two _ d body fs_tmpl_300_shape.1 fs_tmpl_300_shape.2.1 fs_tmpl_300_shape.2.2

theorem version_directive_eq (version : List Char) :
    asprintf "#version %s".toList [version] = "#version ".toList ++ version := by
  have h := asprintf_one "#version %s".toList version (by decide) (by decide)
  rw [h]
  have e1 : formatHead "#version %s".toList = "#version ".toList := by decide
  have e2 : formatTail "#version %s".toList = [] := by decide
  rw [e1, e2, List.append_nil]

theorem glsl_version_empty_of_no_match (s : List Char) (after : Trailing)
    (h : s = [] ∨ NoVersionMatch s) :
    glsl_version 0 s after = .ok [] := by
  rcases h with h | h
  · subst h; rfl
  · have hre : regexec s = (REG_NOMATCH, noGroups) := by
      simp [regexec, regexec_from_none s h 0]
    simp only [glsl_version, hre]
    simp

theorem glsl_version_error_iff (regcomp_ret : Int) (s : List Char) (after : Trailing) :
    (∃ e, glsl_version regcomp_ret s after = .error e) ↔ regcomp_ret ≠ 0 := by
  constructor
  · rintro ⟨e, he⟩ h0
    subst h0
    unfold glsl_version at he
    simp only [ne_eq, not_true_eq_false, if_false] at he
    split at he
    · cases he
    · unfold regexec at he
      cases hr : regexec_from s 0 with
      | none => simp [hr, REG_NOMATCH] at he
      | some g => simp [hr, REG_NOMATCH] at he
  · intro h
    exact ⟨regcomp_ret, by simp [glsl_version, h]⟩

/-- C4: for every driver string that is empty or in which the version pattern
matches nowhere, `glsl_version` returns the empty directive (it exits only when
`regcomp` fails, whatever the driver string and the heap), and `init_shadertoy` then builds
the sources from the Legacy templates with nothing in place of the version
line: neither the vertex source nor the text around the shader body in the
fragment source contains `#version`. -/
theorem glsl_version_unmatched_legacy (s : List Char) (h : s = [] ∨ NoVersionMatch s)
    (shader : List Char) (after : Trailing) :
    glsl_version 0 s after = .ok [] ∧
    (∀ (regcomp_ret : Int) (t : List Char) (after1 : Trailing),
      (∃ e, glsl_version regcomp_ret t after1 = .error e) ↔ regcomp_ret ≠ 0) ∧
    (∀ d, glsl_version 0 s after = .ok d →
      init_shadertoy_sources d shader =
        .ok (formatHead shadertoy_vs_tmpl_100 ++ formatTail shadertoy_vs_tmpl_100,
             formatHead shadertoy_fs_tmpl_100 ++ (formatHead (formatTail shadertoy_fs_tmpl_100) ++
               (shader ++ formatTail (formatTail shadertoy_fs_tmpl_100))))) ∧
    shadertoy_vs_tmpl_100 =
      formatHead shadertoy_vs_tmpl_100 ++ ('%' :: 's' :: formatTail shadertoy_vs_tmpl_100) ∧
    shadertoy_fs_tmpl_100 =
      formatHead shadertoy_fs_tmpl_100 ++ ('%' :: 's' ::
        (formatHead (formatTail shadertoy_fs_tmpl_100) ++ ('%' :: 's' ::
          formatTail (formatTail shadertoy_fs_tmpl_100)))) ∧
    ¬ ("#version".toList <:+:
        formatHead shadertoy_vs_tmpl_100 ++ formatTail shadertoy_vs_tmpl_100) ∧
    ¬ ("#version".toList <:+:
        formatHead shadertoy_fs_tmpl_100 ++ formatHead (formatTail shadertoy_fs_tmpl_100)) ∧
    ¬ ("#version".toList <:+: formatTail (formatTail shadertoy_fs_tmpl_100)) ∧
    "attribute vec3 position;".toList <:+: formatTail shadertoy_vs_tmpl_100 ∧
    "mainImage(gl_FragColor, gl_FragCoord.xy);".toList <:+:
      formatTail (formatTail shadertoy_fs_tmpl_100) := by
  have hv := glsl_version_empty_of_no_match s after h
  refine ⟨hv, glsl_version_error_iff, ?_, by decide!, by decide!, by decide!, by decide!,
    by decide!, by decide!, by decide!⟩
  intro d hd
  rw [hv] at hd
  have hd' : d = [] := (Except.ok.inj hd).symm
  subst hd'
  have e1 := asprintf_one shadertoy_vs_tmpl_100 [] vs_tmpl_100_shape.1 vs_tmpl_100_shape.2
  have e2 := fs_tmpl_100_synth [] shader
  simp only [List.nil_append] at e1 e2
  simp only [init_shadertoy_sources, List.length_nil, gt_iff_lt, Nat.lt_irrefl, if_false, e1, e2]

/-- Witness for `glsl_version_unmatched_legacy`: the pattern matches nowhere in
the desktop-style string `4.60 NVIDIA`. -/
theorem glsl_version_unmatched_legacy_witness :
    NoVersionMatch "4.60 NVIDIA".toList ∧ glsl_version 0 "4.60 NVIDIA".toList terminated = .ok [] :=
  have hn : NoVersionMatch "4.60 NVIDIA".toList :=
    (regexec_from_eq_none_iff "4.60 NVIDIA".toList).mp (by decide)
  ⟨hn, (glsl_version_unmatched_legacy "4.60 NVIDIA".toList (Or.inr hn) [] terminated).1⟩

theorem digitsValue_eq (ds : List Char) :
    ∀ acc : Nat, digitsValue acc ds =
      acc * 10 ^ ds.length +
        Nat.ofDigits 10 ((ds.map (fun c => c.toNat - '0'.toNat)).reverse) := by
  induction ds with
  | nil =>
    intro acc
    show acc = acc * 10 ^ 0 + Nat.ofDigits 10 []
    simp
  | cons c cs ih =>
    intro acc
    have e : digitsValue acc (c :: cs) =
        digitsValue (acc * 10 + (c.toNat - '0'.toNat)) cs := rfl
    rw [e, ih]
    simp only [List.map_cons, List.reverse_cons, Nat.ofDigits_append, Nat.ofDigits_singleton,
      List.length_reverse, List.length_map, List.length_cons]
    generalize (c.toNat - '0'.toNat) = x
    generalize Nat.ofDigits 10 (List.map (fun c => c.toNat - '0'.toNat) cs).reverse = y
    ring

theorem strtol_of_digit (c : Char) (rest : List Char) (hc : isDigitClass c = true) :
    strtol (c :: rest) =
      (if (leadingNumber (c :: rest) : Int) > LONG_MAX then LONG_MAX
        else (leadingNumber (c :: rest) : Int),
       ((c :: rest).takeWhile isDigitClass).length) := by
  have hsp : isSpaceClass c = false := isSpaceClass_of_digit c hc
  have hm : c ≠ '-' := by
    intro e; subst e; revert hc; decide
  have hp : c ≠ '+' := by
    intro e; subst e; revert hc; decide
  have htw : (c :: rest).takeWhile isSpaceClass = [] := (takeWhile_not_head c rest hsp).1
  have hdw : (c :: rest).dropWhile isSpaceClass = c :: rest := (takeWhile_not_head c rest hsp).2
  have hds : (c :: rest).takeWhile isDigitClass = c :: rest.takeWhile isDigitClass := by
    rw [List.takeWhile_cons, if_pos hc]
  have hval : digitsValue 0 ((c :: rest).takeWhile isDigitClass) = leadingNumber (c :: rest) := by
    rw [digitsValue_eq]; simp [leadingNumber]
  have hnn : ¬ ((leadingNumber (c :: rest) : Int) < LONG_MIN) := by
    have : (0 : Int) ≤ (leadingNumber (c :: rest) : Int) := Int.natCast_nonneg _
    unfold LONG_MIN
    omega
  unfold strtol
  simp only [htw, hdw, List.head?_cons, Option.some.injEq, hm, hp, if_false, Option.isSome_none,
    Bool.false_eq_true, List.length_nil, Nat.zero_add, Nat.add_zero, hval]
  rw [hds] at hval ⊢
  simp only [List.length_cons, Nat.succ_ne_zero, if_false, hval, reduceCtorEq]
  by_cases hbig : (leadingNumber (c :: rest) : Int) > LONG_MAX
  · simp [hbig]
  · simp [hbig, hnn]

theorem init_shadertoy_sources_of_digit (c : Char) (rest shader : List Char)
    (hc : isDigitClass c = true) :
    init_shadertoy_sources (c :: rest) shader =
      .ok (asprintf (if 300 ≤ leadingNumber (c :: rest) then shadertoy_vs_tmpl_300
              else shadertoy_vs_tmpl_100) [versionLine (c :: rest)],
           asprintf (if 300 ≤ leadingNumber (c :: rest) then shadertoy_fs_tmpl_300
              else shadertoy_fs_tmpl_100) [versionLine (c :: rest), shader]) := by
  have hst := strtol_of_digit c rest hc
  have hcons : ((c :: rest).takeWhile isDigitClass).length ≠ 0 := by
    rw [List.takeWhile_cons, if_pos hc]; simp
  have hge : ((if (leadingNumber (c :: rest) : Int) > LONG_MAX then LONG_MAX
      else (leadingNumber (c :: rest) : Int)) ≥ 300) ↔ 300 ≤ leadingNumber (c :: rest) := by
    by_cases hbig : (leadingNumber (c :: rest) : Int) > LONG_MAX
    · rw [if_pos hbig]
      unfold LONG_MAX at hbig ⊢
      constructor
      · intro _; omega
      · intro _; norm_num
    · rw [if_neg hbig]
      omega
  have hvl : versionLine (c :: rest) = "#version ".toList ++ (c :: rest) := by
    simp [versionLine]
  unfold init_shadertoy_sources
  rw [hst, version_directive_eq, ← hvl]
  simp only [List.length_cons, gt_iff_lt, Nat.zero_lt_succ, if_true, hcons, if_false]
  by_cases h3 : 300 ≤ leadingNumber (c :: rest)
  · simp only [h3, if_true, hge.mpr h3, decide_True]
  · simp only [h3, if_false, mt hge.mp h3, decide_False, Bool.false_eq_true]

theorem init_shadertoy_sources_nil (shader : List Char) :
    init_shadertoy_sources [] shader =
      .ok (asprintf shadertoy_vs_tmpl_100 [versionLine []],
           asprintf shadertoy_fs_tmpl_100 [versionLine [], shader]) := by
  simp [init_shadertoy_sources, versionLine]

theorem vs_tmpl_families_differ (d1 d2 : List Char) :
    asprintf shadertoy_vs_tmpl_300 [d1] ≠ asprintf shadertoy_vs_tmpl_100 [d2] := by
  rw [asprintf_one _ d1 vs_tmpl_300_shape.1 vs_tmpl_300_shape.2,
    asprintf_one _ d2 vs_tmpl_100_shape.1 vs_tmpl_100_shape.2]
  intro h
  have hl : (formatHead shadertoy_vs_tmpl_300).length =
      (formatHead shadertoy_vs_tmpl_100).length := by decide!
  have := List.append_inj_left h hl
  revert this
  decide!

/-- Selection of the template family for a directive value that is empty or
begins with a digit. -/
theorem init_shadertoy_family (version shader : List Char)
    (h : version = [] ∨ ∃ c rest, version = c :: rest ∧ isDigitClass c = true) :
    (init_shadertoy_sources version shader =
        .ok (asprintf shadertoy_vs_tmpl_300 [versionLine version],
             asprintf shadertoy_fs_tmpl_300 [versionLine version, shader]) ↔
      300 ≤ leadingNumber version) ∧
    (init_shadertoy_sources version shader =
        .ok (asprintf shadertoy_vs_tmpl_100 [versionLine version],
             asprintf shadertoy_fs_tmpl_100 [versionLine version, shader]) ↔
      leadingNumber version < 300) := by
  have hsrc : init_shadertoy_sources version shader =
      .ok (asprintf (if 300 ≤ leadingNumber version then shadertoy_vs_tmpl_300
              else shadertoy_vs_tmpl_100) [versionLine version],
           asprintf (if 300 ≤ leadingNumber version then shadertoy_fs_tmpl_300
              else shadertoy_fs_tmpl_100) [versionLine version, shader]) := by
    rcases h with h | ⟨c, rest, h, hc⟩
    · subst h
      have h0 : ¬ 300 ≤ leadingNumber [] := by decide
      rw [if_neg h0, if_neg h0]
      exact init_shadertoy_sources_nil shader
    · subst h
      exact init_shadertoy_sources_of_digit c rest shader hc
  rw [hsrc]
  by_cases h3 : 300 ≤ leadingNumber version
  · simp only [h3, if_true, true_iff, iff_true]
    refine ⟨trivial, ?_⟩
    constructor
    · intro he
      have := (Prod.mk.inj (Except.ok.inj he)).1
      exact absurd this (vs_tmpl_families_differ _ _)
    · intro hlt; omega
  · simp only [h3, if_false, iff_false]
    refine ⟨?_, ?_⟩
    · intro he
      have := (Prod.mk.inj (Except.ok.inj he)).1
      exact vs_tmpl_families_differ _ _ this.symm
    · simp only [true_iff]; omega

/-- Every directive value that `glsl_version` returns is empty or begins with a
decimal digit, whatever follows the blocks of `extract_group`. -/
theorem glsl_version_ok_shape (s : List Char) (after : Trailing) (d : List Char)
    (h : glsl_version 0 s after = .ok d) :
    d = [] ∨ ∃ c rest, d = c :: rest ∧ isDigitClass c = true := by
  cases hm : regexec_from s 0 with
  | none =>
    have hn : NoVersionMatch s := (regexec_from_eq_none_iff s).mp hm
    rw [glsl_version_empty_of_no_match s after (Or.inr hn)] at h
    exact Or.inl (Except.ok.inj h).symm
  | some g =>
    have hv := versionMatch_of_regexec s g hm
    have hd := glsl_version_of_match_trailing s _ _ _ after hv
    rw [hd] at h
    obtain ⟨_, _, _, _, ⟨_, _, _, _, _, hmajne, hmaj, _, _⟩, _, _⟩ := hv
    cases hmj : extract_group s g.g2 [] with
    | nil => exact absurd hmj hmajne
    | cons c m =>
      right
      rw [hmj] at h hmaj
      exact ⟨c, _, (Except.ok.inj h).symm, hmaj c (List.mem_cons_self _ _)⟩

/-- C5: for every directive value (empty, or beginning with a digit: every
value that `glsl_version` returns is of this kind), `init_shadertoy` builds the
sources from the
Modern templates (`in` / `out` qualifiers, declared `fragColor` output) if and
only if the leading number of the directive is at least 300, and from the
Legacy templates (`attribute`, `gl_FragColor`) otherwise, the empty directive
included; `100` and `150` select Legacy, `300` and `310 es` select Modern. -/
theorem init_shadertoy_selects_family (version shader : List Char)
    (h : version = [] ∨ ∃ c rest, version = c :: rest ∧ isDigitClass c = true) :
    (init_shadertoy_sources version shader =
        .ok (asprintf shadertoy_vs_tmpl_300 [versionLine version],
             asprintf shadertoy_fs_tmpl_300 [versionLine version, shader]) ↔
      300 ≤ leadingNumber version) ∧
    (init_shadertoy_sources version shader =
        .ok (asprintf shadertoy_vs_tmpl_100 [versionLine version],
             asprintf shadertoy_fs_tmpl_100 [versionLine version, shader]) ↔
      leadingNumber version < 300) ∧
    "in vec3 position;".toList <:+: shadertoy_vs_tmpl_300 ∧
    "out vec4 fragColor;".toList <:+: shadertoy_fs_tmpl_300 ∧
    "mainImage(fragColor, gl_FragCoord.xy);".toList <:+: shadertoy_fs_tmpl_300 ∧
    "attribute vec3 position;".toList <:+: shadertoy_vs_tmpl_100 ∧
    "mainImage(gl_FragColor, gl_FragCoord.xy);".toList <:+: shadertoy_fs_tmpl_100 ∧
    init_shadertoy_sources "100".toList shader =
      .ok (asprintf shadertoy_vs_tmpl_100 ["#version 100".toList],
           asprintf shadertoy_fs_tmpl_100 ["#version 100".toList, shader]) ∧
    init_shadertoy_sources "150".toList shader =
      .ok (asprintf shadertoy_vs_tmpl_100 ["#version 150".toList],
           asprintf shadertoy_fs_tmpl_100 ["#version 150".toList, shader]) ∧
    init_shadertoy_sources "300".toList shader =
      .ok (asprintf shadertoy_vs_tmpl_300 ["#version 300".toList],
           asprintf shadertoy_fs_tmpl_300 ["#version 300".toList, shader]) ∧
    init_shadertoy_sources "310 es".toList shader =
      .ok (asprintf shadertoy_vs_tmpl_300 ["#version 310 es".toList],
           asprintf shadertoy_fs_tmpl_300 ["#version 310 es".toList, shader]) ∧
    init_shadertoy_sources [] shader =
      .ok (asprintf shadertoy_vs_tmpl_100 [[]],
           asprintf shadertoy_fs_tmpl_100 [[], shader]) ∧
    (∀ (driver : List Char) (after : Trailing) (d : List Char),
      glsl_version 0 driver after = .ok d →
        (d = [] ∨ ∃ c rest, d = c :: rest ∧ isDigitClass c = true)) := by
  have hfam := init_shadertoy_family version shader h
  have h100 := (init_shadertoy_family "100".toList shader
    (Or.inr ⟨'1', "00".toList, rfl, by decide⟩)).2.mpr (by decide)
  have h150 := (init_shadertoy_family "150".toList shader
    (Or.inr ⟨'1', "50".toList, rfl, by decide⟩)).2.mpr (by decide)
  have h300 := (init_shadertoy_family "300".toList shader
    (Or.inr ⟨'3', "00".toList, rfl, by decide⟩)).1.mpr (by decide)
  have h310 := (init_shadertoy_family "310 es".toList shader
    (Or.inr ⟨'3', "10 es".toList, rfl, by decide⟩)).1.mpr (by decide)
  have h0 := (init_shadertoy_family [] shader (Or.inl rfl)).2.mpr (by decide)
  exact ⟨hfam.1, hfam.2, by decide!, by decide!, by decide!, by decide!, by decide!,
    h100, h150, h300, h310, h0,
    glsl_version_ok_shape⟩

/-- Witness for `init_shadertoy_selects_family`: the directive value `310 es`
begins with a digit and selects the Modern templates. -/
theorem init_shadertoy_selects_family_witness :
    ("310 es".toList = [] ∨
      ∃ c rest, "310 es".toList = c :: rest ∧ isDigitClass c = true) ∧
    (init_shadertoy_sources "310 es".toList [] =
        .ok (asprintf shadertoy_vs_tmpl_300 [versionLine "310 es".toList],
             asprintf shadertoy_fs_tmpl_300 [versionLine "310 es".toList, []]) ↔
      300 ≤ leadingNumber "310 es".toList) :=
  have hd : "310 es".toList = [] ∨
      ∃ c rest, "310 es".toList = c :: rest ∧ isDigitClass c = true :=
    Or.inr ⟨'3', "10 es".toList, rfl, by decide⟩
  ⟨hd, (init_shadertoy_selects_family "310 es".toList [] hd).1⟩

/-- C6: for every directive value there are a prefix and a suffix, fixed by the
directive alone, such that for every shader body the fragment source built by
`init_shadertoy` is the prefix, then the body unchanged, then the suffix (or
`init_shadertoy` returns -1, which happens exactly for a non-empty directive
without leading number); removing the prefix and the suffix from the
fragment source gives back the body. -/
theorem fragment_source_embeds_body (version : List Char) :
    ∃ pre suf : List Char, ∀ shader : List Char,
      (version ≠ [] ∧ (strtol version).2 = 0 ∧
        init_shadertoy_sources version shader = .error (-1)) ∨
      (∃ vs, init_shadertoy_sources version shader = .ok (vs, pre ++ shader ++ suf)) ∧
        ((pre ++ shader ++ suf).drop pre.length).take
          ((pre ++ shader ++ suf).length - pre.length - suf.length) = shader := by
  have hrt : ∀ pre shader suf : List Char,
      ((pre ++ shader ++ suf).drop pre.length).take
        ((pre ++ shader ++ suf).length - pre.length - suf.length) = shader := by
    intro pre shader suf
    have hl : (pre ++ shader ++ suf).length - pre.length - suf.length = shader.length := by
      simp only [List.length_append]; omega
    rw [hl, List.append_assoc, List.drop_left, List.take_left]
  by_cases hv : version = []
  · subst hv
    refine ⟨formatHead shadertoy_fs_tmpl_100 ++ formatHead (formatTail shadertoy_fs_tmpl_100),
      formatTail (formatTail shadertoy_fs_tmpl_100),
      fun shader => Or.inr ⟨⟨asprintf shadertoy_vs_tmpl_100 [versionLine []], ?_⟩, hrt _ _ _⟩⟩
    rw [init_shadertoy_sources_nil, fs_tmpl_100_synth]
    simp [versionLine, List.append_assoc]
  · have hlen : version.length > 0 := List.length_pos.mpr hv
    by_cases hz : (strtol version).2 = 0
    · refine ⟨[], [], fun shader => Or.inl ⟨hv, hz, ?_⟩⟩
      simp [init_shadertoy_sources, hlen, hz]
    · by_cases h3 : (strtol version).1 ≥ 300
      · refine ⟨formatHead shadertoy_fs_tmpl_300 ++ ("#version ".toList ++ version) ++
            formatHead (formatTail shadertoy_fs_tmpl_300),
          formatTail (formatTail shadertoy_fs_tmpl_300),
          fun shader => Or.inr ⟨⟨asprintf shadertoy_vs_tmpl_300
            ["#version ".toList ++ version], ?_⟩, hrt _ _ _⟩⟩
        simp only [init_shadertoy_sources, hlen, hz, h3, if_true, if_false, decide_True,
          version_directive_eq, fs_tmpl_300_synth, List.append_assoc]
      · refine ⟨formatHead shadertoy_fs_tmpl_100 ++ ("#version ".toList ++ version) ++
            formatHead (formatTail shadertoy_fs_tmpl_100),
          formatTail (formatTail shadertoy_fs_tmpl_100),
          fun shader => Or.inr ⟨⟨asprintf shadertoy_vs_tmpl_100
            ["#version ".toList ++ version], ?_⟩, hrt _ _ _⟩⟩
        simp only [init_shadertoy_sources, hlen, hz, h3, if_true, if_false, decide_False,
          Bool.false_eq_true, version_directive_eq, fs_tmpl_100_synth, List.append_assoc]

/-! ## Theorems: glyph rasteriser -/

theorem ascii_mem (c : Char) (h : c.toNat < 128) : c ∈ (List.range 128).map Char.ofNat := by
  rw [List.mem_map]
  exact ⟨c.toNat, List.mem_range.mpr h, Char.ofNat_toNat c⟩

theorem char_to_font_index_ascii :
    ∀ c ∈ (List.range 128).map Char.ofNat,
      (('A' ≤ c ∧ c ≤ 'Z' ∧ c ≠ 'F' ∧ c ≠ 'P' ∧ c ≠ 'S' ∧ c ≠ 'W') →
        char_to_font_index c = 17 + ((c.toNat : Int) - ('A'.toNat : Int)) ∧
        char_to_font_index c = char_to_font_index c.toLower) ∧
      (('a' ≤ c ∧ c ≤ 'z') →
        char_to_font_index c = 17 + ((c.toNat : Int) - ('a'.toNat : Int))) ∧
      (('0' ≤ c ∧ c ≤ '9') → char_to_font_index c = (c.toNat : Int) - ('0'.toNat : Int)) := by
  decide!

theorem char_to_font_index_other (c : Char)
    (h : ¬ ('0' ≤ c ∧ c ≤ '9') ∧ ¬ ('a' ≤ c ∧ c ≤ 'z') ∧ ¬ ('A' ≤ c ∧ c ≤ 'Z') ∧
      c ≠ '.' ∧ c ≠ '_' ∧ c ≠ '-') : char_to_font_index c = -1 := by
  obtain ⟨hd, hl, hu, h1, h2, h3⟩ := h
  have hF : c ≠ 'F' := fun e => hu (by subst e; decide)
  have hP : c ≠ 'P' := fun e => hu (by subst e; decide)
  have hS : c ≠ 'S' := fun e => hu (by subst e; decide)
  have hW : c ≠ 'W' := fun e => hu (by subst e; decide)
  unfold char_to_font_index
  rw [if_neg hd, if_neg h1, if_neg hF, if_neg hP, if_neg hS, if_neg hW, if_neg h2, if_neg h3,
    if_neg hl, if_neg hu]

theorem char_to_font_index_fixed :
    char_to_font_index 'F' = 11 ∧ char_to_font_index 'P' = 12 ∧
    char_to_font_index 'S' = 13 ∧ char_to_font_index 'W' = 14 ∧
    char_to_font_index 'f' = 22 ∧ char_to_font_index 'p' = 32 ∧
    char_to_font_index 's' = 35 ∧ char_to_font_index 'w' = 39 ∧
    char_to_font_index 'F' ≠ char_to_font_index 'f' ∧
    char_to_font_index 'P' ≠ char_to_font_index 'p' ∧
    char_to_font_index 'S' ≠ char_to_font_index 's' ∧
    char_to_font_index 'W' ≠ char_to_font_index 'w' ∧
    "0123456789".toList.map char_to_font_index = [0, 1, 2, 3, 4, 5, 6, 7, 8, 9] ∧
    char_to_font_index '.' = 10 ∧ char_to_font_index '_' = 15 ∧
    char_to_font_index '-' = 16 := by
  decide

/-- C9: `char_to_font_index` folds case.  An uppercase ASCII letter other than
`F`, `P`, `S`, `W` gets 17 plus its offset in the alphabet, which is the index
of the corresponding lowercase letter; `F`, `P`, `S`, `W` get 11, 12, 13, 14,
which differ from the indices 22, 32, 35, 39 of `f`, `p`, `s`, `w`; a digit
gets its value, `.` gets 10, `_` 15, `-` 16, and every other character -1. -/
theorem char_to_font_index_spec (c : Char) :
    (('A' ≤ c ∧ c ≤ 'Z' ∧ c ≠ 'F' ∧ c ≠ 'P' ∧ c ≠ 'S' ∧ c ≠ 'W') →
      char_to_font_index c = 17 + ((c.toNat : Int) - ('A'.toNat : Int)) ∧
      char_to_font_index c = char_to_font_index c.toLower) ∧
    (('a' ≤ c ∧ c ≤ 'z') →
      char_to_font_index c = 17 + ((c.toNat : Int) - ('a'.toNat : Int))) ∧
    (('0' ≤ c ∧ c ≤ '9') → char_to_font_index c = (c.toNat : Int) - ('0'.toNat : Int)) ∧
    (¬ ('0' ≤ c ∧ c ≤ '9') ∧ ¬ ('a' ≤ c ∧ c ≤ 'z') ∧ ¬ ('A' ≤ c ∧ c ≤ 'Z') ∧
      c ≠ '.' ∧ c ≠ '_' ∧ c ≠ '-' → char_to_font_index c = -1) ∧
    char_to_font_index 'F' = 11 ∧ char_to_font_index 'P' = 12 ∧
    char_to_font_index 'S' = 13 ∧ char_to_font_index 'W' = 14 ∧
    char_to_font_index 'f' = 22 ∧ char_to_font_index 'p' = 32 ∧
    char_to_font_index 's' = 35 ∧ char_to_font_index 'w' = 39 ∧
    char_to_font_index 'F' ≠ char_to_font_index 'f' ∧
    char_to_font_index 'P' ≠ char_to_font_index 'p' ∧
    char_to_font_index 'S' ≠ char_to_font_index 's' ∧
    char_to_font_index 'W' ≠ char_to_font_index 'w' ∧
    "0123456789".toList.map char_to_font_index = [0, 1, 2, 3, 4, 5, 6, 7, 8, 9] ∧
    char_to_font_index '.' = 10 ∧ char_to_font_index '_' = 15 ∧
    char_to_font_index '-' = 16 := by
  refine ⟨?_, ?_, ?_, char_to_font_index_other c, char_to_font_index_fixed⟩
  · intro h
    have hz : c.toNat ≤ 'Z'.toNat := h.2.1
    have hlt : c.toNat < 128 := Nat.lt_of_le_of_lt hz (by decide)
    exact (char_to_font_index_ascii c (ascii_mem c hlt)).1 h
  · intro h
    have hz : c.toNat ≤ 'z'.toNat := h.2
    have hlt : c.toNat < 128 := Nat.lt_of_le_of_lt hz (by decide)
    exact (char_to_font_index_ascii c (ascii_mem c hlt)).2.1 h
  · intro h
    have hz : c.toNat ≤ '9'.toNat := h.2
    have hlt : c.toNat < 128 := Nat.lt_of_le_of_lt hz (by decide)
    exact (char_to_font_index_ascii c (ascii_mem c hlt)).2.2 h

/-- Witness for `char_to_font_index_spec`: the uppercase letter `A` gets index
17, the index of `a`. -/
theorem char_to_font_index_spec_witness :
    ('A' ≤ 'A' ∧ 'A' ≤ 'Z' ∧ 'A' ≠ 'F' ∧ 'A' ≠ 'P' ∧ 'A' ≠ 'S' ∧ 'A' ≠ 'W') ∧
    char_to_font_index 'A' = 17 + ((('A' : Char).toNat : Int) - ('A'.toNat : Int)) ∧
    char_to_font_index 'A' = char_to_font_index ('A' : Char).toLower :=
  have hA : 'A' ≤ 'A' ∧ 'A' ≤ 'Z' ∧ 'A' ≠ 'F' ∧ 'A' ≠ 'P' ∧ 'A' ≠ 'S' ∧ 'A' ≠ 'W' := by decide
  ⟨hA, (char_to_font_index_spec 'A').1 hA⟩

theorem appended_refl (b : VertexBuffer) : Appended b b 0 :=
  ⟨rfl, [], by simp, by simp⟩

theorem appended_trans {b r t : VertexBuffer} {n m : Nat}
    (h1 : Appended b r n) (h2 : Appended r t m) : Appended b t (n + m) := by
  obtain ⟨hc1, new1, hw1, hi1⟩ := h1
  obtain ⟨hc2, new2, hw2, hi2⟩ := h2
  refine ⟨by rw [hc2, hc1, Nat.add_assoc], new1 ++ new2, by rw [hw2, hw1, List.append_assoc], ?_⟩
  rw [List.map_append, hi1, hi2, hc1, List.range'_append_1, Nat.add_comm m n]

theorem appended_length {b r : VertexBuffer} {n : Nat} (h : Appended b r n) :
    r.writes.length = b.writes.length + n := by
  obtain ⟨_, new, hw, hi⟩ := h
  have := congrArg List.length hi
  rw [List.length_map, List.length_range'] at this
  rw [hw, List.length_append, this]

theorem emit_quad_appended (x1 y1 x2 y2 : ℚ) (b : VertexBuffer) :
    Appended b (emit_quad x1 y1 x2 y2 b) 12 := by
  refine ⟨rfl, _, rfl, ?_⟩
  simp [List.range', Nat.add_assoc]

theorem foldl_appended {α : Type} (f : VertexBuffer → α → VertexBuffer) (w : α → Nat)
    (hf : ∀ b x, Appended b (f b x) (w x)) :
    ∀ (l : List α) (b : VertexBuffer), Appended b (l.foldl f b) (l.map w).sum := by
  intro l
  induction l with
  | nil => intro b; exact appended_refl b
  | cons x xs ih =>
    intro b
    rw [List.foldl_cons, List.map_cons, List.sum_cons]
    exact appended_trans (hf b x) (ih (f b x))

theorem draw_char_pixel_appended (x y : Int) (glyph : List Nat) (pixel_size : Int)
    (screen_width screen_height row col : Nat) (b : VertexBuffer) :
    Appended b (draw_char_pixel x y glyph pixel_size screen_width screen_height row col b)
      (if glyph.getD row 0 &&& (1 <<< (4 - col)) ≠ 0 then 12 else 0) := by
  unfold draw_char_pixel
  by_cases h : glyph.getD row 0 &&& (1 <<< (4 - col)) ≠ 0
  · rw [if_pos h, if_pos h]
    exact emit_quad_appended _ _ _ _ b
  · rw [if_neg h, if_neg h]
    exact appended_refl b

theorem font_5x7_pixel_count :
    ∀ i ∈ List.range 43,
      ((List.range 7).map (fun row =>
        ((List.range 5).map (fun col =>
          if (font_5x7.getD i []).getD row 0 &&& (1 <<< (4 - col)) ≠ 0 then 12 else 0)).sum)).sum
        = 12 * glyphBits (font_5x7.getD i []) := by
  decide!

theorem draw_char_appended (x y : Int) (char_index : Int) (scale : ℚ)
    (screen_width screen_height : Nat) (b : VertexBuffer) :
    Appended b (draw_char x y char_index scale screen_width screen_height b)
      (12 * indexBits char_index) := by
  unfold draw_char indexBits
  by_cases h : char_index < 0 ∨ char_index ≥ 43
  · have h2 : ¬ (0 ≤ char_index ∧ char_index < 43) := by omega
    rw [if_pos h, if_neg h2]
    exact appended_refl b
  · have h2 : 0 ≤ char_index ∧ char_index < 43 := by omega
    rw [if_neg h, if_pos h2]
    have hi : char_index.toNat ∈ List.range 43 := by
      rw [List.mem_range]; omega
    rw [← font_5x7_pixel_count _ hi]
    exact foldl_appended _ _
      (fun b row => foldl_appended _ _
        (fun b col => draw_char_pixel_appended x y _ _ screen_width screen_height row col b)
        (List.range 5) b)
      (List.range 7) b

theorem truncToInt_twelve : truncToInt (6 * 2) = 12 := by
  have h : (6 * 2 : ℚ) = ((12 : Int) : ℚ) := by norm_num
  rw [truncToInt, h, if_pos (by norm_num), Int.floor_intCast]

theorem truncToInt_sixteen : truncToInt (8 * 2) = 16 := by
  have h : (8 * 2 : ℚ) = ((16 : Int) : ℚ) := by norm_num
  rw [truncToInt, h, if_pos (by norm_num), Int.floor_intCast]

theorem draw_filename_loop_eq (padding char_width : Int) (scale : ℚ) (W H : Nat)
    (s : List Char) :
    ∀ (k : Nat) (b : VertexBuffer),
      draw_filename_loop padding char_width scale W H s (char_width * k) b =
        (s.enumFrom k).foldl
          (fun b ic =>
            if char_to_font_index ic.2 ≥ 0 then
              draw_char (padding + char_width * ic.1) padding (char_to_font_index ic.2)
                scale W H b
            else b) b := by
  induction s with
  | nil => intro k b; rfl
  | cons c cs ih =>
    intro k b
    have hk : char_width * (k : Int) + char_width = char_width * ((k + 1 : Nat) : Int) := by
      push_cast; ring
    rw [draw_filename_loop, hk, ih (k + 1)]
    rfl

theorem draw_fps_text_loop_eq (start_x start_y char_width : Int) (scale : ℚ) (W H : Nat)
    (s : List Char) :
    ∀ (k : Nat) (b : VertexBuffer),
      draw_fps_text_loop start_x start_y char_width scale W H s (char_width * k) b =
        (s.enumFrom k).foldl
          (fun b ic =>
            if char_to_font_index ic.2 < 0 then b
            else
              draw_char (start_x + char_width * ic.1) start_y (char_to_font_index ic.2)
                scale W H b) b := by
  induction s with
  | nil => intro k b; rfl
  | cons c cs ih =>
    intro k b
    have hk : char_width * (k : Int) + char_width = char_width * ((k + 1 : Nat) : Int) := by
      push_cast; ring
    rw [draw_fps_text_loop, hk]
    by_cases hc : char_to_font_index c < 0
    · rw [if_pos hc, ih (k + 1)]
      simp only [List.enumFrom_cons, List.foldl_cons, hc, if_true]
    · rw [if_neg hc, ih (k + 1)]
      simp only [List.enumFrom_cons, List.foldl_cons, hc, if_false]


theorem textBits_cons (c : Char) (cs : List Char) :
    textBits (c :: cs) = indexBits (char_to_font_index c) + textBits cs := by
  simp [textBits]

theorem indexBits_neg (ci : Int) (h : ci < 0) : indexBits ci = 0 := by
  unfold indexBits
  rw [if_neg (by omega)]

theorem draw_filename_loop_appended (padding char_width : Int) (scale : ℚ) (W H : Nat)
    (s : List Char) :
    ∀ (x_offset : Int) (b : VertexBuffer),
      Appended b (draw_filename_loop padding char_width scale W H s x_offset b)
        (12 * textBits s) := by
  induction s with
  | nil => intro xo b; exact appended_refl b
  | cons c cs ih =>
    intro xo b
    rw [draw_filename_loop, textBits_cons, Nat.mul_add]
    refine appended_trans ?_ (ih _ _)
    by_cases hc : char_to_font_index c ≥ 0
    · simp only [hc, if_true]
      exact draw_char_appended _ _ _ _ _ _ b
    · simp only [hc, if_false]
      rw [indexBits_neg _ (by omega)]
      exact appended_refl b

theorem draw_fps_text_loop_appended (start_x start_y char_width : Int) (scale : ℚ) (W H : Nat)
    (s : List Char) :
    ∀ (x_offset : Int) (b : VertexBuffer),
      Appended b (draw_fps_text_loop start_x start_y char_width scale W H s x_offset b)
        (12 * textBits s) := by
  induction s with
  | nil => intro xo b; exact appended_refl b
  | cons c cs ih =>
    intro xo b
    rw [draw_fps_text_loop, textBits_cons, Nat.mul_add]
    by_cases hc : char_to_font_index c < 0
    · rw [if_pos hc, indexBits_neg _ hc]
      exact appended_trans (appended_refl b) (ih _ _)
    · rw [if_neg hc]
      exact appended_trans (draw_char_appended _ _ _ _ _ _ b) (ih _ _)

/-- The overlay geometry consists of 12 consecutive stores for every set bit of
every glyph of the label and of the status text, starting at index 0. -/
theorem draw_fps_counter_geometry_appended (shader_filename : Option (List Char))
    (fps_text : List Char) (W H : Nat) :
    Appended ⟨[], 0⟩ (draw_fps_counter_geometry shader_filename fps_text W H)
      (12 * ((shader_filename.map textBits).getD 0 + textBits fps_text)) := by
  unfold draw_fps_counter_geometry
  rw [Nat.mul_add]
  refine appended_trans ?_ (draw_fps_text_loop_appended _ _ _ _ _ _ _ _ _)
  cases shader_filename with
  | none => exact appended_refl _
  | some name => exact draw_filename_loop_appended _ _ _ _ _ _ _ _

theorem drawCalls_append (l1 l2 : List GLCall) :
    drawCalls (l1 ++ l2) = drawCalls l1 ++ drawCalls l2 := by
  induction l1 with
  | nil => rfl
  | cons c cs ih =>
    cases c <;> simp [drawCalls, ih]

theorem exec_calls (gl : GLState) (c : GLCall) : (gl.exec c).calls = gl.calls ++ [c] := by
  cases c <;> simp only [GLState.exec] <;> (try split) <;> rfl

theorem draw_fps_counter_drawCalls (g : Globals) (fps : ℚ) (fps_text : List Char)
    (gl : GLState) :
    drawCalls (draw_fps_counter g fps fps_text gl).calls =
      drawCalls gl.calls ++
        (if g.show_hud = true ∧ 0 < fps ∧ g.fps_program ≠ 0 ∧
            (draw_fps_counter_geometry g.shader_filename fps_text g.screen_width
              g.screen_height).vertex_count ≠ 0 then
          [(GL_TRIANGLES, 0,
            (draw_fps_counter_geometry g.shader_filename fps_text g.screen_width
              g.screen_height).vertex_count / 2)]
        else []) := by
  unfold draw_fps_counter
  by_cases hg : (!g.show_hud) = true ∨ fps ≤ 0 ∨ g.fps_program = 0
  · rw [if_pos hg, if_neg, List.append_nil]
    rintro ⟨h1, h2, h3, _⟩
    rcases hg with hg | hg | hg
    · simp [h1] at hg
    · exact absurd h2 (not_lt.mpr hg)
    · exact h3 hg
  · rw [if_neg hg]
    have hg' : g.show_hud = true ∧ 0 < fps ∧ g.fps_program ≠ 0 := by
      refine ⟨?_, ?_, ?_⟩
      · by_contra h1; exact hg (Or.inl (by simpa using h1))
      · by_contra h2; exact hg (Or.inr (Or.inl (not_lt.mp h2)))
      · intro h3; exact hg (Or.inr (Or.inr h3))
    simp only
    by_cases hv : (draw_fps_counter_geometry g.shader_filename fps_text g.screen_width
        g.screen_height).vertex_count = 0
    · rw [if_pos hv, if_neg, List.append_nil]
      rintro ⟨_, _, _, h4⟩
      exact h4 hv
    · rw [if_neg hv, if_pos ⟨hg'.1, hg'.2.1, hg'.2.2, hv⟩]
      simp only [exec_calls, drawCalls_append, List.append_assoc]
      simp [drawCalls]

/-- C7: for every glyph index 0..42, every origin and every scale, `draw_char`
performs exactly 12 stores (6 vertices of 2 floats, one quad) per set bit of the
glyph, at consecutive indices from `*vertex_count` on, and advances
`*vertex_count` by as much, so it emits 6 vertices per set bit: 114 vertices
for the digit `0`, whose pattern has 19 set bits.  `draw_fps_counter` issues
its one `glDrawArrays` call for `vertex_count / 2` vertices, which is 6 times
the number of set bits of all glyphs drawn, and the array holds exactly
`vertex_count` floats. -/
theorem draw_char_emits_quads (x y : Int) (char_index : Int) (scale : ℚ)
    (screen_width screen_height : Nat) (b : VertexBuffer)
    (h : 0 ≤ char_index ∧ char_index ≤ 42) :
    (draw_char x y char_index scale screen_width screen_height b).vertex_count =
      b.vertex_count + 12 * glyphBits (font_5x7.getD char_index.toNat []) ∧
    (∃ new : List (Nat × ℚ),
      (draw_char x y char_index scale screen_width screen_height b).writes = b.writes ++ new ∧
      new.length = 12 * glyphBits (font_5x7.getD char_index.toNat []) ∧
      new.map Prod.fst =
        List.range' b.vertex_count (12 * glyphBits (font_5x7.getD char_index.toNat []))) ∧
    ((draw_char x y char_index scale screen_width screen_height b).vertex_count -
        b.vertex_count) / 2 = 6 * glyphBits (font_5x7.getD char_index.toNat []) ∧
    char_to_font_index '0' = 0 ∧ glyphBits (font_5x7.getD 0 []) = 19 ∧
    (draw_char x y 0 scale screen_width screen_height ⟨[], 0⟩).vertex_count / 2 = 114 ∧
    (∀ (g : Globals) (fps : ℚ) (fps_text : List Char) (gl : GLState),
      drawCalls (draw_fps_counter g fps fps_text gl).calls =
        drawCalls gl.calls ++
          (if g.show_hud = true ∧ 0 < fps ∧ g.fps_program ≠ 0 ∧
              (draw_fps_counter_geometry g.shader_filename fps_text g.screen_width
                g.screen_height).vertex_count ≠ 0 then
            [(GL_TRIANGLES, 0,
              (draw_fps_counter_geometry g.shader_filename fps_text g.screen_width
                g.screen_height).vertex_count / 2)]
          else [])) ∧
    (∀ (shader_filename : Option (List Char)) (fps_text : List Char) (W H : Nat),
      (draw_fps_counter_geometry shader_filename fps_text W H).writes.length =
        (draw_fps_counter_geometry shader_filename fps_text W H).vertex_count ∧
      (draw_fps_counter_geometry shader_filename fps_text W H).vertex_count / 2 =
        6 * ((shader_filename.map textBits).getD 0 + textBits fps_text)) := by
  have hib : ∀ ci : Int, 0 ≤ ci ∧ ci ≤ 42 →
      indexBits ci = glyphBits (font_5x7.getD ci.toNat []) := by
    intro ci hci
    unfold indexBits
    rw [if_pos (by omega)]
  have ha := draw_char_appended x y char_index scale screen_width screen_height b
  rw [hib char_index h] at ha
  have h0 := draw_char_appended x y 0 scale screen_width screen_height ⟨[], 0⟩
  have hb0 : glyphBits (font_5x7.getD 0 []) = 19 := by decide
  rw [hib 0 (by omega)] at h0
  obtain ⟨hc, new, hw, hi⟩ := ha
  refine ⟨hc, ⟨new, hw, ?_, hi⟩, ?_, by decide, hb0, ?_, draw_fps_counter_drawCalls, ?_⟩
  · have := congrArg List.length hi
    rw [List.length_map, List.length_range'] at this
    exact this
  · rw [hc]; omega
  · rw [h0.1]
    show (0 + 12 * glyphBits (font_5x7.getD (Int.toNat 0) [])) / 2 = 114
    rw [Int.toNat_zero, hb0]
  · intro shader_filename fps_text W H
    have hg := draw_fps_counter_geometry_appended shader_filename fps_text W H
    have hl := appended_length hg
    refine ⟨?_, ?_⟩
    · rw [hl, hg.1]
      rfl
    · rw [hg.1]
      show (0 + 12 * _) / 2 = _
      omega

/-- Witness for `draw_char_emits_quads`: the glyph of index 0 (the digit `0`)
drawn at the origin of the label into an empty array. -/
theorem draw_char_emits_quads_witness :
    ((0 : Int) ≤ 0 ∧ (0 : Int) ≤ 42) ∧
    (draw_char 10 10 0 2 1920 1080 ⟨[], 0⟩).vertex_count =
      (⟨[], 0⟩ : VertexBuffer).vertex_count + 12 * glyphBits (font_5x7.getD (0 : Int).toNat []) :=
  ⟨by decide, (draw_char_emits_quads 10 10 0 2 1920 1080 ⟨[], 0⟩ (by decide)).1⟩

theorem char_to_font_index_neg_ascii :
    ∀ c ∈ (List.range 128).map Char.ofNat,
      (char_to_font_index c < 0 ↔
        ¬ (('0' ≤ c ∧ c ≤ '9') ∨ c = '.' ∨ c = '_' ∨ c = '-' ∨ ('a' ≤ c ∧ c ≤ 'z') ∨
          ('A' ≤ c ∧ c ≤ 'Z'))) := by
  decide!

theorem char_to_font_index_neg_iff (c : Char) :
    char_to_font_index c < 0 ↔
      ¬ (('0' ≤ c ∧ c ≤ '9') ∨ c = '.' ∨ c = '_' ∨ c = '-' ∨ ('a' ≤ c ∧ c ≤ 'z') ∨
        ('A' ≤ c ∧ c ≤ 'Z')) := by
  by_cases hlt : c.toNat < 128
  · exact char_to_font_index_neg_ascii c (ascii_mem c hlt)
  · have hge : 128 ≤ c.toNat := Nat.le_of_not_lt hlt
    have h9 : ¬ ('0' ≤ c ∧ c ≤ '9') := fun h => by
      have : c.toNat ≤ '9'.toNat := h.2
      have h2 : '9'.toNat < 128 := by decide
      omega
    have hz : ¬ ('a' ≤ c ∧ c ≤ 'z') := fun h => by
      have : c.toNat ≤ 'z'.toNat := h.2
      have h2 : 'z'.toNat < 128 := by decide
      omega
    have hZ : ¬ ('A' ≤ c ∧ c ≤ 'Z') := fun h => by
      have : c.toNat ≤ 'Z'.toNat := h.2
      have h2 : 'Z'.toNat < 128 := by decide
      omega
    have hdot : c ≠ '.' := fun e => by subst e; revert hge; decide
    have hus : c ≠ '_' := fun e => by subst e; revert hge; decide
    have hmi : c ≠ '-' := fun e => by subst e; revert hge; decide
    have hv := char_to_font_index_other c ⟨h9, hz, hZ, hdot, hus, hmi⟩
    rw [hv]
    constructor
    · intro _ h
      rcases h with h | h | h | h | h | h
      · exact h9 h
      · exact hdot h
      · exact hus h
      · exact hmi h
      · exact hz h
      · exact hZ h
    · intro _; decide

/-- C8: the overlay geometry is obtained by going through the characters of
the label and then of the status text with their positions `i = 0, 1, ...`: a
character with a glyph is drawn by `draw_char` at pixel origin
`x = 10 + 12 * i` (label, `y = 10`) or `x = start_x + 12 * i` (status text,
`y = start_y`), whatever the characters before it are, and a character without
glyph leaves the array unchanged while the position still advances.  The
characters without glyph are exactly those outside the digits, `.`, `_`, `-`
and the ASCII letters. -/
theorem draw_fps_counter_char_origins (name fps_text : List Char) (W H : Nat) :
    draw_fps_counter_geometry (some name) fps_text W H =
      fps_text.enum.foldl
        (fun b ic =>
          if char_to_font_index ic.2 < 0 then b
          else
            draw_char (status_start_x W ((fps_text.length : Int) * 12) 10 + 12 * ic.1)
              (status_start_y H 16 10) (char_to_font_index ic.2) 2 W H b)
        (name.enum.foldl
          (fun b ic =>
            if char_to_font_index ic.2 ≥ 0 then
              draw_char (10 + 12 * ic.1) 10 (char_to_font_index ic.2) 2 W H b
            else b)
          ⟨[], 0⟩) ∧
    draw_fps_counter_geometry none fps_text W H =
      fps_text.enum.foldl
        (fun b ic =>
          if char_to_font_index ic.2 < 0 then b
          else
            draw_char (status_start_x W ((fps_text.length : Int) * 12) 10 + 12 * ic.1)
              (status_start_y H 16 10) (char_to_font_index ic.2) 2 W H b)
        ⟨[], 0⟩ ∧
    (∀ c : Char, char_to_font_index c < 0 ↔
      ¬ (('0' ≤ c ∧ c ≤ '9') ∨ c = '.' ∨ c = '_' ∨ c = '-' ∨ ('a' ≤ c ∧ c ≤ 'z') ∨
        ('A' ≤ c ∧ c ≤ 'Z'))) := by
  have hl := fun b => draw_filename_loop_eq 10 12 2 W H name 0 b
  have hs := fun sx sy b => draw_fps_text_loop_eq sx sy 12 2 W H fps_text 0 b
  simp only [Nat.cast_zero, mul_zero] at hl hs
  refine ⟨?_, ?_, char_to_font_index_neg_iff⟩
  · simp only [draw_fps_counter_geometry, truncToInt_twelve, truncToInt_sixteen, hl, hs,
      List.enum]
  · simp only [draw_fps_counter_geometry, truncToInt_twelve, truncToInt_sixteen, hs, List.enum]

/-- C10 (the code at the failing input): with a file name of 72 characters `0`
and the status text `60.0 FPS`, the geometry build performs 17628 stores into
the array `vertices` of 16384 floats, so `vertex_count` exceeds the capacity
and there are stores at indices outside the array; no glyph is dropped. -/
theorem draw_fps_counter_geometry_overflow :
    (draw_fps_counter_geometry (some (List.replicate 72 '0')) "60.0 FPS".toList
      1920 1080).vertex_count = 17628 ∧
    VERTICES_CAPACITY <
      (draw_fps_counter_geometry (some (List.replicate 72 '0')) "60.0 FPS".toList
        1920 1080).vertex_count ∧
    (draw_fps_counter_geometry (some (List.replicate 72 '0')) "60.0 FPS".toList
      1920 1080).writes.length = 17628 ∧
    ∃ w ∈ (draw_fps_counter_geometry (some (List.replicate 72 '0')) "60.0 FPS".toList
        1920 1080).writes, VERTICES_CAPACITY ≤ w.1 := by
  have hg := draw_fps_counter_geometry_appended (some (List.replicate 72 '0'))
    "60.0 FPS".toList 1920 1080
  have hn : 12 * (((some (List.replicate 72 '0')).map textBits).getD 0 +
      textBits "60.0 FPS".toList) = 17628 := by decide!
  rw [hn] at hg
  have hl := appended_length hg
  obtain ⟨hc, new, hw, hi⟩ := hg
  have hc' : (draw_fps_counter_geometry (some (List.replicate 72 '0')) "60.0 FPS".toList
      1920 1080).vertex_count = 17628 := by rw [hc]
  refine ⟨hc', by rw [hc']; decide, by rw [hl]; rfl, ?_⟩
  have hmem : 16384 ∈ new.map Prod.fst := by
    rw [hi, List.mem_range'_1]
    exact ⟨by decide, by decide⟩
  obtain ⟨w, hwm, hw1⟩ := List.mem_map.mp hmem
  refine ⟨w, ?_, ?_⟩
  · rw [hw]; exact List.mem_append_right _ hwm
  · rw [hw1]; decide

/-! ## Theorems: callback registry -/

theorem realloc_slots_grow (cb : Nat) (arr : List (Option Nat)) :
    (realloc_slots arr (arr.length + 1)).set arr.length (some cb) = arr ++ [some cb] := by
  unfold realloc_slots
  rw [List.take_of_length_le (Nat.le_succ _)]
  have h1 : arr.length + 1 - arr.length = 1 := by omega
  rw [h1]
  simp

/-- Closed form of a list built by `addCallback` from the empty list. -/
theorem foldl_addCallback (cbs : List Nat) :
    cbs.foldl addCallback { callbacks := none, length := 0 } =
      { callbacks := if cbs = [] then none else some (cbs.map some), length := cbs.length } := by
  induction cbs using List.reverseRecOn with
  | nil => rfl
  | append_singleton l x ih =>
    rw [List.foldl_append, List.foldl_cons, List.foldl_nil, ih]
    by_cases hl : l = []
    · subst hl
      simp [addCallback, realloc_slots]
    · have hne : l ++ [x] ≠ [] := by simp
      rw [if_neg hl, if_neg hne]
      have hlen : (l.map some).length = l.length := List.length_map _ _
      have := realloc_slots_grow x (l.map some)
      rw [hlen] at this
      simp only [addCallback, Nat.add_sub_cancel, this]
      simp

theorem map_getD_range {α : Type} (l : List α) (d : α) :
    (List.range l.length).map (fun i => l.getD i d) = l := by
  apply List.ext_getElem
  · simp
  · intro n h1 h2
    simp [List.getD_eq_getElem?_getD, List.getElem?_eq_getElem h2]

/-- The loop over a list built by `addCallback` from the empty list calls the
registered functions in the order of registration. -/
theorem called_slots_foldl (cbs : List Nat) :
    called_slots (cbs.foldl addCallback { callbacks := none, length := 0 }) = cbs.map some := by
  rw [foldl_addCallback]
  unfold called_slots
  by_cases hl : cbs = []
  · subst hl; rfl
  · simp only [hl, if_false, Option.getD_some]
    have := map_getD_range (cbs.map some) none
    rw [List.length_map] at this
    exact this

theorem register_lists (regs : List (Bool × Nat)) :
    ∀ st : ShadertoyState,
      (register st regs).onInitCallbacks =
        ((regs.filter (fun r => !r.1)).map Prod.snd).foldl addCallback st.onInitCallbacks ∧
      (register st regs).onRenderCallbacks =
        ((regs.filter (fun r => r.1)).map Prod.snd).foldl addCallback st.onRenderCallbacks ∧
      (register st regs).globals = st.globals ∧
      (register st regs).iTime = st.iTime ∧ (register st regs).iFrame = st.iFrame := by
  induction regs with
  | nil => intro st; exact ⟨rfl, rfl, rfl, rfl, rfl⟩
  | cons r rs ih =>
    intro st
    obtain ⟨k, f⟩ := r
    cases k with
    | true =>
      have h := ih (onRender st f)
      simp only [register, List.foldl_cons, if_true] at h ⊢
      simpa [onRender] using h
    | false =>
      have h := ih (onInit st f)
      simp only [register, List.foldl_cons, Bool.false_eq_true, if_false] at h ⊢
      simpa [onInit] using h

theorem renderCalls_append (a b : List Event) :
    renderCalls (a ++ b) = renderCalls a ++ renderCalls b := by
  induction a with
  | nil => rfl
  | cons e es ih => cases e <;> simp [renderCalls, ih]

theorem initCalls_append (a b : List Event) :
    initCalls (a ++ b) = initCalls a ++ initCalls b := by
  induction a with
  | nil => rfl
  | cons e es ih => cases e <;> simp [initCalls, ih]

theorem compositorCalls_append (a b : List Event) :
    compositorCalls (a ++ b) = compositorCalls a ++ compositorCalls b := by
  induction a with
  | nil => rfl
  | cons e es ih => cases e <;> simp [compositorCalls, ih]

theorem renderCalls_map_render (slots : List (Option Nat)) (frame : Nat) (time : ℚ) :
    renderCalls (slots.map (fun f => Event.onRenderCallback f frame time)) =
      slots.map (fun f => (f, frame, time)) := by
  induction slots with
  | nil => rfl
  | cons f fs ih => simp [renderCalls, ih]

theorem initCalls_map_init (slots : List (Option Nat)) (program width height : Nat) :
    initCalls (slots.map (fun f => Event.onInitCallback f program width height)) =
      slots.map (fun f => (f, program, width, height)) := by
  induction slots with
  | nil => rfl
  | cons f fs ih => simp [initCalls, ih]

theorem compositorCalls_map_render (slots : List (Option Nat)) (frame : Nat) (time : ℚ) :
    compositorCalls (slots.map (fun f => Event.onRenderCallback f frame time)) = [] := by
  induction slots with
  | nil => rfl
  | cons f fs ih => simp [compositorCalls, ih]

theorem calls_map_gl (cs : List GLCall) :
    renderCalls (cs.map Event.gl) = [] ∧ initCalls (cs.map Event.gl) = [] ∧
    compositorCalls (cs.map Event.gl) = [] := by
  induction cs with
  | nil => exact ⟨rfl, rfl, rfl⟩
  | cons c cs ih => simp [renderCalls, initCalls, compositorCalls, ih]

/-- The OnRender callbacks called by `draw_shadertoy` are those that its loop
reads from the list, each with the frame number and the time of the call. -/
theorem draw_shadertoy_renderCalls (ext : External) (st : ShadertoyState) (frame : Nat)
    (time fps : ℚ) (fps_text : List Char) (gl : GLState) :
    renderCalls (draw_shadertoy ext st frame time fps fps_text gl).1 =
      (called_slots st.onRenderCallbacks).map (fun f => (f, frame, time)) := by
  simp only [draw_shadertoy, renderCalls_append, renderCalls_map_render, (calls_map_gl _).1]
  simp [renderCalls]

/-! ## Theorems: initialisation -/

/-- The overlay part of `init_shadertoy` always returns 0 with `egl->draw`
installed; it calls no callback and leaves the main program, the callback
lists and the GL context as they are. -/
theorem init_shadertoy_hud_returned (ext : External) (version : List Char)
    (st : ShadertoyState) (events : List Event) (gl : GLState) :
    ∃ st1 extra, init_shadertoy_hud ext version st events gl =
        .returned 0 st1 (events ++ extra) gl ∧
      initCalls extra = [] ∧ st1.draw_installed = true ∧
      st1.shadertoy_program = st.shadertoy_program ∧
      st1.onInitCallbacks = st.onInitCallbacks ∧
      st1.onRenderCallbacks = st.onRenderCallbacks := by
  unfold init_shadertoy_hud
  by_cases hh : st.globals.show_hud = true
  · rw [if_pos hh]
    simp only
    by_cases hc : ext.create_program (hud_sources version).1 (hud_sources version).2 < 0
    · rw [if_pos hc]
      exact ⟨{ st with globals := { st.globals with show_hud := false }, draw_installed := true },
        [Event.create_program (hud_sources version).1 (hud_sources version).2],
        rfl, rfl, rfl, rfl, rfl, rfl⟩
    · rw [if_neg hc]
      by_cases hl : ext.link_program
          (ext.create_program (hud_sources version).1 (hud_sources version).2).toNat ≠ 0
      · rw [if_pos hl]
        exact ⟨{ st with
            globals := { st.globals with show_hud := false, fps_program := 0 }
            draw_installed := true },
          [Event.create_program (hud_sources version).1 (hud_sources version).2,
            Event.link_program
              (ext.create_program (hud_sources version).1 (hud_sources version).2).toNat],
          by rw [List.append_assoc]; rfl, rfl, rfl, rfl, rfl, rfl⟩
      · rw [if_neg hl]
        exact ⟨{ st with
            globals := { st.globals with
              fps_program :=
                (ext.create_program (hud_sources version).1 (hud_sources version).2).toNat,
              fps_vbo := ext.fps_vbo_name }
            draw_installed := true },
          [Event.create_program (hud_sources version).1 (hud_sources version).2,
            Event.link_program
              (ext.create_program (hud_sources version).1 (hud_sources version).2).toNat,
            Event.glGenBuffers 1],
          by rw [List.append_assoc, List.append_assoc]; rfl, rfl, rfl, rfl, rfl, rfl⟩
  · rw [if_neg hh]
    exact ⟨{ st with draw_installed := true }, [], by rw [List.append_nil], rfl, rfl, rfl,
      rfl, rfl⟩

/-- The ways in which `init_shadertoy` returns: the three `return -1` (directive
without leading number, `create_program` failed, `link_program` failed), all
before any callback is called and before `egl->draw` is set, and the
`return 0` at the end, after the OnInit callbacks were called with the program
and the viewport size. -/
theorem init_shadertoy_returned (ext : External) (gbm : Gbm) (file : Option (List Char))
    (options : Options) (st : ShadertoyState) (gl : GLState)
    (ret : Int) (st1 : ShadertoyState) (events : List Event) (gl1 : GLState)
    (h : init_shadertoy ext gbm file options st gl = .returned ret st1 events gl1) :
    ∃ shader version, ext.load_shader file = .ok shader ∧
      glsl_version ext.regcomp_ret ext.shading_language_version ext.trailing = .ok version ∧
      ((init_shadertoy_sources version shader = .error ret ∧ events = [] ∧
          st1.draw_installed = st.draw_installed) ∨
        ∃ src, init_shadertoy_sources version shader = .ok src ∧
          ((ext.create_program src.1 src.2 < 0 ∧ ret = -1 ∧ initCalls events = [] ∧
              st1.draw_installed = st.draw_installed) ∨
            (0 ≤ ext.create_program src.1 src.2 ∧
              ext.link_program (ext.create_program src.1 src.2).toNat ≠ 0 ∧ ret = -1 ∧
              initCalls events = [] ∧ st1.draw_installed = st.draw_installed) ∨
            (0 ≤ ext.create_program src.1 src.2 ∧
              ext.link_program (ext.create_program src.1 src.2).toNat = 0 ∧ ret = 0 ∧
              initCalls events = (called_slots st.onInitCallbacks).map
                (fun f => (f, (ext.create_program src.1 src.2).toNat, gbm.width, gbm.height)) ∧
              st1.draw_installed = true ∧
              st1.shadertoy_program = (ext.create_program src.1 src.2).toNat))) := by
  unfold init_shadertoy at h
  simp only at h
  cases hload : ext.load_shader file with
  | error status => rw [hload] at h; cases h
  | ok shader =>
    rw [hload] at h
    simp only at h
    cases hver : glsl_version ext.regcomp_ret ext.shading_language_version ext.trailing with
    | error status => rw [hver] at h; cases h
    | ok version =>
      rw [hver] at h
      simp only at h
      refine ⟨shader, version, rfl, rfl, ?_⟩
      cases hsrc : init_shadertoy_sources version shader with
      | error code =>
        rw [hsrc] at h
        simp only at h
        cases h
        exact Or.inl ⟨rfl, rfl, rfl⟩
      | ok src =>
        rw [hsrc] at h
        simp only at h
        refine Or.inr ⟨src, rfl, ?_⟩
        by_cases hc : ext.create_program src.1 src.2 < 0
        · rw [if_pos hc] at h
          cases h
          exact Or.inl ⟨hc, rfl, rfl, rfl⟩
        · rw [if_neg hc] at h
          by_cases hl : ext.link_program (ext.create_program src.1 src.2).toNat ≠ 0
          · rw [if_pos hl] at h
            cases h
            exact Or.inr (Or.inl ⟨not_lt.mp hc, hl, rfl, rfl, rfl⟩)
          · rw [if_neg hl] at h
            obtain ⟨st2, extra, he, hx, hd, hp, _, _⟩ :=
              init_shadertoy_hud_returned ext version _ _ _
            rw [he] at h
            cases h
            refine Or.inr (Or.inr ⟨not_lt.mp hc, not_not.mp hl, rfl, ?_, hd, hp⟩)
            simp [initCalls_append, initCalls_map_init, hx, initCalls]

/-- Once the shader is loaded, the directive computed and the sources built,
`init_shadertoy` returns. -/
theorem init_shadertoy_total (ext : External) (gbm : Gbm) (file : Option (List Char))
    (options : Options) (st : ShadertoyState) (gl : GLState)
    (shader version : List Char) (src : List Char × List Char)
    (hload : ext.load_shader file = .ok shader)
    (hver : glsl_version ext.regcomp_ret ext.shading_language_version ext.trailing = .ok version)
    (hsrc : init_shadertoy_sources version shader = .ok src) :
    ∃ ret st1 events gl1,
      init_shadertoy ext gbm file options st gl = .returned ret st1 events gl1 := by
  unfold init_shadertoy
  simp only [hload, hver, hsrc]
  by_cases hc : ext.create_program src.1 src.2 < 0
  · rw [if_pos hc]; exact ⟨_, _, _, _, rfl⟩
  · rw [if_neg hc]
    by_cases hl : ext.link_program (ext.create_program src.1 src.2).toNat ≠ 0
    · rw [if_pos hl]; exact ⟨_, _, _, _, rfl⟩
    · rw [if_neg hl]
      obtain ⟨st2, extra, he, _⟩ := init_shadertoy_hud_returned ext version _ _ _
      rw [he]
      exact ⟨_, _, _, _, rfl⟩

/-- C16: with the compiler and linker giving arbitrary results, `init_shadertoy`
returns -1 when creating the main program fails (negative result) or linking it
fails (non-zero result), and then no OnInit callback has been called and
`egl->draw` is as it was; when both succeed it returns 0 with `egl->draw`
installed; and whenever it returns 0, both succeeded. -/
theorem init_shadertoy_main_program (ext : External) (gbm : Gbm) (file : Option (List Char))
    (options : Options) (st : ShadertoyState) (gl : GLState)
    (shader version : List Char) (src : List Char × List Char)
    (hload : ext.load_shader file = .ok shader)
    (hver : glsl_version ext.regcomp_ret ext.shading_language_version ext.trailing = .ok version)
    (hsrc : init_shadertoy_sources version shader = .ok src) :
    ((ext.create_program src.1 src.2 < 0 ∨
        ext.link_program (ext.create_program src.1 src.2).toNat ≠ 0) →
      ∃ st1 events gl1,
        init_shadertoy ext gbm file options st gl = .returned (-1) st1 events gl1 ∧
        initCalls events = [] ∧ st1.draw_installed = st.draw_installed) ∧
    ((0 ≤ ext.create_program src.1 src.2 ∧
        ext.link_program (ext.create_program src.1 src.2).toNat = 0) →
      ∃ st1 events gl1,
        init_shadertoy ext gbm file options st gl = .returned 0 st1 events gl1 ∧
        st1.draw_installed = true) ∧
    (∀ st1 events gl1,
      init_shadertoy ext gbm file options st gl = .returned 0 st1 events gl1 →
        0 ≤ ext.create_program src.1 src.2 ∧
        ext.link_program (ext.create_program src.1 src.2).toNat = 0) := by
  obtain ⟨ret, st1, events, gl1, hret⟩ :=
    init_shadertoy_total ext gbm file options st gl shader version src hload hver hsrc
  have key : ∀ ret st1 events gl1,
      init_shadertoy ext gbm file options st gl = .returned ret st1 events gl1 →
      (ext.create_program src.1 src.2 < 0 ∧ ret = -1 ∧ initCalls events = [] ∧
          st1.draw_installed = st.draw_installed) ∨
      (0 ≤ ext.create_program src.1 src.2 ∧
          ext.link_program (ext.create_program src.1 src.2).toNat ≠ 0 ∧ ret = -1 ∧
          initCalls events = [] ∧ st1.draw_installed = st.draw_installed) ∨
      (0 ≤ ext.create_program src.1 src.2 ∧
          ext.link_program (ext.create_program src.1 src.2).toNat = 0 ∧ ret = 0 ∧
          st1.draw_installed = true) := by
    intro ret st1 events gl1 h
    obtain ⟨shader', version', hl', hv', hcase⟩ :=
      init_shadertoy_returned ext gbm file options st gl ret st1 events gl1 h
    rw [hload] at hl'
    rw [hver] at hv'
    cases Except.ok.inj hl'
    cases Except.ok.inj hv'
    rcases hcase with ⟨he, _⟩ | ⟨src', hs', hcase⟩
    · rw [hsrc] at he; cases he
    · rw [hsrc] at hs'
      cases Except.ok.inj hs'
      rcases hcase with h1 | h2 | h3
      · exact Or.inl h1
      · exact Or.inr (Or.inl h2)
      · exact Or.inr (Or.inr ⟨h3.1, h3.2.1, h3.2.2.1, h3.2.2.2.2.1⟩)
  refine ⟨?_, ?_, ?_⟩
  · intro hfail
    rcases key ret st1 events gl1 hret with h1 | h2 | h3
    · obtain ⟨_, hr, hi, hd⟩ := h1
      subst hr
      exact ⟨st1, events, gl1, hret, hi, hd⟩
    · obtain ⟨_, _, hr, hi, hd⟩ := h2
      subst hr
      exact ⟨st1, events, gl1, hret, hi, hd⟩
    · exfalso
      rcases hfail with hf | hf
      · exact absurd h3.1 (not_le.mpr hf)
      · exact hf h3.2.1
  · rintro ⟨hc, hl⟩
    rcases key ret st1 events gl1 hret with h1 | h2 | h3
    · exact absurd hc (not_le.mpr h1.1)
    · exact absurd hl h2.2.1
    · obtain ⟨_, _, hr, hd⟩ := h3
      subst hr
      exact ⟨st1, events, gl1, hret, hd⟩
  · intro st2 events2 gl2 h0
    rcases key 0 st2 events2 gl2 h0 with h1 | h2 | h3
    · exact absurd h1.2.1 (by decide)
    · exact absurd h2.2.2.1 (by decide)
    · exact ⟨h3.1, h3.2.1⟩

theorem draw_fps_counter_skipped (g : Globals) (fps : ℚ) (fps_text : List Char) (gl : GLState)
    (h : g.show_hud = false ∨ fps ≤ 0 ∨ g.fps_program = 0) :
    draw_fps_counter g fps fps_text gl = gl := by
  unfold draw_fps_counter
  rw [if_pos]
  rcases h with h | h | h
  · exact Or.inl (by rw [h]; rfl)
  · exact Or.inr (Or.inl h)
  · exact Or.inr (Or.inr h)

/-- C15: with the compiler and linker giving arbitrary results, when the overlay
is requested, the main program was created and linked, and creating or linking
the overlay program fails, `init_shadertoy` still returns 0 with the main
program stored in `shadertoy_program` and `egl->draw` installed; `show_hud` is
false and `fps_program` is 0 (it is 0 on entry, as its initialiser leaves it),
so every later call of `draw_fps_counter` returns at once. -/
theorem init_shadertoy_overlay_failure (ext : External) (gbm : Gbm)
    (file : Option (List Char)) (options : Options) (st : ShadertoyState) (gl : GLState)
    (shader version : List Char) (src : List Char × List Char)
    (hload : ext.load_shader file = .ok shader)
    (hver : glsl_version ext.regcomp_ret ext.shading_language_version ext.trailing = .ok version)
    (hsrc : init_shadertoy_sources version shader = .ok src)
    (hhud : options.show_hud = true)
    (hentry : st.globals.fps_program = 0)
    (hmain : 0 ≤ ext.create_program src.1 src.2 ∧
      ext.link_program (ext.create_program src.1 src.2).toNat = 0)
    (hfail : ext.create_program (hud_sources version).1 (hud_sources version).2 < 0 ∨
      ext.link_program
        (ext.create_program (hud_sources version).1 (hud_sources version).2).toNat ≠ 0) :
    ∃ st1 events gl1,
      init_shadertoy ext gbm file options st gl = .returned 0 st1 events gl1 ∧
      st1.shadertoy_program = (ext.create_program src.1 src.2).toNat ∧
      st1.draw_installed = true ∧
      st1.globals.show_hud = false ∧ st1.globals.fps_program = 0 ∧
      ∀ (fps : ℚ) (fps_text : List Char) (gl2 : GLState),
        draw_fps_counter st1.globals fps fps_text gl2 = gl2 := by
  have hc : ¬ ext.create_program src.1 src.2 < 0 := not_lt.mpr hmain.1
  have hl : ¬ ext.link_program (ext.create_program src.1 src.2).toNat ≠ 0 :=
    not_not.mpr hmain.2
  have hskip : ∀ g : Globals, g.show_hud = false →
      ∀ (fps : ℚ) (fps_text : List Char) (gl2 : GLState),
        draw_fps_counter g fps fps_text gl2 = gl2 :=
    fun g hg fps fps_text gl2 => draw_fps_counter_skipped g fps fps_text gl2 (Or.inl hg)
  unfold init_shadertoy
  simp only [hload, hver, hsrc, if_neg hc, if_neg hl, hhud]
  unfold init_shadertoy_hud
  cases file with
  | none =>
    simp only [if_true]
    by_cases hc2 : ext.create_program (hud_sources version).1 (hud_sources version).2 < 0
    · rw [if_pos hc2]
      exact ⟨_, _, _, rfl, rfl, rfl, rfl, hentry, hskip _ rfl⟩
    · rw [if_neg hc2]
      have hl2 := hfail.resolve_left hc2
      rw [if_pos hl2]
      exact ⟨_, _, _, rfl, rfl, rfl, rfl, rfl, hskip _ rfl⟩
  | some path =>
    simp only [if_true]
    by_cases hc2 : ext.create_program (hud_sources version).1 (hud_sources version).2 < 0
    · rw [if_pos hc2]
      exact ⟨_, _, _, rfl, rfl, rfl, rfl, hentry, hskip _ rfl⟩
    · rw [if_neg hc2]
      have hl2 := hfail.resolve_left hc2
      rw [if_pos hl2]
      exact ⟨_, _, _, rfl, rfl, rfl, rfl, rfl, hskip _ rfl⟩

/-! ## Theorems: the example environment -/

theorem example_version (a b : Int) :
    glsl_version (exampleExternal a b).regcomp_ret
      (exampleExternal a b).shading_language_version (exampleExternal a b).trailing =
        .ok "310 es".toList := by
  show glsl_version 0 "OpenGL ES GLSL ES 3.10".toList terminated = .ok "310 es".toList
  decide!

theorem example_sources :
    init_shadertoy_sources "310 es".toList
      "void mainImage(out vec4 c, in vec2 p) \x7b c = vec4(1.0); \x7d\n".toList =
      .ok exampleSources :=
  (init_shadertoy_family "310 es".toList _
    (Or.inr ⟨'3', "10 es".toList, rfl, by decide⟩)).1.mpr (by decide)

theorem example_create :
    (exampleExternal 3 (-1)).create_program exampleSources.1 exampleSources.2 = 3 ∧
    (exampleExternal (-1) 4).create_program exampleSources.1 exampleSources.2 = -1 ∧
    (exampleExternal 3 (-1)).create_program (hud_sources "310 es".toList).1
      (hud_sources "310 es".toList).2 = -1 := by
  decide!

/-- Witness for `init_shadertoy_main_program`: in the example environment with
`create_program` giving -1 for the main sources, `init_shadertoy` returns -1
without calling the registered OnInit callback and without installing
`egl->draw`. -/
theorem init_shadertoy_main_program_witness :
    ∃ st1 events gl1,
      init_shadertoy (exampleExternal (-1) 4) ⟨1920, 1080⟩ (some "wave.frag".toList) ⟨true⟩
        (onInit initial_state 7) exampleContext = .returned (-1) st1 events gl1 ∧
      initCalls events = [] ∧ st1.draw_installed = (onInit initial_state 7).draw_installed :=
  (init_shadertoy_main_program (exampleExternal (-1) 4) ⟨1920, 1080⟩ (some "wave.frag".toList)
    ⟨true⟩ (onInit initial_state 7) exampleContext _ _ exampleSources rfl
    (example_version (-1) 4) example_sources).1
    (Or.inl (by rw [example_create.2.1]; decide))

/-- Witness for `init_shadertoy_overlay_failure`: in the example environment
with `create_program` giving 3 for the main sources and -1 for the overlay
sources. -/
theorem init_shadertoy_overlay_failure_witness :
    ∃ st1 events gl1,
      init_shadertoy (exampleExternal 3 (-1)) ⟨1920, 1080⟩ (some "wave.frag".toList) ⟨true⟩
        initial_state exampleContext = .returned 0 st1 events gl1 ∧
      st1.shadertoy_program = 3 ∧
      st1.draw_installed = true ∧
      st1.globals.show_hud = false ∧ st1.globals.fps_program = 0 ∧
      ∀ (fps : ℚ) (fps_text : List Char) (gl2 : GLState),
        draw_fps_counter st1.globals fps fps_text gl2 = gl2 := by
  have h := init_shadertoy_overlay_failure (exampleExternal 3 (-1)) ⟨1920, 1080⟩
    (some "wave.frag".toList) ⟨true⟩ initial_state exampleContext _ _ exampleSources rfl
    (example_version 3 (-1)) example_sources rfl rfl
    (by rw [example_create.1]; decide)
    (Or.inl (by rw [example_create.2.2]; decide))
  rw [example_create.1] at h
  exact h

/-! ## Theorems: registration order and frame trace -/

theorem init_shadertoy_sources_error (version shader : List Char) (r : Int)
    (h : init_shadertoy_sources version shader = .error r) : r = -1 := by
  unfold init_shadertoy_sources at h
  split at h
  · simp only at h
    split at h
    · cases h; rfl
    · cases h
  · cases h

theorem called_slots_addCallback (cbs : List Nat) (cb : Nat) :
    (addCallback (cbs.foldl addCallback { callbacks := none, length := 0 }) cb).length =
      cbs.length + 1 ∧
    called_slots (addCallback (cbs.foldl addCallback { callbacks := none, length := 0 }) cb) =
      called_slots (cbs.foldl addCallback { callbacks := none, length := 0 }) ++ [some cb] := by
  have h : addCallback (cbs.foldl addCallback { callbacks := none, length := 0 }) cb =
      (cbs ++ [cb]).foldl addCallback { callbacks := none, length := 0 } := by
    rw [List.foldl_append]; rfl
  rw [h, called_slots_foldl, called_slots_foldl, foldl_addCallback]
  simp

/-- C11: `addCallback` appends at the end of a list built by registrations and
changes nothing else: the length grows by one and the loop over the list calls
the functions called before, then the new one.  After registering `A`, `B`,
`C` on the empty list the length is 3 and the loop calls `A`, `B`, `C`.
`onInit` leaves the OnRender list as it is and `onRender` the OnInit list, so
for every interleaved sequence of registrations each list holds its own
registrations in their order; the loop of `draw_shadertoy` calls the OnRender
functions in that order, each with the frame and time, and the loop of
`init_shadertoy` (reached exactly when it returns 0) calls the OnInit functions
in that order. -/
theorem addCallback_registration_order (regs : List (Bool × Nat)) :
    (∀ (cbs : List Nat) (cb : Nat),
      (addCallback (cbs.foldl addCallback { callbacks := none, length := 0 }) cb).length =
        cbs.length + 1 ∧
      called_slots (addCallback (cbs.foldl addCallback { callbacks := none, length := 0 }) cb) =
        called_slots (cbs.foldl addCallback { callbacks := none, length := 0 }) ++ [some cb]) ∧
    (∀ A B C : Nat,
      (addCallback (addCallback (addCallback { callbacks := none, length := 0 } A) B) C).length
        = 3 ∧
      called_slots
          (addCallback (addCallback (addCallback { callbacks := none, length := 0 } A) B) C) =
        [some A, some B, some C]) ∧
    (∀ (st : ShadertoyState) (cb : Nat),
      (onInit st cb).onRenderCallbacks = st.onRenderCallbacks ∧
      (onRender st cb).onInitCallbacks = st.onInitCallbacks) ∧
    called_slots (register initial_state regs).onInitCallbacks =
      (regs.filter (fun r => !r.1)).map (fun r => some r.2) ∧
    called_slots (register initial_state regs).onRenderCallbacks =
      (regs.filter (fun r => r.1)).map (fun r => some r.2) ∧
    (∀ (ext : External) (frame : Nat) (time fps : ℚ) (fps_text : List Char) (gl : GLState),
      renderCalls (draw_shadertoy ext (register initial_state regs) frame time fps fps_text gl).1
        = (regs.filter (fun r => r.1)).map (fun r => (some r.2, frame, time))) ∧
    (∀ (ext : External) (gbm : Gbm) (file : Option (List Char)) (options : Options)
        (gl : GLState) (ret : Int) (st1 : ShadertoyState) (events : List Event) (gl1 : GLState),
      init_shadertoy ext gbm file options (register initial_state regs) gl =
          .returned ret st1 events gl1 →
        initCalls events =
          if ret = 0 then
            (regs.filter (fun r => !r.1)).map
              (fun r => (some r.2, st1.shadertoy_program, gbm.width, gbm.height))
          else []) := by
  obtain ⟨hi, hr, _, _, _⟩ := register_lists regs initial_state
  have hI : called_slots (register initial_state regs).onInitCallbacks =
      (regs.filter (fun r => !r.1)).map (fun r => some r.2) := by
    rw [hi]
    show called_slots (List.foldl addCallback { callbacks := none, length := 0 } _) = _
    rw [called_slots_foldl, List.map_map]
    rfl
  have hR : called_slots (register initial_state regs).onRenderCallbacks =
      (regs.filter (fun r => r.1)).map (fun r => some r.2) := by
    rw [hr]
    show called_slots (List.foldl addCallback { callbacks := none, length := 0 } _) = _
    rw [called_slots_foldl, List.map_map]
    rfl
  refine ⟨called_slots_addCallback, ?_, fun st cb => ⟨rfl, rfl⟩, hI, hR, ?_, ?_⟩
  · intro A B C
    have h := called_slots_addCallback [A, B] C
    have h2 := called_slots_foldl [A, B]
    simp only [List.foldl_cons, List.foldl_nil] at h h2
    refine ⟨h.1, ?_⟩
    rw [h.2, h2]
    rfl
  · intro ext frame time fps fps_text gl
    rw [draw_shadertoy_renderCalls, hR, List.map_map]
    rfl
  · intro ext gbm file options gl ret st1 events gl1 h
    obtain ⟨shader, version, _, _, hcase⟩ :=
      init_shadertoy_returned ext gbm file options _ gl ret st1 events gl1 h
    rcases hcase with ⟨he, hev, _⟩ | ⟨src, _, hcase⟩
    · have := init_shadertoy_sources_error _ _ _ he
      subst this
      rw [hev, if_neg (by decide)]
      rfl
    · rcases hcase with ⟨_, hret, hev, _⟩ | ⟨_, _, hret, hev, _⟩ | ⟨_, _, hret, hev, _, hp⟩
      · subst hret
        rw [hev, if_neg (by decide)]
      · subst hret
        rw [hev, if_neg (by decide)]
      · subst hret
        rw [hev, if_pos rfl, hI, List.map_map, hp]
        rfl

/-- The events of one call of `draw_shadertoy`, with the loop over the OnRender
list written out. -/
theorem draw_shadertoy_events (ext : External) (st : ShadertoyState) (frame : Nat)
    (time fps : ℚ) (fps_text : List Char) (gl : GLState) :
    ∃ gl2 : GLState,
      (draw_shadertoy ext st frame time fps fps_text gl).1 =
        ([Event.glUniform1f st.iTime time, Event.glUniform1ui st.iFrame frame] ++
          (called_slots st.onRenderCallbacks).map (fun f => Event.onRenderCallback f frame time)
          ++ [Event.start_perfcntrs]) ++
        [Event.gl (.DrawArrays GL_TRIANGLES 0 6)] ++
        ([Event.end_perfcntrs, Event.draw_fps_counter fps] ++
          (overlayCalls st.globals fps fps_text gl2).map Event.gl) := by
  refine ⟨((called_slots st.onRenderCallbacks).foldl
    (fun gl f => ext.onRender_effect f frame time gl) gl).exec (.DrawArrays GL_TRIANGLES 0 6), ?_⟩
  simp only [draw_shadertoy, overlayCalls, List.append_assoc, List.cons_append, List.nil_append]

/-- C20: in the events of one call of `draw_shadertoy` with the OnRender list
built by registering `cbs` in this order, the main draw call (`glDrawArrays`
for 6 vertices) is the first GL call; before it come the two uniform updates,
then one call of each registered callback with the current frame and time, in
registration order; after it comes one call of `draw_fps_counter`, followed
only by the GL calls of the overlay.  So every callback is called exactly once,
before the main draw call, and the compositor exactly once, after it. -/
theorem draw_shadertoy_trace (ext : External) (st : ShadertoyState) (cbs : List Nat)
    (frame : Nat) (time fps : ℚ) (fps_text : List Char) (gl : GLState)
    (h : st.onRenderCallbacks = cbs.foldl addCallback { callbacks := none, length := 0 }) :
    ∃ (pre post : List Event) (gl2 : GLState),
      (draw_shadertoy ext st frame time fps fps_text gl).1 =
        pre ++ [Event.gl (.DrawArrays GL_TRIANGLES 0 6)] ++ post ∧
      pre = [Event.glUniform1f st.iTime time, Event.glUniform1ui st.iFrame frame] ++
        cbs.map (fun f => Event.onRenderCallback (some f) frame time) ++
        [Event.start_perfcntrs] ∧
      post = [Event.end_perfcntrs, Event.draw_fps_counter fps] ++
        (overlayCalls st.globals fps fps_text gl2).map Event.gl ∧
      renderCalls pre = cbs.map (fun f => (some f, frame, time)) ∧
      renderCalls post = [] ∧
      compositorCalls pre = [] ∧
      compositorCalls post = [fps] ∧
      (∀ c : GLCall, Event.gl c ∉ pre) ∧
      renderCalls (draw_shadertoy ext st frame time fps fps_text gl).1 =
        cbs.map (fun f => (some f, frame, time)) ∧
      compositorCalls (draw_shadertoy ext st frame time fps fps_text gl).1 = [fps] := by
  obtain ⟨gl2, he⟩ := draw_shadertoy_events ext st frame time fps fps_text gl
  have hs : called_slots st.onRenderCallbacks = cbs.map some := by
    rw [h, called_slots_foldl]
  rw [hs, List.map_map] at he
  have he : (draw_shadertoy ext st frame time fps fps_text gl).1 =
      ([Event.glUniform1f st.iTime time, Event.glUniform1ui st.iFrame frame] ++
        cbs.map (fun f => Event.onRenderCallback (some f) frame time) ++
        [Event.start_perfcntrs]) ++ [Event.gl (.DrawArrays GL_TRIANGLES 0 6)] ++
      ([Event.end_perfcntrs, Event.draw_fps_counter fps] ++
        (overlayCalls st.globals fps fps_text gl2).map Event.gl) := he
  have hpre : renderCalls
      ([Event.glUniform1f st.iTime time, Event.glUniform1ui st.iFrame frame] ++
        cbs.map (fun f => Event.onRenderCallback (some f) frame time) ++
        [Event.start_perfcntrs]) = cbs.map (fun f => (some f, frame, time)) := by
    have := renderCalls_map_render (cbs.map some) frame time
    rw [List.map_map, List.map_map] at this
    rw [renderCalls_append, renderCalls_append]
    simp only [renderCalls, List.nil_append, List.append_nil]
    exact this
  have hpost : renderCalls ([Event.end_perfcntrs, Event.draw_fps_counter fps] ++
      (overlayCalls st.globals fps fps_text gl2).map Event.gl) = [] := by
    rw [renderCalls_append, (calls_map_gl _).1]
    rfl
  have cpre : compositorCalls
      ([Event.glUniform1f st.iTime time, Event.glUniform1ui st.iFrame frame] ++
        cbs.map (fun f => Event.onRenderCallback (some f) frame time) ++
        [Event.start_perfcntrs]) = [] := by
    have := compositorCalls_map_render (cbs.map some) frame time
    rw [List.map_map] at this
    rw [compositorCalls_append, compositorCalls_append]
    simp only [compositorCalls, List.nil_append, List.append_nil]
    exact this
  have cpost : compositorCalls ([Event.end_perfcntrs, Event.draw_fps_counter fps] ++
      (overlayCalls st.globals fps fps_text gl2).map Event.gl) = [fps] := by
    rw [compositorCalls_append, (calls_map_gl _).2.2]
    rfl
  refine ⟨_, _, gl2, he, rfl, rfl, hpre, hpost, cpre, cpost, ?_, ?_, ?_⟩
  · intro c hc
    simp at hc
  · rw [he, renderCalls_append, renderCalls_append, hpre, hpost]
    simp [renderCalls]
  · rw [he, compositorCalls_append, compositorCalls_append, cpre, cpost]
    simp [compositorCalls]

/-- Witness for `draw_shadertoy_trace`: the callbacks 7, 8, 9 registered in
this order on the initial state. -/
theorem draw_shadertoy_trace_witness :
    ∃ (pre post : List Event) (gl2 : GLState),
      (draw_shadertoy (exampleExternal 3 4) (register initial_state [(true, 7), (true, 8),
        (true, 9)]) 1 (1 / 60) 60 "60.0 FPS".toList exampleContext).1 =
        pre ++ [Event.gl (.DrawArrays GL_TRIANGLES 0 6)] ++ post ∧
      pre = [Event.glUniform1f 0 (1 / 60), Event.glUniform1ui 0 1] ++
        [7, 8, 9].map (fun f => Event.onRenderCallback (some f) 1 (1 / 60)) ++
        [Event.start_perfcntrs] ∧
      post = [Event.end_perfcntrs, Event.draw_fps_counter 60] ++
        (overlayCalls initial_state.globals 60 "60.0 FPS".toList gl2).map Event.gl :=
  have h := draw_shadertoy_trace (exampleExternal 3 4)
    (register initial_state [(true, 7), (true, 8), (true, 9)]) [7, 8, 9] 1 (1 / 60) 60
    "60.0 FPS".toList exampleContext rfl
  match h with
  | ⟨pre, post, gl2, h1, h2, h3, _⟩ => ⟨pre, post, gl2, h1, h2, h3⟩

/-! ## Theorems: GL state of the overlay -/

/-- The twelve GL calls of `draw_fps_counter` when it draws, for the geometry
`b` and the program and buffer bound on entry. -/
theorem draw_fps_counter_drawn (g : Globals) (fps : ℚ) (fps_text : List Char) (gl : GLState)
    (hg : g.show_hud = true ∧ 0 < fps ∧ g.fps_program ≠ 0)
    (hv : (draw_fps_counter_geometry g.shader_filename fps_text g.screen_width
      g.screen_height).vertex_count ≠ 0) :
    draw_fps_counter g fps fps_text gl =
      { gl with
        blend := false
        blend_func := (GL_SRC_ALPHA, GL_ONE_MINUS_SRC_ALPHA)
        attrib0 := ⟨2, GL_FLOAT, false, 0, 0⟩
        attrib0_enabled := true
        calls := gl.calls ++
          [ .UseProgram g.fps_program,
            .BindBuffer GL_ARRAY_BUFFER g.fps_vbo,
            .BufferData GL_ARRAY_BUFFER
              ((draw_fps_counter_geometry g.shader_filename fps_text g.screen_width
                g.screen_height).vertex_count * sizeof_GLfloat)
              ((draw_fps_counter_geometry g.shader_filename fps_text g.screen_width
                g.screen_height).writes.map Prod.snd) GL_DYNAMIC_DRAW,
            .VertexAttribPointer 0 2 GL_FLOAT false 0 0,
            .EnableVertexAttribArray 0,
            .Enable GL_BLEND,
            .BlendFunc GL_SRC_ALPHA GL_ONE_MINUS_SRC_ALPHA,
            .DrawArrays GL_TRIANGLES 0
              ((draw_fps_counter_geometry g.shader_filename fps_text g.screen_width
                g.screen_height).vertex_count / 2),
            .Disable GL_BLEND,
            .UseProgram gl.current_program,
            .BindBuffer GL_ARRAY_BUFFER gl.array_buffer_binding,
            .VertexAttribPointer 0 2 GL_FLOAT false 0 0,
            .EnableVertexAttribArray 0 ] } := by
  have hguard : ¬ ((!g.show_hud) = true ∨ fps ≤ 0 ∨ g.fps_program = 0) := by
    rintro (h | h | h)
    · rw [hg.1] at h; exact absurd h (by decide)
    · exact absurd hg.2.1 (not_lt.mpr h)
    · exact hg.2.2 h
  unfold draw_fps_counter
  rw [if_neg hguard]
  simp only [if_neg hv]
  simp [GLState.exec]

theorem draw_fps_counter_not_drawn (g : Globals) (fps : ℚ) (fps_text : List Char) (gl : GLState)
    (h : ¬ (g.show_hud = true ∧ 0 < fps ∧ g.fps_program ≠ 0 ∧
      (draw_fps_counter_geometry g.shader_filename fps_text g.screen_width
        g.screen_height).vertex_count ≠ 0)) :
    draw_fps_counter g fps fps_text gl = gl := by
  by_cases hs : g.show_hud = false ∨ fps ≤ 0 ∨ g.fps_program = 0
  · exact draw_fps_counter_skipped g fps fps_text gl hs
  · have hguard : ¬ ((!g.show_hud) = true ∨ fps ≤ 0 ∨ g.fps_program = 0) := by
      rintro (h1 | h1 | h1)
      · exact hs (Or.inl (by simpa using h1))
      · exact hs (Or.inr (Or.inl h1))
      · exact hs (Or.inr (Or.inr h1))
    have hv : (draw_fps_counter_geometry g.shader_filename fps_text g.screen_width
        g.screen_height).vertex_count = 0 := by
      by_contra hv
      refine h ⟨?_, ?_, ?_, hv⟩
      · by_contra h1; exact hs (Or.inl (by simpa using h1))
      · by_contra h1; exact hs (Or.inr (Or.inl (not_lt.mp h1)))
      · intro h1; exact hs (Or.inr (Or.inr h1))
    unfold draw_fps_counter
    rw [if_neg hguard]
    simp only [if_pos hv]

/-- The calls of the overlay depend on the GL context only through the program
and the array buffer bound on entry. -/
theorem overlayCalls_congr (g : Globals) (fps : ℚ) (fps_text : List Char) (gl gl2 : GLState)
    (hp : gl2.current_program = gl.current_program)
    (hb : gl2.array_buffer_binding = gl.array_buffer_binding) :
    overlayCalls g fps fps_text gl2 = overlayCalls g fps fps_text gl := by
  unfold overlayCalls
  by_cases h : g.show_hud = true ∧ 0 < fps ∧ g.fps_program ≠ 0 ∧
      (draw_fps_counter_geometry g.shader_filename fps_text g.screen_width
        g.screen_height).vertex_count ≠ 0
  · rw [draw_fps_counter_drawn g fps fps_text gl ⟨h.1, h.2.1, h.2.2.1⟩ h.2.2.2,
      draw_fps_counter_drawn g fps fps_text gl2 ⟨h.1, h.2.1, h.2.2.1⟩ h.2.2.2, hp, hb]
    simp
  · rw [draw_fps_counter_not_drawn g fps fps_text gl h, draw_fps_counter_not_drawn g fps fps_text gl2 h]
    simp

/-- In every case `draw_fps_counter` leaves the program and the array buffer
bound on entry bound on exit. -/
theorem draw_fps_counter_bindings (g : Globals) (fps : ℚ) (fps_text : List Char)
    (gl : GLState) :
    (draw_fps_counter g fps fps_text gl).current_program = gl.current_program ∧
    (draw_fps_counter g fps fps_text gl).array_buffer_binding = gl.array_buffer_binding := by
  by_cases h : g.show_hud = true ∧ 0 < fps ∧ g.fps_program ≠ 0 ∧
      (draw_fps_counter_geometry g.shader_filename fps_text g.screen_width
        g.screen_height).vertex_count ≠ 0
  · rw [draw_fps_counter_drawn g fps fps_text gl ⟨h.1, h.2.1, h.2.2.1⟩ h.2.2.2]
    exact ⟨rfl, rfl⟩
  · rw [draw_fps_counter_not_drawn g fps fps_text gl h]
    exact ⟨rfl, rfl⟩

/-- C13: whenever `show_hud` is false, or `fps <= 0`, or `fps_program == 0`,
`draw_fps_counter` returns with the GL context exactly as it was on entry: it
issues no GL call (in particular no upload of geometry and no draw call) and
changes no binding. -/
theorem draw_fps_counter_guard (g : Globals) (fps : ℚ) (fps_text : List Char) (gl : GLState)
    (h : g.show_hud = false ∨ fps ≤ 0 ∨ g.fps_program = 0) :
    draw_fps_counter g fps fps_text gl = gl ∧
    overlayCalls g fps fps_text gl = [] ∧
    bufferUploads (draw_fps_counter g fps fps_text gl).calls = bufferUploads gl.calls ∧
    drawCalls (draw_fps_counter g fps fps_text gl).calls = drawCalls gl.calls := by
  have e := draw_fps_counter_skipped g fps fps_text gl h
  refine ⟨e, ?_, by rw [e], by rw [e]⟩
  unfold overlayCalls
  rw [e]
  exact List.drop_length _

/-- Witness for `draw_fps_counter_guard`: the overlay enabled and its program
present, but `fps` equal to 0. -/
theorem draw_fps_counter_guard_witness :
    draw_fps_counter exampleGlobals 0 "0.0 FPS".toList exampleContext = exampleContext ∧
    overlayCalls exampleGlobals 0 "0.0 FPS".toList exampleContext = [] :=
  have h := draw_fps_counter_guard exampleGlobals 0 "0.0 FPS".toList exampleContext
    (Or.inr (Or.inl (le_refl 0)))
  ⟨h.1, h.2.1⟩

/-- C14: for every GL context on entry, when `draw_fps_counter` draws the
overlay (the guard passes and the geometry is not empty), on exit the bound
program and the bound array buffer are those bound on entry, blending is
disabled, and vertex attribute 0 is set to 2 floats, not normalised, stride 0,
offset 0, and is enabled. -/
theorem draw_fps_counter_restores (g : Globals) (fps : ℚ) (fps_text : List Char)
    (gl : GLState)
    (hg : g.show_hud = true ∧ 0 < fps ∧ g.fps_program ≠ 0)
    (hv : (draw_fps_counter_geometry g.shader_filename fps_text g.screen_width
      g.screen_height).vertex_count ≠ 0) :
    (draw_fps_counter g fps fps_text gl).current_program = gl.current_program ∧
    (draw_fps_counter g fps fps_text gl).array_buffer_binding = gl.array_buffer_binding ∧
    (draw_fps_counter g fps fps_text gl).blend = false ∧
    (draw_fps_counter g fps fps_text gl).attrib0 = ⟨2, GL_FLOAT, false, 0, 0⟩ ∧
    (draw_fps_counter g fps fps_text gl).attrib0_enabled = true ∧
    drawCalls (overlayCalls g fps fps_text gl) =
      [(GL_TRIANGLES, 0,
        (draw_fps_counter_geometry g.shader_filename fps_text g.screen_width
          g.screen_height).vertex_count / 2)] := by
  unfold overlayCalls
  rw [draw_fps_counter_drawn g fps fps_text gl hg hv]
  refine ⟨rfl, rfl, rfl, rfl, rfl, ?_⟩
  simp [drawCalls]

theorem example_geometry_count :
    (draw_fps_counter_geometry exampleGlobals.shader_filename "60.0 FPS".toList
      exampleGlobals.screen_width exampleGlobals.screen_height).vertex_count ≠ 0 := by
  have h := (draw_fps_counter_geometry_appended exampleGlobals.shader_filename
    "60.0 FPS".toList exampleGlobals.screen_width exampleGlobals.screen_height).1
  have hn : 12 * ((exampleGlobals.shader_filename.map textBits).getD 0 +
      textBits "60.0 FPS".toList) ≠ 0 := by decide!
  rw [h]
  exact fun e => hn (by simpa using e)

/-- Witness for `draw_fps_counter_restores`: the overlay of the 1920x1080 run
with label `wave.frag` and status text `60.0 FPS`, entered with program 3 and
buffer 1 bound. -/
theorem draw_fps_counter_restores_witness :
    (draw_fps_counter exampleGlobals 60 "60.0 FPS".toList exampleContext).current_program = 3 ∧
    (draw_fps_counter exampleGlobals 60 "60.0 FPS".toList exampleContext).array_buffer_binding
      = 1 ∧
    (draw_fps_counter exampleGlobals 60 "60.0 FPS".toList exampleContext).blend = false :=
  have h := draw_fps_counter_restores exampleGlobals 60 "60.0 FPS".toList exampleContext
    ⟨rfl, by norm_num, by decide⟩ example_geometry_count
  ⟨h.1, h.2.1, h.2.2.1⟩

theorem bufferUploads_drop_overlay (g : Globals) (fps : ℚ) (fps_text : List Char)
    (gl : GLState) :
    bufferUploads (overlayCalls g fps fps_text gl) =
      if g.show_hud = true ∧ 0 < fps ∧ g.fps_program ≠ 0 ∧
          (draw_fps_counter_geometry g.shader_filename fps_text g.screen_width
            g.screen_height).vertex_count ≠ 0 then
        [((draw_fps_counter_geometry g.shader_filename fps_text g.screen_width
            g.screen_height).vertex_count * sizeof_GLfloat,
          (draw_fps_counter_geometry g.shader_filename fps_text g.screen_width
            g.screen_height).writes.map Prod.snd)]
      else [] := by
  unfold overlayCalls
  by_cases h : g.show_hud = true ∧ 0 < fps ∧ g.fps_program ≠ 0 ∧
      (draw_fps_counter_geometry g.shader_filename fps_text g.screen_width
        g.screen_height).vertex_count ≠ 0
  · rw [if_pos h, draw_fps_counter_drawn g fps fps_text gl ⟨h.1, h.2.1, h.2.2.1⟩ h.2.2.2]
    simp [bufferUploads]
  · rw [if_neg h, draw_fps_counter_not_drawn g fps fps_text gl h]
    simp [bufferUploads]

/-- C17: the geometry built by `draw_fps_counter` is a function of the label,
the status text and the viewport alone, and every build starts with
`vertex_count = 0`: the stores go to the indices `0, 1, ..., vertex_count - 1`
in this order.  Two calls in a row with the same inputs issue the same GL
calls, so they upload the same array of the same size and draw the same number
of vertices: nothing of the first call carries over to the second. -/
theorem draw_fps_counter_repeatable (g : Globals) (fps : ℚ) (fps_text : List Char)
    (gl : GLState) :
    overlayCalls g fps fps_text (draw_fps_counter g fps fps_text gl) =
      overlayCalls g fps fps_text gl ∧
    bufferUploads (overlayCalls g fps fps_text (draw_fps_counter g fps fps_text gl)) =
      bufferUploads (overlayCalls g fps fps_text gl) ∧
    drawCalls (overlayCalls g fps fps_text (draw_fps_counter g fps fps_text gl)) =
      drawCalls (overlayCalls g fps fps_text gl) ∧
    (bufferUploads (overlayCalls g fps fps_text gl) =
      if g.show_hud = true ∧ 0 < fps ∧ g.fps_program ≠ 0 ∧
          (draw_fps_counter_geometry g.shader_filename fps_text g.screen_width
            g.screen_height).vertex_count ≠ 0 then
        [((draw_fps_counter_geometry g.shader_filename fps_text g.screen_width
            g.screen_height).vertex_count * sizeof_GLfloat,
          (draw_fps_counter_geometry g.shader_filename fps_text g.screen_width
            g.screen_height).writes.map Prod.snd)]
      else []) ∧
    (draw_fps_counter_geometry g.shader_filename fps_text g.screen_width
        g.screen_height).writes.map Prod.fst =
      List.range' 0 (draw_fps_counter_geometry g.shader_filename fps_text g.screen_width
        g.screen_height).vertex_count ∧
    (draw_fps_counter g fps fps_text (draw_fps_counter g fps fps_text gl)).calls =
      gl.calls ++ overlayCalls g fps fps_text gl ++ overlayCalls g fps fps_text gl := by
  have hb := draw_fps_counter_bindings g fps fps_text gl
  have hc := overlayCalls_congr g fps fps_text gl (draw_fps_counter g fps fps_text gl) hb.1 hb.2
  have hcalls : ∀ gl0 : GLState, (draw_fps_counter g fps fps_text gl0).calls =
      gl0.calls ++ overlayCalls g fps fps_text gl0 := by
    intro gl0
    unfold overlayCalls
    by_cases h : g.show_hud = true ∧ 0 < fps ∧ g.fps_program ≠ 0 ∧
        (draw_fps_counter_geometry g.shader_filename fps_text g.screen_width
          g.screen_height).vertex_count ≠ 0
    · rw [draw_fps_counter_drawn g fps fps_text gl0 ⟨h.1, h.2.1, h.2.2.1⟩ h.2.2.2]
      simp
    · rw [draw_fps_counter_not_drawn g fps fps_text gl0 h]
      simp
  refine ⟨hc, by rw [hc], by rw [hc], bufferUploads_drop_overlay g fps fps_text gl, ?_, ?_⟩
  · obtain ⟨hcount, new, hw, hi⟩ := draw_fps_counter_geometry_appended g.shader_filename
      fps_text g.screen_width g.screen_height
    rw [hw, hcount]
    simpa using hi
  · rw [hcalls, hcalls gl, hc]

/-! ## Theorems: overlay layout and capacity -/

theorem conv_int32 (z : Int) (h1 : -(2 ^ 31) ≤ z) (h2 : z < 2 ^ 31) :
    toInt32 (toUInt32 z) = z := by
  unfold toInt32 toUInt32
  have hz : 0 ≤ z % 2 ^ 32 := Int.emod_nonneg _ (by norm_num)
  have hlt : z % 2 ^ 32 < 2 ^ 32 := Int.emod_lt_of_pos _ (by norm_num)
  have hc : (((z % 2 ^ 32).toNat : Nat) : Int) = z % 2 ^ 32 := Int.toNat_of_nonneg hz
  have hm : (z % 2 ^ 32).toNat % 2 ^ 32 = (z % 2 ^ 32).toNat := by
    apply Nat.mod_eq_of_lt
    omega
  rw [hm]
  split <;> omega

/-- C12: for every viewport width `w` that fits an `int` and every status text
of `n` characters (at most 63, the size of `fps_text`), the cell width is 12
and `start_x = w - n * 12 - 10`, so `start_x + n * 12 = w - 10`: the right edge
of the status block is 10 pixels from the right border; this `start_x` is the
origin from which `draw_fps_counter` draws the status text.  For 1920x1080 and
the 8 characters of `60.0 FPS`, `start_x = 1814` and `start_y = 1054`. -/
theorem status_start_x_right_aligned (w H : Nat) (fps_text : List Char)
    (shader_filename : Option (List Char))
    (hw : w < 2 ^ 31) (hn : fps_text.length ≤ 63) :
    truncToInt (6 * 2) = 12 ∧
    status_start_x w ((fps_text.length : Int) * truncToInt (6 * 2)) 10 =
      (w : Int) - (fps_text.length : Int) * 12 - 10 ∧
    status_start_x w ((fps_text.length : Int) * truncToInt (6 * 2)) 10 +
      (fps_text.length : Int) * 12 = (w : Int) - 10 ∧
    draw_fps_counter_geometry shader_filename fps_text w H =
      draw_fps_text_loop ((w : Int) - (fps_text.length : Int) * 12 - 10)
        (status_start_y H 16 10) 12 2 w H fps_text 0
        (match shader_filename with
          | some name => draw_filename_loop 10 12 2 w H name 0 ⟨[], 0⟩
          | none => ⟨[], 0⟩) ∧
    "60.0 FPS".toList.length = 8 ∧
    status_start_x 1920 (("60.0 FPS".toList.length : Int) * truncToInt (6 * 2)) 10 = 1814 ∧
    status_start_y 1080 (truncToInt (8 * 2)) 10 = 1054 := by
  have hx : ∀ (w0 n : Nat), w0 < 2 ^ 31 → n ≤ 63 →
      status_start_x w0 ((n : Int) * 12) 10 = (w0 : Int) - (n : Int) * 12 - 10 := by
    intro w0 n h1 h2
    unfold status_start_x
    exact conv_int32 _ (by omega) (by omega)
  have hy : status_start_y 1080 16 10 = 1054 := by
    unfold status_start_y
    exact conv_int32 _ (by norm_num) (by norm_num)
  have h8 : "60.0 FPS".toList.length = 8 := rfl
  rw [truncToInt_twelve, truncToInt_sixteen, hx w _ hw hn]
  refine ⟨rfl, rfl, by ring, ?_, h8, ?_, hy⟩
  · cases shader_filename <;>
      simp only [draw_fps_counter_geometry, truncToInt_twelve, truncToInt_sixteen,
        hx w _ hw hn]
  · exact (hx 1920 8 (by norm_num) (by norm_num)).trans (by norm_num)

/-- Witness for `status_start_x_right_aligned`: viewport 1920x1080 and the
status text `60.0 FPS`. -/
theorem status_start_x_right_aligned_witness :
    status_start_x 1920 (("60.0 FPS".toList.length : Int) * truncToInt (6 * 2)) 10 =
      ((1920 : Nat) : Int) - ("60.0 FPS".toList.length : Int) * 12 - 10 :=
  (status_start_x_right_aligned 1920 1080 "60.0 FPS".toList (some "wave.frag".toList)
    (by norm_num) (by decide)).2.1

theorem font_5x7_bits_le :
    ∀ i ∈ List.range 43, glyphBits (font_5x7.getD i []) ≤ 19 := by
  decide!

theorem indexBits_le (ci : Int) : indexBits ci ≤ 19 := by
  unfold indexBits
  split
  · apply font_5x7_bits_le
    rw [List.mem_range]
    omega
  · omega

theorem textBits_le (s : List Char) : textBits s ≤ 19 * s.length := by
  induction s with
  | nil => exact Nat.le_refl _
  | cons c cs ih =>
    rw [textBits_cons, List.length_cons]
    have := indexBits_le (char_to_font_index c)
    omega

/-- C18: when the label (if any) and the status text have at most 58
characters together, the overlay geometry build performs at most 16384 stores,
all at indices below 16384, the number of floats of `vertices`, and
`vertex_count` ends at most there.  Every glyph of `font_5x7` has at most 19
set bits (the digit `0` has 19), so one call of `draw_char` advances
`vertex_count` by at most 228 (by exactly 228 for the digit `0`, more than the
210 of the comment), and 58 characters need at most 13224 floats. -/
theorem draw_fps_counter_geometry_within_capacity (shader_filename : Option (List Char))
    (fps_text : List Char) (W H : Nat)
    (h : (shader_filename.map List.length).getD 0 + fps_text.length ≤ 58) :
    (draw_fps_counter_geometry shader_filename fps_text W H).vertex_count ≤ VERTICES_CAPACITY ∧
    (draw_fps_counter_geometry shader_filename fps_text W H).writes.length
      ≤ VERTICES_CAPACITY ∧
    (∀ wr ∈ (draw_fps_counter_geometry shader_filename fps_text W H).writes,
      wr.1 < VERTICES_CAPACITY) ∧
    (draw_fps_counter_geometry shader_filename fps_text W H).vertex_count ≤ 58 * 228 ∧
    (∀ i : Nat, i < 43 → glyphBits (font_5x7.getD i []) ≤ 19) ∧
    glyphBits (font_5x7.getD 0 []) = 19 ∧
    (∀ (x y char_index : Int) (scale : ℚ) (b : VertexBuffer),
      (draw_char x y char_index scale W H b).vertex_count ≤ b.vertex_count + 228) ∧
    (∀ (x y : Int) (scale : ℚ) (b : VertexBuffer),
      (draw_char x y 0 scale W H b).vertex_count = b.vertex_count + 228) := by
  have hg := draw_fps_counter_geometry_appended shader_filename fps_text W H
  have hl := appended_length hg
  have hbits : (shader_filename.map textBits).getD 0 + textBits fps_text ≤ 19 * 58 := by
    have h2 := textBits_le fps_text
    cases shader_filename with
    | none =>
      simp only [Option.map_none', Option.getD_none] at h ⊢
      omega
    | some name =>
      have h1 := textBits_le name
      simp only [Option.map_some', Option.getD_some] at h ⊢
      omega
  obtain ⟨hc, new, hw, hi⟩ := hg
  have hcount : (draw_fps_counter_geometry shader_filename fps_text W H).vertex_count ≤
      58 * 228 := by
    rw [hc]
    show 0 + _ ≤ _
    omega
  have h0 : glyphBits (font_5x7.getD 0 []) = 19 := by decide
  refine ⟨?_, ?_, ?_, hcount, ?_, h0, ?_, ?_⟩
  · unfold VERTICES_CAPACITY; omega
  · rw [hl]
    show 0 + _ ≤ VERTICES_CAPACITY
    unfold VERTICES_CAPACITY; omega
  · intro wr hwr
    rw [hw, List.nil_append] at hwr
    have hm : wr.1 ∈ new.map Prod.fst := List.mem_map_of_mem _ hwr
    rw [hi, List.mem_range'_1] at hm
    have h3 := hm.2
    simp only [] at h3
    unfold VERTICES_CAPACITY
    omega
  · intro i hi43
    exact font_5x7_bits_le i (List.mem_range.mpr hi43)
  · intro x y ci scale b
    have := (draw_char_appended x y ci scale W H b).1
    have h19 := indexBits_le ci
    omega
  · intro x y scale b
    have := (draw_char_appended x y 0 scale W H b).1
    have hib : indexBits 0 = 19 := by decide
    omega

/-- Witness for `draw_fps_counter_geometry_within_capacity`: the label
`wave.frag` and the status text `60.0 FPS`, 17 characters together. -/
theorem draw_fps_counter_geometry_within_capacity_witness :
    (draw_fps_counter_geometry (some "wave.frag".toList) "60.0 FPS".toList
      1920 1080).vertex_count ≤ VERTICES_CAPACITY :=
  (draw_fps_counter_geometry_within_capacity (some "wave.frag".toList) "60.0 FPS".toList
    1920 1080 (by decide)).1

/-! ## Theorems: quad coordinates -/

theorem appendedVals_refl (b : VertexBuffer) : AppendedVals b b [] := by
  constructor <;> simp

theorem appendedVals_trans {b r t : VertexBuffer} {v1 v2 : List ℚ}
    (h1 : AppendedVals b r v1) (h2 : AppendedVals r t v2) : AppendedVals b t (v1 ++ v2) := by
  obtain ⟨hc1, hw1⟩ := h1
  obtain ⟨hc2, hw2⟩ := h2
  refine ⟨by rw [hc2, hc1, List.length_append, Nat.add_assoc], ?_⟩
  rw [hw2, hw1, hc1, List.append_assoc, List.length_append,
    Nat.add_comm v1.length v2.length, ← List.range'_append_1,
    List.zip_append (by rw [List.length_range'])]

theorem emit_quad_appendedVals (x1 y1 x2 y2 : ℚ) (b : VertexBuffer) :
    AppendedVals b (emit_quad x1 y1 x2 y2 b) (quadValues x1 y1 x2 y2) := by
  refine ⟨rfl, ?_⟩
  simp [emit_quad, quadValues, List.range', Nat.add_assoc]

theorem foldl_appendedVals {α : Type} (f : VertexBuffer → α → VertexBuffer) (v : α → List ℚ)
    (hf : ∀ b x, AppendedVals b (f b x) (v x)) :
    ∀ (l : List α) (b : VertexBuffer), AppendedVals b (l.foldl f b) (l.flatMap v) := by
  intro l
  induction l with
  | nil => intro b; exact appendedVals_refl b
  | cons x xs ih =>
    intro b
    rw [List.foldl_cons, List.flatMap_cons]
    exact appendedVals_trans (hf b x) (ih (f b x))

theorem and_shift_ne_zero_iff (n k : Nat) : n &&& (1 <<< k) ≠ 0 ↔ n.testBit k = true := by
  rw [Nat.one_shiftLeft, Nat.and_two_pow]
  cases n.testBit k <;> simp

theorem draw_char_pixel_appendedVals (x y : Int) (glyph : List Nat) (s : Int)
    (W H row col : Nat) (b : VertexBuffer) :
    AppendedVals b (draw_char_pixel x y glyph s W H row col b)
      (if (glyph.getD row 0).testBit (4 - col) then
        quadValues
          (ndc_x ((x : ℚ) + (col : ℚ) * (s : ℚ)) W)
          (ndc_y ((y : ℚ) + (row : ℚ) * (s : ℚ)) H)
          (ndc_x ((x : ℚ) + ((col : ℚ) + 1) * (s : ℚ)) W)
          (ndc_y ((y : ℚ) + ((row : ℚ) + 1) * (s : ℚ)) H)
      else []) := by
  unfold draw_char_pixel
  by_cases h : glyph.getD row 0 &&& (1 <<< (4 - col)) ≠ 0
  · rw [if_pos h, if_pos ((and_shift_ne_zero_iff _ _).mp h)]
    have e1 : (((x + (col : Int) * s : Int) : ℚ)) = (x : ℚ) + (col : ℚ) * (s : ℚ) := by
      push_cast; ring
    have e2 : (((y + (row : Int) * s : Int) : ℚ)) = (y : ℚ) + (row : ℚ) * (s : ℚ) := by
      push_cast; ring
    have e3 : (((x + (col : Int) * s : Int) : ℚ)) + (s : ℚ) =
        (x : ℚ) + ((col : ℚ) + 1) * (s : ℚ) := by
      push_cast; ring
    have e4 : (((y + (row : Int) * s : Int) : ℚ)) + (s : ℚ) =
        (y : ℚ) + ((row : ℚ) + 1) * (s : ℚ) := by
      push_cast; ring
    simp only [e3, e4]
    simp only [e1, e2]
    exact emit_quad_appendedVals _ _ _ _ b
  · have h2 : ¬ ((glyph.getD row 0).testBit (4 - col) = true) :=
      fun ht => h ((and_shift_ne_zero_iff _ _).mpr ht)
    rw [if_neg h, if_neg h2]
    exact appendedVals_refl b

/-- C19: over exact rational arithmetic, for every glyph index 0..42, origin
`(x, y)`, scale and positive viewport width `W` and height `H`, with
`s = max(1, (int)scale)`: the stores of `draw_char` are, at consecutive indices
from `*vertex_count` on, the values obtained by going through rows 0..6 and in
each row columns 0..4 (column 0 is bit 4 of the row pattern) and writing, for
every set bit, the six vertices `(x1,y1), (x2,y1), (x2,y2), (x2,y2), (x1,y2),
(x1,y1)` where `(x1,y1)` and `(x2,y2)` are the pixels `(x + col*s, y + row*s)`
and `(x + (col+1)*s, y + (row+1)*s)` converted by `ndc_x = (px / W) * 2 - 1`
and `ndc_y = 1 - (py / H) * 2`; the conversion takes the viewport corners
`(0,0)` and `(W,H)` to `(-1,1)` and `(1,-1)`. -/
theorem draw_char_quad_coordinates (x y : Int) (char_index : Int) (scale : ℚ) (W H : Nat)
    (b : VertexBuffer)
    (hci : 0 ≤ char_index ∧ char_index ≤ 42) (hW : 0 < W) (hH : 0 < H) :
    AppendedVals b (draw_char x y char_index scale W H b)
      (specGlyphValues x y (font_5x7.getD char_index.toNat []) (max 1 (truncToInt scale)) W H) ∧
    ndc_x 0 W = -1 ∧ ndc_x W W = 1 ∧ ndc_y 0 H = 1 ∧ ndc_y H H = -1 := by
  have hWq : (W : ℚ) ≠ 0 := Nat.cast_ne_zero.mpr (Nat.pos_iff_ne_zero.mp hW)
  have hHq : (H : ℚ) ≠ 0 := Nat.cast_ne_zero.mpr (Nat.pos_iff_ne_zero.mp hH)
  refine ⟨?_, ?_, ?_, ?_, ?_⟩
  · unfold draw_char specGlyphValues
    have hr : ¬ (char_index < 0 ∨ char_index ≥ 43) := by omega
    rw [if_neg hr]
    have hs : (if truncToInt scale < 1 then (1 : Int) else truncToInt scale) =
        max 1 (truncToInt scale) := by
      split
      · rw [max_eq_left]; omega
      · rw [max_eq_right]; omega
    simp only [hs]
    exact foldl_appendedVals _ _
      (fun b row => foldl_appendedVals _ _
        (fun b col => draw_char_pixel_appendedVals x y _ _ W H row col b)
        (List.range 5) b)
      (List.range 7) b
  · unfold ndc_x; norm_num
  · unfold ndc_x; rw [div_self hWq]; norm_num
  · unfold ndc_y; norm_num
  · unfold ndc_y; rw [div_self hHq]; norm_num

/-- Witness for `draw_char_quad_coordinates`: the digit `0` drawn at the
origin of the label on a 1920x1080 viewport into an empty array. -/
theorem draw_char_quad_coordinates_witness :
    AppendedVals ⟨[], 0⟩ (draw_char 10 10 0 2 1920 1080 ⟨[], 0⟩)
      (specGlyphValues 10 10 (font_5x7.getD (0 : Int).toNat []) (max 1 (truncToInt 2))
        1920 1080) :=
  (draw_char_quad_coordinates 10 10 0 2 1920 1080 ⟨[], 0⟩ (by decide) (by decide)
    (by decide)).1

/-! ## Theorems: label and directive -/

theorem strrchr_none (s : List Char) (c : Char) : strrchr s c = none ↔ c ∉ s := by
  induction s with
  | nil => simp [strrchr]
  | cons x xs ih =>
    rw [strrchr]
    cases h : strrchr xs c with
    | some p =>
      have hm : ¬ (c ∉ xs) := fun hn => by rw [ih.mpr hn] at h; cases h
      simp only [List.mem_cons, not_or]
      constructor
      · intro e; cases e
      · intro e; exact absurd e.2 hm
    | none =>
      have hm : c ∉ xs := ih.mp h
      simp only [List.mem_cons, not_or]
      by_cases hx : x = c
      · rw [if_pos hx]
        constructor
        · intro e; cases e
        · intro e; exact absurd hx.symm e.1
      · rw [if_neg hx]
        exact ⟨fun _ => ⟨fun e => hx e.symm, hm⟩, fun _ => rfl⟩

theorem strrchr_some (s : List Char) (c : Char) (p : List Char) (h : strrchr s c = some p) :
    ∃ pre suf, s = pre ++ c :: suf ∧ c ∉ suf ∧ p = c :: suf := by
  induction s generalizing p with
  | nil => simp [strrchr] at h
  | cons x xs ih =>
    rw [strrchr] at h
    cases hr : strrchr xs c with
    | some q =>
      rw [hr] at h
      simp only [Option.some.injEq] at h
      obtain ⟨pre, suf, hs, hn, hq⟩ := ih q hr
      exact ⟨x :: pre, suf, by rw [hs]; rfl, hn, by rw [← h, hq]⟩
    | none =>
      rw [hr] at h
      simp only at h
      by_cases hx : x = c
      · rw [if_pos hx] at h
        simp only [Option.some.injEq] at h
        exact ⟨[], xs, by rw [hx]; rfl, (strrchr_none xs c).mp hr, by rw [← h, hx]⟩
      · rw [if_neg hx] at h
        cases h

theorem specBasename_of_not_mem (path : List Char) (h : '/' ∉ path) :
    specBasename path = path := by
  unfold specBasename
  rw [List.takeWhile_eq_self_iff.mpr, List.reverse_reverse]
  intro c hc
  have hc2 : c ∈ path := List.mem_reverse.mp hc
  simp only [bne_iff_ne, ne_eq]
  intro e
  exact h (e ▸ hc2)

theorem specBasename_of_split (dir name : List Char) (h : '/' ∉ name) :
    specBasename (dir ++ '/' :: name) = name := by
  unfold specBasename
  have e : (dir ++ '/' :: name).reverse = name.reverse ++ '/' :: dir.reverse := by
    simp
  rw [e, List.takeWhile_append_of_pos, List.takeWhile_cons_of_neg (by simp),
    List.append_nil, List.reverse_reverse]
  intro c hc
  have hc2 : c ∈ name := List.mem_reverse.mp hc
  simp only [bne_iff_ne, ne_eq]
  intro e2
  exact h (e2 ▸ hc2)

/-- The label computed by lines 510-513 is the basename of the specification. -/
theorem label_eq_specBasename (path : List Char) :
    (match strrchr path '/' with
      | some basename => basename.drop 1
      | none => path) = specBasename path := by
  cases h : strrchr path '/' with
  | none =>
    exact (specBasename_of_not_mem path ((strrchr_none path '/').mp h)).symm
  | some p =>
    obtain ⟨pre, suf, hs, hn, hp⟩ := strrchr_some path '/' p h
    simp only
    rw [hp, hs, specBasename_of_split pre suf hn]
    rfl

theorem specBasename_shape (path : List Char) :
    '/' ∉ specBasename path ∧
    (path = specBasename path ∨ ∃ dir, path = dir ++ '/' :: specBasename path) := by
  cases h : strrchr path '/' with
  | none =>
    have hn := (strrchr_none path '/').mp h
    rw [specBasename_of_not_mem path hn]
    exact ⟨hn, Or.inl rfl⟩
  | some p =>
    obtain ⟨pre, suf, hs, hn, _⟩ := strrchr_some path '/' p h
    rw [hs, specBasename_of_split pre suf hn]
    exact ⟨hn, Or.inr ⟨pre, rfl⟩⟩

/-- The overlay part of `init_shadertoy` leaves the label as it is. -/
theorem init_shadertoy_hud_label (ext : External) (version : List Char)
    (st : ShadertoyState) (events : List Event) (gl : GLState)
    (ret : Int) (st1 : ShadertoyState) (events1 : List Event) (gl1 : GLState)
    (h : init_shadertoy_hud ext version st events gl = .returned ret st1 events1 gl1) :
    st1.globals.shader_filename = st.globals.shader_filename ∧
    ∃ extra, events1 = events ++ extra := by
  obtain ⟨st2, extra, he, _⟩ := init_shadertoy_hud_returned ext version st events gl
  refine ⟨?_, extra, ?_⟩
  · unfold init_shadertoy_hud at h
    by_cases hh : st.globals.show_hud = true
    · rw [if_pos hh] at h
      simp only at h
      by_cases hc : ext.create_program (hud_sources version).1 (hud_sources version).2 < 0
      · rw [if_pos hc] at h
        cases h; rfl
      · rw [if_neg hc] at h
        by_cases hl : ext.link_program
            (ext.create_program (hud_sources version).1 (hud_sources version).2).toNat ≠ 0
        · rw [if_pos hl] at h
          cases h; rfl
        · rw [if_neg hl] at h
          cases h; rfl
    · rw [if_neg hh] at h
      cases h; rfl
  · rw [he] at h
    cases h; rfl

/-- With the overlay requested, every return of `init_shadertoy` leaves in
`shader_filename` the value set by lines 510-513. -/
theorem init_shadertoy_returned_label (ext : External) (gbm : Gbm) (path : List Char)
    (options : Options) (st : ShadertoyState) (gl : GLState)
    (ret : Int) (st1 : ShadertoyState) (events : List Event) (gl1 : GLState)
    (hhud : options.show_hud = true)
    (h : init_shadertoy ext gbm (some path) options st gl = .returned ret st1 events gl1) :
    st1.globals.shader_filename =
      some (match strrchr path '/' with
        | some basename => basename.drop 1
        | none => path) := by
  unfold init_shadertoy at h
  simp only [hhud, if_true] at h
  cases hload : ext.load_shader (some path) with
  | error status => rw [hload] at h; cases h
  | ok shader =>
    rw [hload] at h
    simp only at h
    cases hver : glsl_version ext.regcomp_ret ext.shading_language_version ext.trailing with
    | error status => rw [hver] at h; cases h
    | ok version =>
      rw [hver] at h
      simp only at h
      cases hsrc : init_shadertoy_sources version shader with
      | error code =>
        rw [hsrc] at h
        simp only at h
        cases h
        rfl
      | ok src =>
        rw [hsrc] at h
        simp only at h
        by_cases hc : ext.create_program src.1 src.2 < 0
        · rw [if_pos hc] at h
          cases h
          rfl
        · rw [if_neg hc] at h
          by_cases hl : ext.link_program (ext.create_program src.1 src.2).toNat ≠ 0
          · rw [if_pos hl] at h
            cases h
            rfl
          · rw [if_neg hl] at h
            exact (init_shadertoy_hud_label ext version _ _ _ ret st1 events gl1 h).1

/-- Every return of `init_shadertoy` after the sources were built has the call
of `create_program` on them as its first event. -/
theorem init_shadertoy_returned_head (ext : External) (gbm : Gbm) (file : Option (List Char))
    (options : Options) (st : ShadertoyState) (gl : GLState)
    (ret : Int) (st1 : ShadertoyState) (events : List Event) (gl1 : GLState)
    (shader version : List Char) (src : List Char × List Char)
    (hload : ext.load_shader file = .ok shader)
    (hver : glsl_version ext.regcomp_ret ext.shading_language_version ext.trailing = .ok version)
    (hsrc : init_shadertoy_sources version shader = .ok src)
    (h : init_shadertoy ext gbm file options st gl = .returned ret st1 events gl1) :
    events.head? = some (Event.create_program src.1 src.2) := by
  unfold init_shadertoy at h
  simp only [hload, hver, hsrc] at h
  by_cases hc : ext.create_program src.1 src.2 < 0
  · rw [if_pos hc] at h
    cases h
    rfl
  · rw [if_neg hc] at h
    by_cases hl : ext.link_program (ext.create_program src.1 src.2).toNat ≠ 0
    · rw [if_pos hl] at h
      cases h
      rfl
    · rw [if_neg hl] at h
      obtain ⟨_, extra, hextra⟩ :=
        init_shadertoy_hud_label ext version _ _ _ ret st1 events gl1 h
      rw [hextra]
      rfl

/-- C21: when the overlay is requested (`options->show_hud`), for every shader
file path every return of `init_shadertoy` leaves as label (`shader_filename`)
the basename of the path, and `init_shadertoy` does return once the shader is
loaded and the sources are built.  The basename is the text after the last `/`
of the path, or the whole path when it contains no `/`: it contains no `/`, and
the path is the label itself or some directory part, a `/` and the label. -/
theorem init_shadertoy_label_basename (ext : External) (gbm : Gbm) (path : List Char)
    (options : Options) (st : ShadertoyState) (gl : GLState)
    (hhud : options.show_hud = true) :
    (∀ (ret : Int) (st1 : ShadertoyState) (events : List Event) (gl1 : GLState),
      init_shadertoy ext gbm (some path) options st gl = .returned ret st1 events gl1 →
        st1.globals.shader_filename = some (specBasename path)) ∧
    (∀ (shader version : List Char) (src : List Char × List Char),
      ext.load_shader (some path) = .ok shader →
      glsl_version ext.regcomp_ret ext.shading_language_version ext.trailing = .ok version →
      init_shadertoy_sources version shader = .ok src →
      ∃ ret st1 events gl1,
        init_shadertoy ext gbm (some path) options st gl = .returned ret st1 events gl1 ∧
        st1.globals.shader_filename = some (specBasename path)) ∧
    '/' ∉ specBasename path ∧
    (path = specBasename path ∨ ∃ dir, path = dir ++ '/' :: specBasename path) ∧
    ('/' ∉ path → specBasename path = path) ∧
    (∀ dir name : List Char, path = dir ++ '/' :: name → '/' ∉ name →
      specBasename path = name) := by
  have hret : ∀ (ret : Int) (st1 : ShadertoyState) (events : List Event) (gl1 : GLState),
      init_shadertoy ext gbm (some path) options st gl = .returned ret st1 events gl1 →
        st1.globals.shader_filename = some (specBasename path) := by
    intro ret st1 events gl1 h
    rw [init_shadertoy_returned_label ext gbm path options st gl ret st1 events gl1 hhud h,
      label_eq_specBasename]
  refine ⟨hret, ?_, (specBasename_shape path).1, (specBasename_shape path).2,
    specBasename_of_not_mem path, ?_⟩
  · intro shader version src hload hver hsrc
    obtain ⟨ret, st1, events, gl1, h⟩ :=
      init_shadertoy_total ext gbm (some path) options st gl shader version src hload hver hsrc
    exact ⟨ret, st1, events, gl1, h, hret ret st1 events gl1 h⟩
  · intro dir name hp hn
    rw [hp]
    exact specBasename_of_split dir name hn

/-- Witness for `init_shadertoy_label_basename`: the path `shaders/wave.frag`
in the example environment gives the label `wave.frag`. -/
theorem init_shadertoy_label_basename_witness :
    specBasename "shaders/wave.frag".toList = "wave.frag".toList ∧
    ∃ ret st1 events gl1,
      init_shadertoy (exampleExternal 3 4) ⟨1920, 1080⟩ (some "shaders/wave.frag".toList)
        ⟨true⟩ initial_state exampleContext = .returned ret st1 events gl1 ∧
      st1.globals.shader_filename = some (specBasename "shaders/wave.frag".toList) :=
  ⟨by decide,
    (init_shadertoy_label_basename (exampleExternal 3 4) ⟨1920, 1080⟩
      "shaders/wave.frag".toList ⟨true⟩ initial_state exampleContext rfl).2.1 _ _
      exampleSources rfl (example_version 3 4) example_sources⟩

theorem glsl_version_ok_regcomp (regcomp_ret : Int) (s : List Char) (after : Trailing)
    (d : List Char) (h : glsl_version regcomp_ret s after = .ok d) : regcomp_ret = 0 := by
  by_contra hne
  unfold glsl_version at h
  rw [if_pos hne] at h
  cases h

theorem isDigitClass_range (c : Char) (h : isDigitClass c = true) : '0' ≤ c ∧ c ≤ '9' := by
  unfold isDigitClass at h
  simpa using h

/-- C22: for every driver string (every return code of `regcomp`, and whatever
follows the blocks of `extract_group` in memory), a directive value returned
by `glsl_version` is empty or begins with a decimal digit.  So `strtol` consumes at least one character of a non-empty directive,
`init_shadertoy` builds its sources for every shader text, and no return of
`init_shadertoy` is the `return -1` of the "failed to parse detected GLSL
version" branch: every return comes after the call of `create_program` on the
sources built. -/
theorem glsl_version_directive_parses (regcomp_ret : Int) (s d : List Char)
    (after : Trailing)
    (h : glsl_version regcomp_ret s after = .ok d) :
    (d = [] ∨ ∃ c rest, d = c :: rest ∧ '0' ≤ c ∧ c ≤ '9') ∧
    (d ≠ [] → 1 ≤ (strtol d).2) ∧
    (∀ shader : List Char, ∃ src, init_shadertoy_sources d shader = .ok src) ∧
    (∀ (ext : External) (gbm : Gbm) (file : Option (List Char)) (options : Options)
        (st : ShadertoyState) (gl : GLState) (ret : Int) (st1 : ShadertoyState)
        (events : List Event) (gl1 : GLState),
      ext.regcomp_ret = regcomp_ret → ext.shading_language_version = s →
      ext.trailing = after →
      init_shadertoy ext gbm file options st gl = .returned ret st1 events gl1 →
        ∃ shader src, ext.load_shader file = .ok shader ∧
          init_shadertoy_sources d shader = .ok src ∧
          events.head? = some (Event.create_program src.1 src.2)) := by
  have h0 := glsl_version_ok_regcomp regcomp_ret s after d h
  subst h0
  have hshape := glsl_version_ok_shape s after d h
  have hsrc : ∀ shader : List Char, ∃ src, init_shadertoy_sources d shader = .ok src := by
    intro shader
    rcases hshape with hd | ⟨c, rest, hd, hc⟩
    · rw [hd]; exact ⟨_, init_shadertoy_sources_nil shader⟩
    · rw [hd]; exact ⟨_, init_shadertoy_sources_of_digit c rest shader hc⟩
  refine ⟨?_, ?_, hsrc, ?_⟩
  · rcases hshape with hd | ⟨c, rest, hd, hc⟩
    · exact Or.inl hd
    · exact Or.inr ⟨c, rest, hd, isDigitClass_range c hc⟩
  · intro hne
    rcases hshape with hd | ⟨c, rest, hd, hc⟩
    · exact absurd hd hne
    · rw [hd, strtol_of_digit c rest hc]
      show 1 ≤ ((c :: rest).takeWhile isDigitClass).length
      rw [List.takeWhile_cons_of_pos hc]
      exact Nat.succ_le_succ (Nat.zero_le _)
  · intro ext gbm file options st gl ret st1 events gl1 hr hs ha hinit
    obtain ⟨shader, version, hload, hver, _⟩ :=
      init_shadertoy_returned ext gbm file options st gl ret st1 events gl1 hinit
    rw [hr, hs, ha, h] at hver
    cases Except.ok.inj hver
    obtain ⟨src, hsrc1⟩ := hsrc shader
    refine ⟨shader, src, hload, hsrc1, ?_⟩
    exact init_shadertoy_returned_head ext gbm file options st gl ret st1 events gl1
      shader d src hload (by rw [hr, hs, ha, h]) hsrc1 hinit

/-- Witness for `glsl_version_directive_parses`: the driver string
`OpenGL ES GLSL ES 3.10`, whose directive value is `310 es`. -/
theorem glsl_version_directive_parses_witness :
    "310 es".toList = [] ∨ ∃ c rest, "310 es".toList = c :: rest ∧ '0' ≤ c ∧ c ≤ '9' :=
  (glsl_version_directive_parses 0 "OpenGL ES GLSL ES 3.10".toList "310 es".toList
    terminated (example_version 3 4)).1

end Shadertoy
